import Mathlib

/-!
# labour-thekedar-backend: balance engine and credential/session module

A shallow embedding of the parts of the Go sources that the specification's
testable properties talk about:

* `internal/models` : the entity records and the error values;
* `internal/repository/payment_repository.go` : `PaymentRepository.GetBalance`,
  with the relational store made explicit as a record of row lists and each SQL
  statement read as the list query it denotes;
* `pkg/otp/mock_otp.go` : the in-memory passcode store, with the wall clock and
  the random source passed in as arguments;
* `internal/service/auth_service.go` : token issue, validation and refresh, over a
  small model of the calls it makes into `github.com/golang-jwt/jwt/v5`;
* `internal/repository`, `internal/service` : the create, update, delete and
  assignment operations on projects, labourers, attendance and payments, with the
  date parsing of the standard library written out;
* `internal/middleware`, `internal/handler` : the bearer-token middleware and the
  project, labour, attendance and payment handlers, a response being a status code
  and a body.

Conventions.  `uuid.UUID` is a natural number (`uuid.Nil` is `0`), `time.Time`
is an integer count of nanoseconds, `decimal.Decimal` and SQL `numeric` are
rationals (both are exact, arbitrary-precision decimals, so every operation
used here is the rational one), and a method returning `(T, error)` returns an
`Except Err T`.  Store failures (lost connection, scan errors) are not part of
the model: a query on the explicit store always answers.
-/

namespace LabourThekedar

/-! ## Basic types -/

/-- A `uuid.UUID`: a 128-bit identifier. -/
abbrev UUID := Nat

/-- A `time.Time`, in nanoseconds. -/
abbrev Time := Int

/-- A `decimal.Decimal` / SQL `numeric`: an exact decimal number. -/
abbrev Decimal := ℚ

/-- The error values of `internal/models/errors.go`, and `Other` for errors created
in place with `errors.New` or handed up from a library. -/
inductive Err where
  | ErrInvalidPhone
  | ErrInvalidName
  | ErrInvalidAmount
  | ErrInvalidDate
  | ErrInvalidStatus
  | ErrInvalidPaymentType
  | ErrInvalidProject
  | ErrInvalidLabour
  | ErrInvalidOTP
  | ErrNotFound
  | ErrAlreadyExists
  | ErrUnauthorized
  | ErrForbidden
  | Other (msg : String)
  deriving DecidableEq, Repr

/-! ## Entities (`internal/models`) -/

/-- The `WorkStatus` constants. -/
def WorkStatusFullDay : String := "full_day"
def WorkStatusHalfDay : String := "half_day"
def WorkStatusAbsent : String := "absent"

/-- The `PaymentType` constants. -/
def PaymentTypeAdvance : String := "advance"
def PaymentTypeDailyWage : String := "daily_wage"
def PaymentTypeBonus : String := "bonus"

/-- A row of `users`. -/
structure User where
  ID : UUID
  Phone : String
  Name : String
  CreatedAt : Time
  UpdatedAt : Time
  deriving DecidableEq, Repr

/-- A row of `projects`. -/
structure Project where
  ID : UUID
  UserID : UUID
  Name : String
  Description : String
  CreatedAt : Time
  UpdatedAt : Time
  deriving DecidableEq, Repr

/-- A row of `labours`. -/
structure Labour where
  ID : UUID
  Name : String
  Phone : String
  DailyWage : Decimal
  CreatedAt : Time
  UpdatedAt : Time
  deriving DecidableEq

/-- A row of `project_labours`. -/
structure ProjectLabour where
  ProjectID : UUID
  LabourID : UUID
  AssignedAt : Time
  deriving DecidableEq, Repr

/-- A row of `work_days`. -/
structure WorkDay where
  ID : UUID
  ProjectID : UUID
  LabourID : UUID
  WorkDate : Time
  Status : String
  Notes : String
  CreatedAt : Time
  deriving DecidableEq, Repr

/-- A row of `payments`. -/
structure Payment where
  ID : UUID
  ProjectID : UUID
  LabourID : UUID
  Amount : Decimal
  PaymentDate : Time
  PaymentType : String
  Notes : String
  CreatedAt : Time
  deriving DecidableEq

/-- The `BalanceResponse` of `internal/models/payment.go`. -/
structure BalanceResponse where
  LabourID : UUID
  LabourName : String
  TotalEarned : Decimal
  TotalPaid : Decimal
  Balance : Decimal
  deriving DecidableEq

/-- The relational store: one list of rows per table. -/
structure DB where
  users : List User
  projects : List Project
  labours : List Labour
  project_labours : List ProjectLabour
  work_days : List WorkDay
  payments : List Payment

/-! ## The balance engine (`PaymentRepository.GetBalance`) -/

/-- The SQL expression
`CASE status WHEN 'full_day' THEN 1.0 WHEN 'half_day' THEN 0.5 ELSE 0 END`. -/
def statusMultiplier (status : String) : Decimal :=
  if status = "full_day" then 1
  else if status = "half_day" then 1 / 2
  else 0

/-- The rows selected by `FROM work_days WHERE project_id = $1 AND labour_id = $2`. -/
def workDaysOf (db : DB) (projectID labourID : UUID) : List WorkDay :=
  db.work_days.filter (fun w => w.ProjectID == projectID && w.LabourID == labourID)

/-- The rows selected by `FROM payments WHERE project_id = $1 AND labour_id = $2`. -/
def paymentsOf (db : DB) (projectID labourID : UUID) : List Payment :=
  db.payments.filter (fun p => p.ProjectID == projectID && p.LabourID == labourID)

/-- The query `SELECT name, daily_wage FROM labours WHERE id = $1` read with
`QueryRow(...).Scan`: the first matching row, `none` standing for `pgx.ErrNoRows`. -/
def labourQuery (db : DB) (labourID : UUID) : Option Labour :=
  db.labours.find? (fun l => l.ID == labourID)

/-- The query `earnedQuery`: `COALESCE(SUM(CASE status ... END), 0)` over the
attendance rows of the pair (the sum of no rows is `NULL`, coalesced to `0`). -/
def earnedQuery (db : DB) (projectID labourID : UUID) : Decimal :=
  ((workDaysOf db projectID labourID).map (fun w => statusMultiplier w.Status)).sum

/-- The query `paidQuery`: `COALESCE(SUM(amount), 0)` over the payment rows of the pair. -/
def paidQuery (db : DB) (projectID labourID : UUID) : Decimal :=
  ((paymentsOf db projectID labourID).map (fun p => p.Amount)).sum

/-- `PaymentRepository.GetBalance`. -/
def GetBalance (db : DB) (projectID labourID : UUID) : Except Err BalanceResponse :=
  match labourQuery db labourID with
  | none => .error .ErrNotFound
  | some l =>
    let workDayMultiplier := earnedQuery db projectID labourID
    let totalEarned := l.DailyWage * workDayMultiplier
    let totalPaid := paidQuery db projectID labourID
    .ok { LabourID := labourID
          LabourName := l.Name
          TotalEarned := totalEarned
          TotalPaid := totalPaid
          Balance := totalEarned - totalPaid }

/-- The store of the specification's worked example: one labourer with wage
`1000.00`, two `full_day` and one `half_day` record and payments of `1000.00` and
`600.00` for the pair `(1, 7)`, next to an `absent` record of the pair and records
of another project and of another labourer. -/
def exampleDB : DB :=
  { users := []
    projects := []
    labours := [⟨7, "Ramesh", "", 1000, 0, 0⟩, ⟨8, "Suresh", "", 450, 0, 0⟩]
    project_labours := [⟨1, 7, 0⟩]
    work_days :=
      [⟨1, 1, 7, 10, "full_day", "", 0⟩, ⟨2, 1, 7, 20, "half_day", "", 0⟩,
       ⟨3, 2, 7, 20, "full_day", "", 0⟩, ⟨4, 1, 7, 30, "full_day", "", 0⟩,
       ⟨5, 1, 8, 30, "full_day", "", 0⟩, ⟨6, 1, 7, 40, "absent", "", 0⟩]
    payments :=
      [⟨1, 1, 7, 1000, 10, "advance", "", 0⟩, ⟨2, 1, 7, 600, 20, "bonus", "", 0⟩,
       ⟨3, 2, 7, 5000, 20, "daily_wage", "", 0⟩, ⟨4, 1, 8, 70, 20, "advance", "", 0⟩] }

/-! ## The passcode store (`pkg/otp/mock_otp.go`) -/

/-- One `time.Minute`, in nanoseconds. -/
def Minute : Time := 60 * 1000000000

/-- One `time.Hour`, in nanoseconds. -/
def Hour : Time := 60 * Minute

/-- A stored passcode (`MockOTPStore`). -/
structure MockOTPStore where
  Code : String
  ExpiresAt : Time
  deriving DecidableEq, Repr

/-- The provider (`MockProvider`); the Go map `otps` is read as its lookup
function from phone numbers to stored passcodes, and the mutex leaves no trace in a
sequential reading. -/
structure MockProvider where
  otps : String → Option MockOTPStore
  useFixedOTP : Bool

/-- `NewMockProvider`: an empty map. -/
def NewMockProvider (useFixedOTP : Bool) : MockProvider :=
  { otps := fun _ => none, useFixedOTP := useFixedOTP }

/-- `fmt.Sprintf("%06d", n)` for `n ≥ 0`: the decimal digits of `n`, padded with
zeros on the left to width 6. -/
def sprintf06d (n : Nat) : String :=
  let ds := Nat.toDigits 10 n
  String.mk (List.replicate (6 - ds.length) '0' ++ ds)

/-- `generateOTP`; `rnd` is what `rand.Int(rand.Reader, 1000000)` answered, `none`
when it failed. -/
def generateOTP (rnd : Option Nat) : String :=
  match rnd with
  | none => "123456"
  | some n => sprintf06d n

/-- Go's `m[k] = v`. -/
def mapSet (otps : String → Option MockOTPStore) (phone : String) (v : MockOTPStore) :
    String → Option MockOTPStore :=
  fun p => if p = phone then some v else otps p

/-- Go's `delete(m, k)`. -/
def mapDelete (otps : String → Option MockOTPStore) (phone : String) :
    String → Option MockOTPStore :=
  fun p => if p = phone then none else otps p

/-- `MockProvider.SendOTP` at wall-clock time `now`: the new provider state and the
returned `(code, error)`. -/
def SendOTP (m : MockProvider) (now : Time) (rnd : Option Nat) (phone : String) :
    MockProvider × Except Err String :=
  let code := if m.useFixedOTP then "123456" else generateOTP rnd
  ({ m with otps := mapSet m.otps phone { Code := code, ExpiresAt := now + 5 * Minute } },
   .ok code)

/-- `MockProvider.VerifyOTP` at wall-clock time `now`: the new provider state and the
returned `(verified, error)`. -/
def VerifyOTP (m : MockProvider) (now : Time) (phone code : String) :
    MockProvider × Except Err Bool :=
  match m.otps phone with
  | none => (m, .ok false)
  | some stored =>
    if now > stored.ExpiresAt then
      ({ m with otps := mapDelete m.otps phone }, .ok false)
    else if stored.Code ≠ code then
      (m, .ok false)
    else
      ({ m with otps := mapDelete m.otps phone }, .ok true)

/-- The body of the loop of `MockProvider.cleanupExpired`, run at time `now`. -/
def cleanupExpired (m : MockProvider) (now : Time) : MockProvider :=
  { m with otps := fun p =>
      match m.otps p with
      | none => none
      | some stored => if now > stored.ExpiresAt then none else some stored }

/-- The operations that change a provider. -/
inductive OtpOp where
  | send (now : Time) (rnd : Option Nat) (phone : String)
  | verify (now : Time) (phone code : String)
  | sweep (now : Time)

/-- An operation that issues a passcode for `phone`. -/
def OtpOp.isSendTo (phone : String) : OtpOp → Bool
  | .send _ _ p => p == phone
  | _ => false

/-- The provider after one operation. -/
def OtpOp.run (m : MockProvider) : OtpOp → MockProvider
  | .send now rnd phone => (SendOTP m now rnd phone).1
  | .verify now phone code => (VerifyOTP m now phone code).1
  | .sweep now => cleanupExpired m now

/-- The provider after a sequence of operations, first to last. -/
def runOps (m : MockProvider) (ops : List OtpOp) : MockProvider :=
  ops.foldl OtpOp.run m

/-! ## Session tokens (`internal/service/auth_service.go`)

The service calls `jwt.NewWithClaims`, `Token.SignedString` and
`jwt.ParseWithClaims` of `github.com/golang-jwt/jwt/v5`.  Those calls are written
out below as far as the service depends on them.  The keyed hash and the
base64url/JSON rendering of header and payload are arguments (`JWTCodec`); a token
string is kept as the segments it decodes to. -/

/-- A byte string. -/
abbrev Bytes := List Nat

/-- One `time.Second`, in nanoseconds (`jwt.TimePrecision`). -/
def Second : Time := 1000000000

/-- `jwt.NewNumericDate`: the time truncated to `jwt.TimePrecision`. -/
def NewNumericDate (t : Time) : Time := t - t % Second

/-- `uuid.UUID.String`: 32 hexadecimal digits grouped 8-4-4-4-12. -/
def uuidString (u : UUID) : String :=
  let ds := Nat.toDigits 16 u
  let p := List.replicate (32 - ds.length) '0' ++ ds
  String.mk (p.take 8 ++ '-' :: (p.drop 8).take 4 ++ '-' :: (p.drop 12).take 4 ++
    '-' :: (p.drop 16).take 4 ++ '-' :: p.drop 20)

/-- The fields of `jwt.RegisteredClaims`. -/
structure RegisteredClaims where
  Issuer : String := ""
  Subject : String := ""
  Audience : List String := []
  ExpiresAt : Option Time := none
  NotBefore : Option Time := none
  IssuedAt : Option Time := none
  ID : String := ""
  deriving DecidableEq, Repr

/-- The service's `Claims`. -/
structure Claims where
  UserID : UUID
  Phone : String
  RegisteredClaims : RegisteredClaims
  deriving DecidableEq, Repr

/-- The signing methods the library registers. -/
inductive SigningMethod where
  | HS256 | HS384 | HS512
  | RS256 | RS384 | RS512
  | PS256 | PS384 | PS512
  | ES256 | ES384 | ES512
  | EdDSA
  | none
  deriving DecidableEq, Repr

/-- `SigningMethod.Alg`. -/
def SigningMethod.Alg : SigningMethod → String
  | .HS256 => "HS256" | .HS384 => "HS384" | .HS512 => "HS512"
  | .RS256 => "RS256" | .RS384 => "RS384" | .RS512 => "RS512"
  | .PS256 => "PS256" | .PS384 => "PS384" | .PS512 => "PS512"
  | .ES256 => "ES256" | .ES384 => "ES384" | .ES512 => "ES512"
  | .EdDSA => "EdDSA"
  | .none => "none"

/-- `jwt.GetSigningMethod`: the method registered under a header's `alg`. -/
def GetSigningMethod (alg : String) : Option SigningMethod :=
  [SigningMethod.HS256, .HS384, .HS512, .RS256, .RS384, .RS512, .PS256, .PS384, .PS512,
   .ES256, .ES384, .ES512, .EdDSA, .none].find? (fun m => m.Alg == alg)

/-- The type assertion `token.Method.(*jwt.SigningMethodHMAC)`. -/
def SigningMethod.isHMAC : SigningMethod → Bool
  | .HS256 | .HS384 | .HS512 => true
  | _ => false

/-- What the library computes outside this repository: `hmac m key msg` is the HMAC
of `msg` under `key` with the hash of method `m`, and `encodeSegments alg claims`
is the text `base64url(header) . base64url(payload)` of a token with that `alg`
and those claims.  A `[]byte` key is given by the string it was converted from. -/
structure JWTCodec where
  hmac : SigningMethod → String → String → Bytes
  encodeSegments : String → Claims → String

/-- The compact serialisation of a token in decoded view: the text of its first two
segments, the `alg` and the claims that text decodes to, and the signature bytes. -/
structure CompactToken where
  signingString : String
  alg : String
  claims : Claims
  signature : Bytes
  deriving DecidableEq, Repr

/-- A token string handed to the parser; `none` is a string that does not split
into three segments decoding to a JSON header, JSON claims and a signature. -/
abbrev TokenString := Option CompactToken

/-- A parsed `jwt.Token`. -/
structure Token where
  Raw : CompactToken
  Method : SigningMethod
  Claims : Claims
  Valid : Bool
  deriving DecidableEq, Repr

/-- `SigningMethod.Sign` with a `[]byte` key: the HMAC methods sign, every other
method refuses the key type. -/
def SigningMethod.Sign (lib : JWTCodec) (m : SigningMethod) (signingString key : String) :
    Except Err Bytes :=
  if m.isHMAC then .ok (lib.hmac m key signingString)
  else .error (.Other "key is of invalid type")

/-- `SigningMethod.Verify` with a `[]byte` key. -/
def SigningMethod.Verify (lib : JWTCodec) (m : SigningMethod) (signingString : String)
    (sig : Bytes) (key : String) : Except Err Unit :=
  if m.isHMAC then
    if sig = lib.hmac m key signingString then .ok ()
    else .error (.Other "signature is invalid")
  else .error (.Other "key is of invalid type")

/-- `Token.SignedString` of `jwt.NewWithClaims(method, claims)`. -/
def SignedString (lib : JWTCodec) (method : SigningMethod) (claims : Claims) (key : String) :
    Except Err TokenString :=
  let sstr := lib.encodeSegments method.Alg claims
  match method.Sign lib sstr key with
  | .error e => .error e
  | .ok sig =>
    .ok (some { signingString := sstr, alg := method.Alg, claims := claims, signature := sig })

/-- The library's default claims validator at time `now`: `exp`, when present, must
be after `now`, and `nbf`, when present, must not be after `now`; `iat` is not
checked. -/
def validateClaims (now : Time) (c : RegisteredClaims) : Except Err Unit :=
  let expOk := match c.ExpiresAt with
    | none => true
    | some exp => decide (now < exp)
  let nbfOk := match c.NotBefore with
    | none => true
    | some nbf => !decide (now < nbf)
  if expOk && nbfOk then .ok ()
  else if expOk then .error (.Other "token has invalid claims: token is not valid yet")
  else .error (.Other "token has invalid claims: token is expired")

/-- `jwt.ParseWithClaims(tokenString, &Claims{}, keyFunc)` at time `now`. -/
def ParseWithClaims (lib : JWTCodec) (now : Time) (tokenString : TokenString)
    (keyFunc : Token → Except Err String) : Except Err Token :=
  match tokenString with
  | none => .error (.Other "token is malformed")
  | some raw =>
    match GetSigningMethod raw.alg with
    | none => .error (.Other "token is unverifiable: signing method (alg) is unavailable")
    | some method =>
      let token : Token := { Raw := raw, Method := method, Claims := raw.claims, Valid := false }
      match keyFunc token with
      | .error _ => .error (.Other "token is unverifiable: error while executing keyfunc")
      | .ok key =>
        match method.Verify lib raw.signingString raw.signature key with
        | .error _ => .error (.Other "token signature is invalid")
        | .ok _ =>
          match validateClaims now token.Claims.RegisteredClaims with
          | .error e => .error e
          | .ok _ => .ok { token with Valid := true }

/-- `AuthService.validateToken`, with the validator's clock reading `now`. -/
def validateToken (lib : JWTCodec) (jwtSecret : String) (now : Time)
    (tokenString : TokenString) : Except Err Claims :=
  match ParseWithClaims lib now tokenString (fun token =>
      if !token.Method.isHMAC then .error (.Other "unexpected signing method")
      else .ok jwtSecret) with
  | .error e => .error e
  | .ok token =>
    if !token.Valid then .error (.Other "invalid token")
    else .ok token.Claims

/-- `AuthService.ValidateToken`. -/
def ValidateToken (lib : JWTCodec) (jwtSecret : String) (now : Time)
    (tokenString : TokenString) : Except Err Claims :=
  validateToken lib jwtSecret now tokenString

/-- The service's `TokenResponse`. -/
structure TokenResponse where
  AccessToken : TokenString
  RefreshToken : TokenString
  ExpiresAt : Time
  User : User
  deriving DecidableEq, Repr

/-- `AuthService.generateTokens`, with `time.Now()` reading `now`. -/
def generateTokens (lib : JWTCodec) (jwtSecret : String) (now : Time) (user : User) :
    Except Err TokenResponse :=
  let accessExpiry := now + 24 * Hour
  let refreshExpiry := now + 7 * 24 * Hour
  let accessClaims : Claims :=
    { UserID := user.ID
      Phone := user.Phone
      RegisteredClaims :=
        { ExpiresAt := some (NewNumericDate accessExpiry)
          IssuedAt := some (NewNumericDate now)
          Subject := uuidString user.ID } }
  match SignedString lib .HS256 accessClaims jwtSecret with
  | .error e => .error e
  | .ok accessTokenString =>
    let refreshClaims : Claims :=
      { UserID := user.ID
        Phone := user.Phone
        RegisteredClaims :=
          { ExpiresAt := some (NewNumericDate refreshExpiry)
            IssuedAt := some (NewNumericDate now)
            Subject := uuidString user.ID } }
    match SignedString lib .HS256 refreshClaims jwtSecret with
    | .error e => .error e
    | .ok refreshTokenString =>
      .ok { AccessToken := accessTokenString
            RefreshToken := refreshTokenString
            ExpiresAt := accessExpiry
            User := user }

/-- The claims `generateTokens` builds for a user at time `now` with the given
expiry (the literal `&Claims{...}` of the source, for either token). -/
def issuedClaims (user : User) (now expiry : Time) : Claims :=
  { UserID := user.ID
    Phone := user.Phone
    RegisteredClaims :=
      { ExpiresAt := some (NewNumericDate expiry)
        IssuedAt := some (NewNumericDate now)
        Subject := uuidString user.ID } }

/-- The `HS256` token string over the given claims under the given key. -/
def hs256Token (lib : JWTCodec) (key : String) (claims : Claims) : CompactToken :=
  { signingString := lib.encodeSegments "HS256" claims
    alg := "HS256"
    claims := claims
    signature := lib.hmac .HS256 key (lib.encodeSegments "HS256" claims) }

/-- A stand-in keyed hash and segment rendering, for evaluating the token functions
on concrete inputs. -/
def toyCodec : JWTCodec :=
  { hmac := fun m key msg => (m.Alg ++ "|" ++ key ++ "|" ++ msg).toList.map Char.toNat
    encodeSegments := fun alg c => alg ++ "." ++ toString c.UserID ++ "." ++ c.Phone }

/-! ## Calendar dates (`time.Parse("2006-01-02", s)`)

The services parse their date strings with the layout `2006-01-02` of the Go
standard library.  That layout accepts exactly four digits, `-`, two digits that
are a month `01`..`12`, `-`, and two digits that are a day of that month of that
year, with nothing before or after; the result is midnight UTC of the date.  A
`time.Time` counts nanoseconds from the zero time, midnight UTC of 1 January of
year 1, so `Time.IsZero` is equality with `0`. -/

/-- The `isDigit` of package `time`: an ASCII decimal digit. -/
def isDigit (c : Char) : Bool := '0'.toNat ≤ c.toNat && c.toNat ≤ '9'.toNat

/-- Value of an ASCII decimal digit. -/
def digitVal (c : Char) : Nat := c.toNat - '0'.toNat

/-- The `isLeap` of package `time`. -/
def isLeap (year : Nat) : Bool := year % 4 == 0 && (year % 100 != 0 || year % 400 == 0)

/-- The table `daysBefore` of package `time`: days of a non-leap year before the
end of month `m` (`daysBefore[0] = 0`). -/
def daysBefore : List Nat := [0, 31, 59, 90, 120, 151, 181, 212, 243, 273, 304, 334, 365]

/-- The `daysIn` of package `time`. -/
def daysIn (month year : Nat) : Nat :=
  if month == 2 && isLeap year then 29
  else daysBefore.getD month 0 - daysBefore.getD (month - 1) 0

/-- Days from 1 January of year 0 to the given date (years `0 ≤ year`). -/
def daysFromYearZero (year month day : Nat) : Nat :=
  365 * year + (year + 3) / 4 - (year + 99) / 100 + (year + 399) / 400 +
    daysBefore.getD (month - 1) 0 + (if month > 2 && isLeap year then 1 else 0) + (day - 1)

/-- One day, in nanoseconds. -/
def Day : Time := 24 * Hour

/-- `time.Date(year, month, day, 0, 0, 0, 0, time.UTC)`; year 0 has 366 days. -/
def dateUTC (year month day : Nat) : Time :=
  ((daysFromYearZero year month day : Int) - 366) * Day

/-- The fields of a string in the layout `2006-01-02`, `none` when the string does
not have that form or names no calendar date. -/
def parseYMD (s : String) : Option (Nat × Nat × Nat) :=
  match s.toList with
  | [y1, y2, y3, y4, s1, m1, m2, s2, d1, d2] =>
    if isDigit y1 && isDigit y2 && isDigit y3 && isDigit y4 && s1 == '-' &&
        isDigit m1 && isDigit m2 && s2 == '-' && isDigit d1 && isDigit d2 then
      let year := 1000 * digitVal y1 + 100 * digitVal y2 + 10 * digitVal y3 + digitVal y4
      let month := 10 * digitVal m1 + digitVal m2
      let day := 10 * digitVal d1 + digitVal d2
      if month == 0 || month > 12 then none
      else if day < 1 || day > daysIn month year then none
      else some (year, month, day)
    else none
  | _ => none

/-- `time.Parse("2006-01-02", s)`: `none` stands for a non-nil error. -/
def timeParse (s : String) : Option Time :=
  match parseYMD s with
  | none => none
  | some (year, month, day) => some (dateUTC year month day)

/-- The ASCII digit of a number below ten. -/
def digitChar (k : Nat) : Char := Char.ofNat ('0'.toNat + k)

/-- The text `YYYY-MM-DD` of a date with a year below 10000. -/
def formatYMD (year month day : Nat) : String :=
  String.mk [digitChar (year / 1000 % 10), digitChar (year / 100 % 10),
    digitChar (year / 10 % 10), digitChar (year % 10), '-',
    digitChar (month / 10 % 10), digitChar (month % 10), '-',
    digitChar (day / 10 % 10), digitChar (day % 10)]

/-- A valid calendar date in the form `YYYY-MM-DD`: the text of a year `0000`..`9999`,
a month `01`..`12` and a day `01`..the length of that month in that year. -/
def isCalendarDate (s : String) : Prop :=
  ∃ year month day, year ≤ 9999 ∧ 1 ≤ month ∧ month ≤ 12 ∧ 1 ≤ day ∧ day ≤ daysIn month year ∧
    s = formatYMD year month day

/-- `Time.IsZero`. -/
def Time.IsZero (t : Time) : Bool := t == 0

/-! ## Validation (`internal/models`) -/

/-- `WorkStatus.IsValid`. -/
def WorkStatus.IsValid (ws : String) : Bool :=
  ws == "full_day" || ws == "half_day" || ws == "absent"

/-- `PaymentType.IsValid`. -/
def PaymentType.IsValid (pt : String) : Bool :=
  pt == "advance" || pt == "daily_wage" || pt == "bonus"

/-- Go's `len(s)` of a string: its length in bytes. -/
def len (s : String) : Nat := s.utf8ByteSize

/-- `Project.Validate`. -/
def Project.Validate (p : Project) : Except Err Unit :=
  if p.Name = "" then .error .ErrInvalidName
  else if len p.Name > 255 then .error .ErrInvalidName
  else .ok ()

/-- `Labour.Validate`. -/
def Labour.Validate (l : Labour) : Except Err Unit :=
  if l.Name = "" then .error .ErrInvalidName
  else if len l.Name > 255 then .error .ErrInvalidName
  else if l.DailyWage < 0 then .error .ErrInvalidAmount
  else .ok ()

/-- `WorkDay.Validate`. -/
def WorkDay.Validate (wd : WorkDay) : Except Err Unit :=
  if wd.ProjectID = 0 then .error .ErrInvalidProject
  else if wd.LabourID = 0 then .error .ErrInvalidLabour
  else if wd.WorkDate.IsZero then .error .ErrInvalidDate
  else if !WorkStatus.IsValid wd.Status then .error .ErrInvalidStatus
  else .ok ()

/-- `Payment.Validate`. -/
def Payment.Validate (p : Payment) : Except Err Unit :=
  if p.ProjectID = 0 then .error .ErrInvalidProject
  else if p.LabourID = 0 then .error .ErrInvalidLabour
  else if p.Amount < 0 || p.Amount = 0 then .error .ErrInvalidAmount
  else if p.PaymentDate.IsZero then .error .ErrInvalidDate
  else if !PaymentType.IsValid p.PaymentType then .error .ErrInvalidPaymentType
  else .ok ()

/-- `CreateWorkDayRequest`. -/
structure CreateWorkDayRequest where
  LabourID : UUID
  WorkDate : String
  Status : String
  Notes : String

/-- `CreatePaymentRequest`. -/
structure CreatePaymentRequest where
  LabourID : UUID
  Amount : Decimal
  PaymentDate : String
  PaymentType : String
  Notes : String

/-- `CreateLabourRequest`. -/
structure CreateLabourRequest where
  Name : String
  Phone : String
  DailyWage : Decimal

/-- `UpdateLabourRequest`. -/
structure UpdateLabourRequest where
  Name : String
  Phone : String
  DailyWage : Decimal

/-- `UpdateProjectRequest`. -/
structure UpdateProjectRequest where
  Name : String
  Description : String

/-! ## Repositories (`internal/repository`)

Each method is the list operation its SQL statement denotes.  A statement that
writes returns the new store; values the database assigns (`id`, `NOW()`) are
arguments.  Referential actions and checks of the schema are not in the sources
and are not part of these definitions. -/

/-- `UserRepository.GetByID`. -/
def UserRepository.GetByID (db : DB) (id : UUID) : Except Err User :=
  match db.users.find? (fun u => u.ID == id) with
  | none => .error .ErrNotFound
  | some u => .ok u

/-- `ProjectRepository.GetByID`. -/
def ProjectRepository.GetByID (db : DB) (id : UUID) : Except Err Project :=
  match db.projects.find? (fun p => p.ID == id) with
  | none => .error .ErrNotFound
  | some p => .ok p

/-- `ProjectRepository.Update`: `UPDATE projects SET name, description, updated_at
WHERE id = $1 RETURNING updated_at`. -/
def ProjectRepository.Update (db : DB) (now : Time) (project : Project) :
    DB × Except Err Project :=
  if db.projects.any (fun p => p.ID == project.ID) then
    ({ db with projects := db.projects.map (fun p =>
        if p.ID == project.ID then
          { p with Name := project.Name, Description := project.Description, UpdatedAt := now }
        else p) },
     .ok { project with UpdatedAt := now })
  else (db, .error .ErrNotFound)

/-- `ProjectRepository.Delete`: `DELETE FROM projects WHERE id = $1`, `ErrNotFound`
when no row was affected. -/
def ProjectRepository.Delete (db : DB) (id : UUID) : DB × Except Err Unit :=
  if db.projects.any (fun p => p.ID == id) then
    ({ db with projects := db.projects.filter (fun p => !(p.ID == id)) }, .ok ())
  else (db, .error .ErrNotFound)

/-- `ProjectRepository.IsOwner`:
`SELECT EXISTS(SELECT 1 FROM projects WHERE id = $1 AND user_id = $2)`. -/
def ProjectRepository.IsOwner (db : DB) (projectID userID : UUID) : Bool :=
  db.projects.any (fun p => p.ID == projectID && p.UserID == userID)

/-- `LabourRepository.Create`: `INSERT INTO labours (name, phone, daily_wage)
RETURNING id, created_at, updated_at`. -/
def LabourRepository.Create (db : DB) (newID : UUID) (now : Time) (labour : Labour) :
    DB × Labour :=
  let row := { labour with ID := newID, CreatedAt := now, UpdatedAt := now }
  ({ db with labours := db.labours ++ [row] }, row)

/-- `LabourRepository.GetByID`. -/
def LabourRepository.GetByID (db : DB) (id : UUID) : Except Err Labour :=
  match db.labours.find? (fun l => l.ID == id) with
  | none => .error .ErrNotFound
  | some l => .ok l

/-- `LabourRepository.Update`: `UPDATE labours SET name, phone, daily_wage,
updated_at WHERE id = $1 RETURNING updated_at`. -/
def LabourRepository.Update (db : DB) (now : Time) (labour : Labour) :
    DB × Except Err Labour :=
  if db.labours.any (fun l => l.ID == labour.ID) then
    ({ db with labours := db.labours.map (fun l =>
        if l.ID == labour.ID then
          { l with Name := labour.Name, Phone := labour.Phone, DailyWage := labour.DailyWage,
                   UpdatedAt := now }
        else l) },
     .ok { labour with UpdatedAt := now })
  else (db, .error .ErrNotFound)

/-- `LabourRepository.Delete`. -/
def LabourRepository.Delete (db : DB) (id : UUID) : DB × Except Err Unit :=
  if db.labours.any (fun l => l.ID == id) then
    ({ db with labours := db.labours.filter (fun l => !(l.ID == id)) }, .ok ())
  else (db, .error .ErrNotFound)

/-- `LabourRepository.IsAssignedToProject`: `SELECT EXISTS(SELECT 1 FROM
project_labours WHERE project_id = $1 AND labour_id = $2)`. -/
def LabourRepository.IsAssignedToProject (db : DB) (projectID labourID : UUID) : Bool :=
  db.project_labours.any (fun pl => pl.ProjectID == projectID && pl.LabourID == labourID)

/-- `LabourRepository.AssignToProject`: `INSERT INTO project_labours (project_id,
labour_id) VALUES ($1, $2) ON CONFLICT (project_id, labour_id) DO NOTHING`. -/
def LabourRepository.AssignToProject (db : DB) (now : Time) (projectID labourID : UUID) :
    DB × Except Err Unit :=
  if LabourRepository.IsAssignedToProject db projectID labourID then (db, .ok ())
  else
    ({ db with project_labours :=
        db.project_labours ++ [{ ProjectID := projectID, LabourID := labourID, AssignedAt := now }] },
     .ok ())

/-- `LabourRepository.GetByProjectID`: `SELECT l.* FROM labours l INNER JOIN
project_labours pl ON l.id = pl.labour_id WHERE pl.project_id = $1 ORDER BY l.name
ASC`, names compared character by character. -/
def LabourRepository.GetByProjectID (db : DB) (projectID : UUID) : List Labour :=
  (db.labours.flatMap (fun l =>
    (db.project_labours.filter
      (fun pl => l.ID == pl.LabourID && pl.ProjectID == projectID)).map (fun _ => l))).insertionSort
    (fun a b => a.Name.toList ≤ b.Name.toList)

/-- `WorkDayRepository.Create`: `INSERT INTO work_days (...) RETURNING id, created_at`. -/
def WorkDayRepository.Create (db : DB) (newID : UUID) (now : Time) (workDay : WorkDay) :
    DB × WorkDay :=
  let row := { workDay with ID := newID, CreatedAt := now }
  ({ db with work_days := db.work_days ++ [row] }, row)

/-- A row of `models.WorkDayWithLabour`. -/
structure WorkDayWithLabour where
  WorkDay : WorkDay
  LabourName : String
  deriving DecidableEq, Repr

/-- `WorkDayRepository.GetByProjectAndDate`: the attendance rows of the project on
the date, joined with the name of their labourer, `ORDER BY l.name ASC`. -/
def WorkDayRepository.GetByProjectAndDate (db : DB) (projectID : UUID) (date : Time) :
    List WorkDayWithLabour :=
  ((db.work_days.filter (fun wd => wd.ProjectID == projectID && wd.WorkDate == date)).flatMap
    (fun wd => (db.labours.filter (fun l => wd.LabourID == l.ID)).map
      (fun l => { WorkDay := wd, LabourName := l.Name }))).insertionSort
    (fun a b => a.LabourName.toList ≤ b.LabourName.toList)

/-- `PaymentRepository.Create`: `INSERT INTO payments (...) RETURNING id, created_at`. -/
def PaymentRepository.Create (db : DB) (newID : UUID) (now : Time) (payment : Payment) :
    DB × Payment :=
  let row := { payment with ID := newID, CreatedAt := now }
  ({ db with payments := db.payments ++ [row] }, row)

/-- `PaymentRepository.Delete`. -/
def PaymentRepository.Delete (db : DB) (id : UUID) : DB × Except Err Unit :=
  if db.payments.any (fun p => p.ID == id) then
    ({ db with payments := db.payments.filter (fun p => !(p.ID == id)) }, .ok ())
  else (db, .error .ErrNotFound)

/-- `PaymentRepository.GetByLabourID`: `SELECT ... FROM payments WHERE labour_id = $1
ORDER BY payment_date DESC`. -/
def PaymentRepository.GetByLabourID (db : DB) (labourID : UUID) : List Payment :=
  (db.payments.filter (fun p => p.LabourID == labourID)).insertionSort
    (fun a b => a.PaymentDate ≥ b.PaymentDate)

/-- A row of `models.PaymentWithLabour`. -/
structure PaymentWithLabour where
  Payment : Payment
  LabourName : String
  deriving DecidableEq

/-- `PaymentRepository.GetByProjectID`: the payment rows of the project joined with
the name of their labourer, `ORDER BY p.payment_date DESC, l.name ASC`. -/
def PaymentRepository.GetByProjectID (db : DB) (projectID : UUID) : List PaymentWithLabour :=
  ((db.payments.filter (fun p => p.ProjectID == projectID)).flatMap
    (fun p => (db.labours.filter (fun l => p.LabourID == l.ID)).map
      (fun l => { Payment := p, LabourName := l.Name }))).insertionSort
    (fun a b => a.Payment.PaymentDate > b.Payment.PaymentDate ∨
      (a.Payment.PaymentDate = b.Payment.PaymentDate ∧ a.LabourName.toList ≤ b.LabourName.toList))

/-! ## Services (`internal/service`) -/

/-- `ProjectService.IsOwner`. -/
def ProjectService.IsOwner (db : DB) (projectID userID : UUID) : Bool :=
  ProjectRepository.IsOwner db projectID userID

/-- `ProjectService.GetByIDWithLabours`: the project and its labourers. -/
def ProjectService.GetByIDWithLabours (db : DB) (id : UUID) :
    Except Err (Project × List Labour) :=
  match ProjectRepository.GetByID db id with
  | .error e => .error e
  | .ok project => .ok (project, LabourRepository.GetByProjectID db id)

/-- `ProjectService.Update`. -/
def ProjectService.Update (db : DB) (now : Time) (id : UUID) (req : UpdateProjectRequest) :
    DB × Except Err Project :=
  match ProjectRepository.GetByID db id with
  | .error e => (db, .error e)
  | .ok project =>
    let project := { project with Name := req.Name, Description := req.Description }
    match project.Validate with
    | .error e => (db, .error e)
    | .ok _ => ProjectRepository.Update db now project

/-- `ProjectService.Delete`. -/
def ProjectService.Delete (db : DB) (id : UUID) : DB × Except Err Unit :=
  ProjectRepository.Delete db id

/-- `LabourService.Create`. -/
def LabourService.Create (db : DB) (newID : UUID) (now : Time) (req : CreateLabourRequest) :
    DB × Except Err Labour :=
  let labour : Labour :=
    { ID := 0, Name := req.Name, Phone := req.Phone, DailyWage := req.DailyWage,
      CreatedAt := 0, UpdatedAt := 0 }
  match labour.Validate with
  | .error e => (db, .error e)
  | .ok _ =>
    let r := LabourRepository.Create db newID now labour
    (r.1, .ok r.2)

/-- `LabourService.Update`. -/
def LabourService.Update (db : DB) (now : Time) (id : UUID) (req : UpdateLabourRequest) :
    DB × Except Err Labour :=
  match LabourRepository.GetByID db id with
  | .error e => (db, .error e)
  | .ok labour =>
    let labour := { labour with Name := req.Name, Phone := req.Phone, DailyWage := req.DailyWage }
    match labour.Validate with
    | .error e => (db, .error e)
    | .ok _ => LabourRepository.Update db now labour

/-- `LabourService.Delete`. -/
def LabourService.Delete (db : DB) (id : UUID) : DB × Except Err Unit :=
  LabourRepository.Delete db id

/-- `LabourService.AssignToProject`. -/
def LabourService.AssignToProject (db : DB) (now : Time) (projectID labourID : UUID) :
    DB × Except Err Unit :=
  match LabourRepository.GetByID db labourID with
  | .error e => (db, .error e)
  | .ok _ => LabourRepository.AssignToProject db now projectID labourID

/-- `LabourService.GetByProjectID`. -/
def LabourService.GetByProjectID (db : DB) (projectID : UUID) : List Labour :=
  LabourRepository.GetByProjectID db projectID

/-- `WorkDayService.Create`. -/
def WorkDayService.Create (db : DB) (newID : UUID) (now : Time) (projectID : UUID)
    (req : CreateWorkDayRequest) : DB × Except Err WorkDay :=
  match timeParse req.WorkDate with
  | none => (db, .error .ErrInvalidDate)
  | some workDate =>
    if !LabourRepository.IsAssignedToProject db projectID req.LabourID then
      (db, .error .ErrInvalidLabour)
    else
      let workDay : WorkDay :=
        { ID := 0, ProjectID := projectID, LabourID := req.LabourID, WorkDate := workDate,
          Status := req.Status, Notes := req.Notes, CreatedAt := 0 }
      match workDay.Validate with
      | .error e => (db, .error e)
      | .ok _ =>
        let r := WorkDayRepository.Create db newID now workDay
        (r.1, .ok r.2)

/-- `WorkDayService.GetByProjectAndDate`. -/
def WorkDayService.GetByProjectAndDate (db : DB) (projectID : UUID) (dateStr : String) :
    Except Err (List WorkDayWithLabour) :=
  match timeParse dateStr with
  | none => .error .ErrInvalidDate
  | some date => .ok (WorkDayRepository.GetByProjectAndDate db projectID date)

/-- `PaymentService.Create`. -/
def PaymentService.Create (db : DB) (newID : UUID) (now : Time) (projectID : UUID)
    (req : CreatePaymentRequest) : DB × Except Err Payment :=
  match timeParse req.PaymentDate with
  | none => (db, .error .ErrInvalidDate)
  | some paymentDate =>
    if !LabourRepository.IsAssignedToProject db projectID req.LabourID then
      (db, .error .ErrInvalidLabour)
    else
      let payment : Payment :=
        { ID := 0, ProjectID := projectID, LabourID := req.LabourID, Amount := req.Amount,
          PaymentDate := paymentDate, PaymentType := req.PaymentType, Notes := req.Notes,
          CreatedAt := 0 }
      match payment.Validate with
      | .error e => (db, .error e)
      | .ok _ =>
        let r := PaymentRepository.Create db newID now payment
        (r.1, .ok r.2)

/-- `PaymentService.Delete`. -/
def PaymentService.Delete (db : DB) (id : UUID) : DB × Except Err Unit :=
  PaymentRepository.Delete db id

/-- `PaymentService.GetByLabourID`. -/
def PaymentService.GetByLabourID (db : DB) (labourID : UUID) : List Payment :=
  PaymentRepository.GetByLabourID db labourID

/-- `PaymentService.GetByProjectID`. -/
def PaymentService.GetByProjectID (db : DB) (projectID : UUID) : List PaymentWithLabour :=
  PaymentRepository.GetByProjectID db projectID

/-- `AuthService.RefreshToken`; `nowV` is the clock reading of the token validator
and `nowG` the later reading of `generateTokens`.  The method only reads the store. -/
def RefreshToken (lib : JWTCodec) (jwtSecret : String) (db : DB) (nowV nowG : Time)
    (refreshToken : TokenString) : Except Err TokenResponse :=
  match validateToken lib jwtSecret nowV refreshToken with
  | .error _ => .error (.Other "invalid refresh token")
  | .ok claims =>
    match UserRepository.GetByID db claims.UserID with
    | .error e => .error e
    | .ok user => generateTokens lib jwtSecret nowG user

/-- The service operations that write payments or labourers. -/
inductive ServiceOp where
  | paymentCreate (newID : UUID) (now : Time) (projectID : UUID) (req : CreatePaymentRequest)
  | paymentDelete (id : UUID)
  | labourCreate (newID : UUID) (now : Time) (req : CreateLabourRequest)
  | labourUpdate (now : Time) (id : UUID) (req : UpdateLabourRequest)
  | labourDelete (id : UUID)

/-- The store after one service operation. -/
def ServiceOp.run (db : DB) : ServiceOp → DB
  | .paymentCreate newID now projectID req => (PaymentService.Create db newID now projectID req).1
  | .paymentDelete id => (PaymentService.Delete db id).1
  | .labourCreate newID now req => (LabourService.Create db newID now req).1
  | .labourUpdate now id req => (LabourService.Update db now id req).1
  | .labourDelete id => (LabourService.Delete db id).1

/-- The store after a sequence of service operations, first to last. -/
def runServiceOps (db : DB) (ops : List ServiceOp) : DB :=
  ops.foldl ServiceOp.run db

/-- The empty store. -/
def emptyDB : DB :=
  { users := [], projects := [], labours := [], project_labours := [], work_days := [],
    payments := [] }

/-- Every stored payment has a positive amount and every stored labourer a
non-negative daily wage. -/
def amountsValid (db : DB) : Prop :=
  (∀ p ∈ db.payments, p.Amount > 0) ∧ (∀ l ∈ db.labours, l.DailyWage ≥ 0)

/-! ## Middleware and handlers (`internal/middleware`, `internal/handler`) -/

/-- The split of a character list at its first space, `none` when it has none. -/
def cutSpace : List Char → Option (List Char × List Char)
  | [] => none
  | c :: cs =>
    if c = ' ' then some ([], cs)
    else
      match cutSpace cs with
      | none => none
      | some (a, b) => some (c :: a, b)

/-- `strings.SplitN(s, " ", 2)`. -/
def SplitN2 (s : String) : List String :=
  match cutSpace s.data with
  | none => [s]
  | some (a, b) => [String.mk a, String.mk b]

/-- What a middleware does with a request: abort it with a status and an error
message, or set `user_id` and `phone` in the context and call `Next`. -/
inductive MiddlewareResult where
  | abort (status : Nat) (error : String)
  | next (user_id : UUID) (phone : String)
  deriving DecidableEq, Repr

/-- `AuthMiddleware` on a request whose `Authorization` header is `authHeader` (the
empty string when the header is absent).  `decode` is the library's reading of a
token string into its segments. -/
def AuthMiddleware (lib : JWTCodec) (decode : String → TokenString) (jwtSecret : String)
    (now : Time) (authHeader : String) : MiddlewareResult :=
  if authHeader = "" then .abort 401 "authorization header required"
  else
    match SplitN2 authHeader with
    | [scheme, tokenString] =>
      if scheme ≠ "Bearer" then .abort 401 "invalid authorization header format"
      else
        match ValidateToken lib jwtSecret now (decode tokenString) with
        | .error _ => .abort 401 "invalid or expired token"
        | .ok claims => .next claims.UserID claims.Phone
    | _ => .abort 401 "invalid authorization header format"

/-- The JSON body of a response. -/
inductive Body where
  | error (msg : String)
  | message (msg : String)
  | payments (ps : List Payment)
  | paymentsWithLabour (ps : List PaymentWithLabour)
  | project (p : Project)
  | projectWithLabours (p : Project) (labours : List Labour)
  | labour (l : Labour)
  | workDay (wd : WorkDay)
  | payment (p : Payment)
  deriving DecidableEq

/-- An HTTP response: status code and JSON body. -/
structure Response where
  status : Nat
  body : Body
  deriving DecidableEq

/-- What a handler reads from its `gin.Context`: the `user_id` set by the
middleware and the results of `uuid.Parse` on the path parameters `id` and
`labour_id` (`none` for a parse error). -/
structure Ctx where
  user_id : UUID
  id : Option UUID
  labour_id : Option UUID := none

/-- `PaymentHandler.ListByProject`. -/
def PaymentHandler.ListByProject (db : DB) (c : Ctx) : Response :=
  match c.id with
  | none => ⟨400, .error "invalid project ID"⟩
  | some projectID =>
    if !ProjectService.IsOwner db projectID c.user_id then ⟨403, .error "access denied"⟩
    else ⟨200, .paymentsWithLabour (PaymentService.GetByProjectID db projectID)⟩

/-- `PaymentHandler.ListByLabour`. -/
def PaymentHandler.ListByLabour (db : DB) (c : Ctx) : Response :=
  match c.id with
  | none => ⟨400, .error "invalid labour ID"⟩
  | some labourID => ⟨200, .payments (PaymentService.GetByLabourID db labourID)⟩

/-- `ProjectHandler.Get`. -/
def ProjectHandler.Get (db : DB) (c : Ctx) : Response :=
  match c.id with
  | none => ⟨400, .error "invalid project ID"⟩
  | some projectID =>
    if !ProjectService.IsOwner db projectID c.user_id then ⟨403, .error "access denied"⟩
    else
      match ProjectService.GetByIDWithLabours db projectID with
      | .error e =>
        if e = .ErrNotFound then ⟨404, .error "project not found"⟩
        else ⟨500, .error "failed to get project"⟩
      | .ok (project, labours) => ⟨200, .projectWithLabours project labours⟩

/-- `ProjectHandler.Update`; `bind` is the outcome of `c.ShouldBindJSON(&req)`. -/
def ProjectHandler.Update (db : DB) (now : Time) (c : Ctx)
    (bind : Except String UpdateProjectRequest) : DB × Response :=
  match c.id with
  | none => (db, ⟨400, .error "invalid project ID"⟩)
  | some projectID =>
    if !ProjectService.IsOwner db projectID c.user_id then (db, ⟨403, .error "access denied"⟩)
    else
      match bind with
      | .error msg => (db, ⟨400, .error msg⟩)
      | .ok req =>
        match ProjectService.Update db now projectID req with
        | (db1, .error e) =>
          if e = .ErrNotFound then (db1, ⟨404, .error "project not found"⟩)
          else (db1, ⟨500, .error "failed to update project"⟩)
        | (db1, .ok project) => (db1, ⟨200, .project project⟩)

/-- `ProjectHandler.Delete`. -/
def ProjectHandler.Delete (db : DB) (c : Ctx) : DB × Response :=
  match c.id with
  | none => (db, ⟨400, .error "invalid project ID"⟩)
  | some projectID =>
    if !ProjectService.IsOwner db projectID c.user_id then (db, ⟨403, .error "access denied"⟩)
    else
      match ProjectService.Delete db projectID with
      | (db1, .error e) =>
        if e = .ErrNotFound then (db1, ⟨404, .error "project not found"⟩)
        else (db1, ⟨500, .error "failed to delete project"⟩)
      | (db1, .ok _) => (db1, ⟨200, .message "project deleted successfully"⟩)

/-- A store with two users who each own one project; labourer 7 is assigned to both
projects and has one payment, on project 1 of user 100. -/
def sharedDB : DB :=
  { users := [⟨100, "+911111111111", "", 0, 0⟩, ⟨200, "+912222222222", "", 0, 0⟩]
    projects := [⟨1, 100, "Site A", "", 0, 0⟩, ⟨2, 200, "Site B", "", 0, 0⟩]
    labours := [⟨7, "Ramesh", "", 1000, 0, 0⟩]
    project_labours := [⟨1, 7, 0⟩, ⟨2, 7, 0⟩]
    work_days := []
    payments := [⟨1, 1, 7, 500, 10, "advance", "", 0⟩] }

/-! ## Further operations of repositories, services and handlers -/

/-- `CreateProjectRequest`. -/
structure CreateProjectRequest where
  Name : String
  Description : String

/-- `UpdateWorkDayRequest`. -/
structure UpdateWorkDayRequest where
  Status : String
  Notes : String

/-- `ProjectRepository.Create`: `INSERT INTO projects (user_id, name, description)
RETURNING id, created_at, updated_at`. -/
def ProjectRepository.Create (db : DB) (newID : UUID) (now : Time) (project : Project) :
    DB × Project :=
  let row := { project with ID := newID, CreatedAt := now, UpdatedAt := now }
  ({ db with projects := db.projects ++ [row] }, row)

/-- `ProjectService.Create`. -/
def ProjectService.Create (db : DB) (newID : UUID) (now : Time) (userID : UUID)
    (req : CreateProjectRequest) : DB × Except Err Project :=
  let project : Project :=
    { ID := 0, UserID := userID, Name := req.Name, Description := req.Description,
      CreatedAt := 0, UpdatedAt := 0 }
  match project.Validate with
  | .error e => (db, .error e)
  | .ok _ =>
    let r := ProjectRepository.Create db newID now project
    (r.1, .ok r.2)

/-- Modelled from the spec: the referential action of the schema on `project_labours`
when a project row is deleted.  The schema is created by the migrations of
`internal/database`, which are not among the sources; the specification says that
after the deletion of a project its assignments "are now gone".  The function gives
the store after that action for the deleted project `id`.  The check of the same
reference when an assignment row is inserted is
`LabourRepository.AssignToProjectInSchema`. -/
def cascadeProjectDelete (db : DB) (id : UUID) : DB :=
  { db with project_labours := db.project_labours.filter (fun pl => !(pl.ProjectID == id)) }

/-- `ProjectService.Delete` followed, when it succeeded, by the referential action of
the schema. -/
def ProjectService.DeleteInSchema (db : DB) (id : UUID) : DB × Except Err Unit :=
  match ProjectService.Delete db id with
  | (db1, .error e) => (db1, .error e)
  | (db1, .ok u) => (cascadeProjectDelete db1 id, .ok u)

/-- `WorkDayRepository.GetByID`. -/
def WorkDayRepository.GetByID (db : DB) (id : UUID) : Except Err WorkDay :=
  match db.work_days.find? (fun wd => wd.ID == id) with
  | none => .error .ErrNotFound
  | some wd => .ok wd

/-- `WorkDayRepository.Update`: `UPDATE work_days SET status = $2, notes = $3 WHERE
id = $1`, `ErrNotFound` when no row was affected. -/
def WorkDayRepository.Update (db : DB) (workDay : WorkDay) : DB × Except Err Unit :=
  if db.work_days.any (fun wd => wd.ID == workDay.ID) then
    ({ db with work_days := db.work_days.map (fun wd =>
        if wd.ID == workDay.ID then { wd with Status := workDay.Status, Notes := workDay.Notes }
        else wd) },
     .ok ())
  else (db, .error .ErrNotFound)

/-- `WorkDayService.GetByID`. -/
def WorkDayService.GetByID (db : DB) (id : UUID) : Except Err WorkDay :=
  WorkDayRepository.GetByID db id

/-- `WorkDayService.Update`. -/
def WorkDayService.Update (db : DB) (id : UUID) (req : UpdateWorkDayRequest) :
    DB × Except Err WorkDay :=
  match WorkDayRepository.GetByID db id with
  | .error e => (db, .error e)
  | .ok workDay =>
    let workDay := { workDay with Status := req.Status, Notes := req.Notes }
    match workDay.Validate with
    | .error e => (db, .error e)
    | .ok _ =>
      match WorkDayRepository.Update db workDay with
      | (db1, .error e) => (db1, .error e)
      | (db1, .ok _) => (db1, .ok workDay)

/-- `LabourHandler.Create`; `bind` is the outcome of `c.ShouldBindJSON(&req)`. -/
def LabourHandler.Create (db : DB) (newID : UUID) (now : Time)
    (bind : Except String CreateLabourRequest) : DB × Response :=
  match bind with
  | .error msg => (db, ⟨400, .error msg⟩)
  | .ok req =>
    match LabourService.Create db newID now req with
    | (db1, .error _) => (db1, ⟨500, .error "failed to create labour"⟩)
    | (db1, .ok labour) => (db1, ⟨201, .labour labour⟩)

/-- `LabourHandler.Update`. -/
def LabourHandler.Update (db : DB) (now : Time) (c : Ctx)
    (bind : Except String UpdateLabourRequest) : DB × Response :=
  match c.id with
  | none => (db, ⟨400, .error "invalid labour ID"⟩)
  | some labourID =>
    match bind with
    | .error msg => (db, ⟨400, .error msg⟩)
    | .ok req =>
      match LabourService.Update db now labourID req with
      | (db1, .error e) =>
        if e = .ErrNotFound then (db1, ⟨404, .error "labour not found"⟩)
        else (db1, ⟨500, .error "failed to update labour"⟩)
      | (db1, .ok labour) => (db1, ⟨200, .labour labour⟩)

/-- `ProjectHandler.Create`. -/
def ProjectHandler.Create (db : DB) (newID : UUID) (now : Time) (c : Ctx)
    (bind : Except String CreateProjectRequest) : DB × Response :=
  match bind with
  | .error msg => (db, ⟨400, .error msg⟩)
  | .ok req =>
    match ProjectService.Create db newID now c.user_id req with
    | (db1, .error _) => (db1, ⟨500, .error "failed to create project"⟩)
    | (db1, .ok project) => (db1, ⟨201, .project project⟩)

/-- `PaymentHandler.Create`. -/
def PaymentHandler.Create (db : DB) (newID : UUID) (now : Time) (c : Ctx)
    (bind : Except String CreatePaymentRequest) : DB × Response :=
  match c.id with
  | none => (db, ⟨400, .error "invalid project ID"⟩)
  | some projectID =>
    if !ProjectService.IsOwner db projectID c.user_id then (db, ⟨403, .error "access denied"⟩)
    else
      match bind with
      | .error msg => (db, ⟨400, .error msg⟩)
      | .ok req =>
        match PaymentService.Create db newID now projectID req with
        | (db1, .error e) =>
          if e = .ErrInvalidDate then (db1, ⟨400, .error "invalid date format, use YYYY-MM-DD"⟩)
          else if e = .ErrInvalidLabour then
            (db1, ⟨400, .error "labour not assigned to this project"⟩)
          else if e = .ErrInvalidAmount then (db1, ⟨400, .error "invalid amount"⟩)
          else if e = .ErrInvalidPaymentType then
            (db1, ⟨400, .error "invalid payment type, use advance, daily_wage, or bonus"⟩)
          else (db1, ⟨500, .error "failed to create payment"⟩)
        | (db1, .ok payment) => (db1, ⟨201, .payment payment⟩)

/-- `WorkDayHandler.Create`. -/
def WorkDayHandler.Create (db : DB) (newID : UUID) (now : Time) (c : Ctx)
    (bind : Except String CreateWorkDayRequest) : DB × Response :=
  match c.id with
  | none => (db, ⟨400, .error "invalid project ID"⟩)
  | some projectID =>
    if !ProjectService.IsOwner db projectID c.user_id then (db, ⟨403, .error "access denied"⟩)
    else
      match bind with
      | .error msg => (db, ⟨400, .error msg⟩)
      | .ok req =>
        match WorkDayService.Create db newID now projectID req with
        | (db1, .error e) =>
          if e = .ErrInvalidDate then (db1, ⟨400, .error "invalid date format, use YYYY-MM-DD"⟩)
          else if e = .ErrInvalidLabour then
            (db1, ⟨400, .error "labour not assigned to this project"⟩)
          else if e = .ErrInvalidStatus then
            (db1, ⟨400, .error "invalid status, use full_day, half_day, or absent"⟩)
          else (db1, ⟨500, .error "failed to create attendance record"⟩)
        | (db1, .ok workDay) => (db1, ⟨201, .workDay workDay⟩)

/-- `WorkDayHandler.Update`. -/
def WorkDayHandler.Update (db : DB) (c : Ctx) (bind : Except String UpdateWorkDayRequest) :
    DB × Response :=
  match c.id with
  | none => (db, ⟨400, .error "invalid attendance ID"⟩)
  | some workDayID =>
    match WorkDayService.GetByID db workDayID with
    | .error e =>
      if e = .ErrNotFound then (db, ⟨404, .error "attendance record not found"⟩)
      else (db, ⟨500, .error "failed to get attendance record"⟩)
    | .ok workDay =>
      if !ProjectService.IsOwner db workDay.ProjectID c.user_id then
        (db, ⟨403, .error "access denied"⟩)
      else
        match bind with
        | .error msg => (db, ⟨400, .error msg⟩)
        | .ok req =>
          match WorkDayService.Update db workDayID req with
          | (db1, .error e) =>
            if e = .ErrInvalidStatus then (db1, ⟨400, .error "invalid status"⟩)
            else (db1, ⟨500, .error "failed to update attendance record"⟩)
          | (db1, .ok updatedWorkDay) => (db1, ⟨200, .workDay updatedWorkDay⟩)

/-- The Devanagari letter NA, three bytes in UTF-8. -/
def letterNa : Char := Char.ofNat 0x0928

/-- A name of 128 characters and 384 bytes. -/
def longHindiName : String := String.mk (List.replicate 128 letterNa)

/-- The decimal value of a string of digits. -/
def decimalValue (s : String) : Nat :=
  s.toList.foldl (fun a c => 10 * a + digitVal c) 0

/-! ## Operations after the deletion of a project -/

/-- `LabourRepository.RemoveFromProject`: `DELETE FROM project_labours WHERE
project_id = $1 AND labour_id = $2`, `ErrNotFound` when no row was affected. -/
def LabourRepository.RemoveFromProject (db : DB) (projectID labourID : UUID) :
    DB × Except Err Unit :=
  if db.project_labours.any (fun pl => pl.ProjectID == projectID && pl.LabourID == labourID) then
    ({ db with
        project_labours := db.project_labours.filter
          (fun pl => !(pl.ProjectID == projectID && pl.LabourID == labourID)) }, .ok ())
  else (db, .error .ErrNotFound)

/-- `LabourService.RemoveFromProject`. -/
def LabourService.RemoveFromProject (db : DB) (projectID labourID : UUID) :
    DB × Except Err Unit :=
  LabourRepository.RemoveFromProject db projectID labourID

/-- `WorkDayRepository.Delete`: `DELETE FROM work_days WHERE id = $1`, `ErrNotFound`
when no row was affected. -/
def WorkDayRepository.Delete (db : DB) (id : UUID) : DB × Except Err Unit :=
  if db.work_days.any (fun wd => wd.ID == id) then
    ({ db with work_days := db.work_days.filter (fun wd => !(wd.ID == id)) }, .ok ())
  else (db, .error .ErrNotFound)

/-- `WorkDayService.Delete`. -/
def WorkDayService.Delete (db : DB) (id : UUID) : DB × Except Err Unit :=
  WorkDayRepository.Delete db id

/-- `UserRepository.GetByPhone`. -/
def UserRepository.GetByPhone (db : DB) (phone : String) : Except Err User :=
  match db.users.find? (fun u => u.Phone == phone) with
  | none => .error .ErrNotFound
  | some u => .ok u

/-- `UserRepository.Create`: `INSERT INTO users (phone, name) RETURNING id,
created_at, updated_at`. -/
def UserRepository.Create (db : DB) (newID : UUID) (now : Time) (user : User) : DB × User :=
  let row := { user with ID := newID, CreatedAt := now, UpdatedAt := now }
  ({ db with users := db.users ++ [row] }, row)

/-- `UserRepository.GetOrCreate`: the user and whether it was created. -/
def UserRepository.GetOrCreate (db : DB) (newID : UUID) (now : Time) (phone : String) :
    DB × Except Err (User × Bool) :=
  match UserRepository.GetByPhone db phone with
  | .ok user => (db, .ok (user, false))
  | .error e =>
    if e ≠ .ErrNotFound then (db, .error e)
    else
      let r := UserRepository.Create db newID now
        { ID := 0, Phone := phone, Name := "", CreatedAt := 0, UpdatedAt := 0 }
      (r.1, .ok (r.2, true))

/-- `UserRepository.Update`: `UPDATE users SET name = $2, updated_at = NOW() WHERE
id = $1 RETURNING updated_at`. -/
def UserRepository.Update (db : DB) (now : Time) (user : User) : DB × Except Err User :=
  if db.users.any (fun u => u.ID == user.ID) then
    ({ db with users := db.users.map (fun u =>
        if u.ID == user.ID then { u with Name := user.Name, UpdatedAt := now } else u) },
     .ok { user with UpdatedAt := now })
  else (db, .error .ErrNotFound)

/-- Modelled from the spec: the check of the schema on `project_labours` when an
assignment row is inserted, the counterpart of `cascadeProjectDelete`.  The schema is
created by the migrations of `internal/database`, which are not among the sources;
the specification says that after the deletion of a project the "assignment checks
will fail against the vanished project", so an assignment row refers to a stored
project.  The function is `LabourRepository.AssignToProject` when the row is already
there (`ON CONFLICT DO NOTHING` inserts nothing) or the project is stored; otherwise
the store refuses the insert and the method returns that error. -/
def LabourRepository.AssignToProjectInSchema (db : DB) (now : Time)
    (projectID labourID : UUID) : DB × Except Err Unit :=
  if LabourRepository.IsAssignedToProject db projectID labourID ||
      db.projects.any (fun p => p.ID == projectID) then
    LabourRepository.AssignToProject db now projectID labourID
  else (db, .error (.Other "insert or update on table project_labours violates foreign key constraint"))

/-- `LabourService.AssignToProject` over `LabourRepository.AssignToProjectInSchema`. -/
def LabourService.AssignToProjectInSchema (db : DB) (now : Time)
    (projectID labourID : UUID) : DB × Except Err Unit :=
  match LabourRepository.GetByID db labourID with
  | .error e => (db, .error e)
  | .ok _ => LabourRepository.AssignToProjectInSchema db now projectID labourID

/-- The operations of the repositories and services that write to the store, with
the two operations on which the schema acts in their `InSchema` form. -/
inductive StoreOp where
  | projectCreate (newID : UUID) (now : Time) (userID : UUID) (req : CreateProjectRequest)
  | projectUpdate (now : Time) (id : UUID) (req : UpdateProjectRequest)
  | projectDelete (id : UUID)
  | labourCreate (newID : UUID) (now : Time) (req : CreateLabourRequest)
  | labourUpdate (now : Time) (id : UUID) (req : UpdateLabourRequest)
  | labourDelete (id : UUID)
  | labourAssign (now : Time) (projectID labourID : UUID)
  | labourRemove (projectID labourID : UUID)
  | workDayCreate (newID : UUID) (now : Time) (projectID : UUID) (req : CreateWorkDayRequest)
  | workDayUpdate (id : UUID) (req : UpdateWorkDayRequest)
  | workDayDelete (id : UUID)
  | paymentCreate (newID : UUID) (now : Time) (projectID : UUID) (req : CreatePaymentRequest)
  | paymentDelete (id : UUID)
  | userGetOrCreate (newID : UUID) (now : Time) (phone : String)
  | userUpdate (now : Time) (user : User)

/-- The store after one operation. -/
def StoreOp.run (db : DB) : StoreOp → DB
  | .projectCreate newID now userID req => (ProjectService.Create db newID now userID req).1
  | .projectUpdate now id req => (ProjectService.Update db now id req).1
  | .projectDelete id => (ProjectService.DeleteInSchema db id).1
  | .labourCreate newID now req => (LabourService.Create db newID now req).1
  | .labourUpdate now id req => (LabourService.Update db now id req).1
  | .labourDelete id => (LabourService.Delete db id).1
  | .labourAssign now projectID labourID =>
    (LabourService.AssignToProjectInSchema db now projectID labourID).1
  | .labourRemove projectID labourID => (LabourService.RemoveFromProject db projectID labourID).1
  | .workDayCreate newID now projectID req => (WorkDayService.Create db newID now projectID req).1
  | .workDayUpdate id req => (WorkDayService.Update db id req).1
  | .workDayDelete id => (WorkDayService.Delete db id).1
  | .paymentCreate newID now projectID req => (PaymentService.Create db newID now projectID req).1
  | .paymentDelete id => (PaymentService.Delete db id).1
  | .userGetOrCreate newID now phone => (UserRepository.GetOrCreate db newID now phone).1
  | .userUpdate now user => (UserRepository.Update db now user).1

/-- The store after a sequence of operations, first to last. -/
def runStoreOps (db : DB) (ops : List StoreOp) : DB :=
  ops.foldl StoreOp.run db

/-- Whether the operation is a project creation to which the database gives the id
`P`. -/
def StoreOp.createsProject (P : UUID) : StoreOp → Bool
  | .projectCreate newID _ _ _ => newID == P
  | _ => false

/-- No project row and no assignment row of the store carries the project id `P`. -/
def noRowsOfProject (db : DB) (P : UUID) : Prop :=
  (∀ p ∈ db.projects, p.ID ≠ P) ∧ (∀ pl ∈ db.project_labours, pl.ProjectID ≠ P)

/-- A sequence of operations for the store `sharedDB` after the deletion of project
1: an assignment to project 1, the creation of a project 3, a wage update and a
payment request for project 1. -/
def laterOps : List StoreOp :=
  [.labourAssign 5 1 7, .projectCreate 3 5 100 ⟨"Site C", ""⟩,
   .labourUpdate 6 7 ⟨"Ramesh", "", 1200⟩,
   .paymentCreate 60 7 1 ⟨7, 100, "2024-01-05", "advance", ""⟩]

/-! ## Theorems -/

/-! ### Balance engine -/

/-- The multiplier sum of a list of attendance rows is the number of `full_day` rows
plus half the number of `half_day` rows; every other status adds nothing. -/
theorem sum_statusMultiplier (ws : List WorkDay) :
    (ws.map (fun w => statusMultiplier w.Status)).sum =
      ((ws.filter (fun w => w.Status == "full_day")).length : ℚ) +
        ((ws.filter (fun w => w.Status == "half_day")).length : ℚ) / 2 := by
  induction ws with
  | nil => simp
  | cons w ws ih =>
    have hne : ("full_day" : String) ≠ "half_day" := by decide
    rw [List.map_cons, List.sum_cons, ih]
    by_cases h1 : w.Status = "full_day"
    · have h2 : ¬ w.Status = "half_day" := fun h => hne (h1.symm.trans h)
      simp only [statusMultiplier, h1, List.filter_cons, beq_self_eq_true, if_true,
        List.length_cons, beq_iff_eq, hne, if_false]
      push_cast
      ring
    · by_cases h2 : w.Status = "half_day"
      · simp only [statusMultiplier, h1, h2, List.filter_cons, beq_self_eq_true, if_true,
          List.length_cons, beq_iff_eq, hne.symm, if_false]
        push_cast
        ring
      · simp only [statusMultiplier, h1, h2, List.filter_cons, beq_iff_eq, if_false]
        ring

/-- `GetBalance` unfolded for a labourer that the labour query finds. -/
theorem GetBalance_of_labour (db : DB) (projectID labourID : UUID) (l : Labour)
    (h : labourQuery db labourID = some l) :
    GetBalance db projectID labourID =
      .ok { LabourID := labourID
            LabourName := l.Name
            TotalEarned := l.DailyWage * earnedQuery db projectID labourID
            TotalPaid := paidQuery db projectID labourID
            Balance := l.DailyWage * earnedQuery db projectID labourID -
              paidQuery db projectID labourID } := by
  simp [GetBalance, h]

/-- Rows of another project or labourer are not selected for the pair. -/
theorem filter_pair_append (ws extra : List WorkDay) (projectID labourID : UUID)
    (hx : ∀ w ∈ extra, ¬ (w.ProjectID = projectID ∧ w.LabourID = labourID)) :
    (ws ++ extra).filter (fun w => w.ProjectID == projectID && w.LabourID == labourID) =
      ws.filter (fun w => w.ProjectID == projectID && w.LabourID == labourID) := by
  rw [List.filter_append]
  have : extra.filter (fun w => w.ProjectID == projectID && w.LabourID == labourID) = [] := by
    rw [List.filter_eq_nil_iff]
    intro w hw
    simpa using hx w hw
  rw [this, List.append_nil]

/-- The query `earnedQuery` written out on the table `work_days`: the number of rows
of the pair with status `full_day` plus half the number of rows of the pair with
status `half_day`. -/
theorem earnedQuery_eq_counts (db : DB) (projectID labourID : UUID) :
    earnedQuery db projectID labourID =
      ((db.work_days.countP (fun w =>
          w.ProjectID == projectID && w.LabourID == labourID && w.Status == "full_day") : Nat) : ℚ) +
        ((db.work_days.countP (fun w =>
          w.ProjectID == projectID && w.LabourID == labourID && w.Status == "half_day") : Nat) : ℚ)
          / 2 := by
  have hc : ∀ s : String,
      ((db.work_days.filter
          (fun w => w.ProjectID == projectID && w.LabourID == labourID)).filter
        (fun w => w.Status == s)).length =
      db.work_days.countP (fun w =>
        w.ProjectID == projectID && w.LabourID == labourID && w.Status == s) := by
    intro s
    rw [List.filter_filter, List.countP_eq_length_filter]
    congr 1
    apply List.filter_congr
    intro w _
    exact Bool.and_comm _ _
  unfold earnedQuery workDaysOf
  rw [sum_statusMultiplier, hc, hc]

/-- `GetBalance` for a stored labourer, with both queries written out on the tables
`work_days` and `payments`. -/
theorem GetBalance_on_rows (db : DB) (projectID labourID : UUID) (l : Labour)
    (h : labourQuery db labourID = some l) :
    GetBalance db projectID labourID =
      .ok { LabourID := labourID
            LabourName := l.Name
            TotalEarned := l.DailyWage *
              (((db.work_days.countP (fun w =>
                  w.ProjectID == projectID && w.LabourID == labourID &&
                    w.Status == "full_day") : Nat) : ℚ) +
                ((db.work_days.countP (fun w =>
                  w.ProjectID == projectID && w.LabourID == labourID &&
                    w.Status == "half_day") : Nat) : ℚ) / 2)
            TotalPaid :=
              ((db.payments.filter
                (fun p => p.ProjectID == projectID && p.LabourID == labourID)).map
                  (fun p => p.Amount)).sum
            Balance := l.DailyWage *
              (((db.work_days.countP (fun w =>
                  w.ProjectID == projectID && w.LabourID == labourID &&
                    w.Status == "full_day") : Nat) : ℚ) +
                ((db.work_days.countP (fun w =>
                  w.ProjectID == projectID && w.LabourID == labourID &&
                    w.Status == "half_day") : Nat) : ℚ) / 2) -
              ((db.payments.filter
                (fun p => p.ProjectID == projectID && p.LabourID == labourID)).map
                  (fun p => p.Amount)).sum } := by
  rw [GetBalance_of_labour db projectID labourID l h, earnedQuery_eq_counts]
  rfl

/-- C1: for a stored labourer with daily wage `w`, `GetBalance` succeeds and reports
`TotalEarned = w × (f + h/2)`, where `f` is the number of rows of the table
`work_days` that carry the project id, the labour id and the status `full_day`, and
`h` the number of those with status `half_day`; rows with status `absent` (or any
other status) add nothing.  The work date of a row plays no part (rewriting every
date leaves the result unchanged), and rows of another project or labourer are not
counted (adding such rows leaves the result unchanged). -/
theorem C1_total_earned (db : DB) (projectID labourID : UUID) (l : Labour)
    (h : labourQuery db labourID = some l) :
    (∃ r, GetBalance db projectID labourID = .ok r ∧
      r.TotalEarned = l.DailyWage *
        (((db.work_days.countP (fun w =>
            w.ProjectID == projectID && w.LabourID == labourID && w.Status == "full_day") : Nat) : ℚ) +
          ((db.work_days.countP (fun w =>
            w.ProjectID == projectID && w.LabourID == labourID && w.Status == "half_day") : Nat) : ℚ)
            / 2)) ∧
    (∀ g : WorkDay → Time,
      GetBalance { db with work_days := db.work_days.map (fun w => { w with WorkDate := g w }) }
        projectID labourID = GetBalance db projectID labourID) ∧
    (∀ extra : List WorkDay,
      (∀ w ∈ extra, ¬ (w.ProjectID = projectID ∧ w.LabourID = labourID)) →
      GetBalance { db with work_days := db.work_days ++ extra } projectID labourID =
        GetBalance db projectID labourID) := by
  refine ⟨⟨_, GetBalance_of_labour db projectID labourID l h, ?_⟩, ?_, ?_⟩
  · show l.DailyWage * earnedQuery db projectID labourID = _
    rw [earnedQuery_eq_counts]
  · intro g
    simp only [GetBalance, labourQuery, earnedQuery, paidQuery, workDaysOf, paymentsOf,
      List.filter_map, List.map_map]
    rfl
  · intro extra hx
    simp only [GetBalance, labourQuery, earnedQuery, paidQuery, workDaysOf, paymentsOf,
      filter_pair_append _ _ _ _ hx]

/-- C1 at the example store: labourer 7 has wage 1000 and, on project 1, two
`full_day` rows and one `half_day` row among the six rows of `work_days`. -/
theorem C1_total_earned_witness :
    labourQuery exampleDB 7 = some ⟨7, "Ramesh", "", 1000, 0, 0⟩ ∧
    exampleDB.work_days.countP (fun w =>
      w.ProjectID == 1 && w.LabourID == 7 && w.Status == "full_day") = 2 ∧
    exampleDB.work_days.countP (fun w =>
      w.ProjectID == 1 && w.LabourID == 7 && w.Status == "half_day") = 1 ∧
    ∃ r, GetBalance exampleDB 1 7 = .ok r ∧
      r.TotalEarned = (1000 : ℚ) *
        (((exampleDB.work_days.countP (fun w =>
            w.ProjectID == 1 && w.LabourID == 7 && w.Status == "full_day") : Nat) : ℚ) +
          ((exampleDB.work_days.countP (fun w =>
            w.ProjectID == 1 && w.LabourID == 7 && w.Status == "half_day") : Nat) : ℚ) / 2) :=
  ⟨rfl, by decide, by decide,
    (C1_total_earned exampleDB 1 7 ⟨7, "Ramesh", "", 1000, 0, 0⟩ rfl).1⟩

/-- C2: for a stored labourer, `GetBalance` reports as `TotalPaid` the sum of the
amounts of the payment rows of the (project, labour) pair.  The payment type is
not read: replacing the type of every payment by any other value leaves the whole
response (so `TotalPaid` and `Balance`) unchanged.  With no payment row for the
pair `TotalPaid` is `0`. -/
theorem C2_total_paid (db : DB) (projectID labourID : UUID) (l : Labour)
    (h : labourQuery db labourID = some l) :
    ∃ r, GetBalance db projectID labourID = .ok r ∧
      r.TotalPaid =
        ((db.payments.filter
          (fun p => p.ProjectID == projectID && p.LabourID == labourID)).map
            (fun p => p.Amount)).sum ∧
      (∀ g : Payment → String,
        GetBalance { db with payments := db.payments.map (fun p => { p with PaymentType := g p }) }
          projectID labourID = .ok r) ∧
      ((∀ p ∈ db.payments, ¬ (p.ProjectID = projectID ∧ p.LabourID = labourID)) →
        r.TotalPaid = 0) := by
  refine ⟨_, GetBalance_of_labour db projectID labourID l h, rfl, ?_, ?_⟩
  · intro g
    have h2 : labourQuery
        { db with payments := db.payments.map (fun p => { p with PaymentType := g p }) }
        labourID = some l := h
    rw [GetBalance_of_labour _ projectID labourID l h2]
    simp only [earnedQuery, paidQuery, workDaysOf, paymentsOf, List.filter_map, List.map_map]
    rfl
  · intro hnone
    have : paymentsOf db projectID labourID = [] := by
      unfold paymentsOf
      rw [List.filter_eq_nil_iff]
      intro p hp
      simpa using hnone p hp
    simp [paidQuery, this]

/-- C2 at the example store: the payments of pair (1, 7) are an `advance` of 1000
and a `bonus` of 600. -/
theorem C2_total_paid_witness :
    labourQuery exampleDB 7 = some ⟨7, "Ramesh", "", 1000, 0, 0⟩ ∧
    ∃ r, GetBalance exampleDB 1 7 = .ok r ∧
      r.TotalPaid =
        ((exampleDB.payments.filter (fun p => p.ProjectID == 1 && p.LabourID == 7)).map
          (fun p => p.Amount)).sum ∧
      (∀ g : Payment → String,
        GetBalance
          { exampleDB with
            payments := exampleDB.payments.map (fun p => { p with PaymentType := g p }) }
          1 7 = .ok r) ∧
      ((∀ p ∈ exampleDB.payments, ¬ (p.ProjectID = 1 ∧ p.LabourID = 7)) → r.TotalPaid = 0) :=
  ⟨rfl, C2_total_paid exampleDB 1 7 ⟨7, "Ramesh", "", 1000, 0, 0⟩ rfl⟩

/-- C3: for a stored labourer `GetBalance` succeeds with
`Balance = TotalEarned − TotalPaid` in exact arithmetic, whatever the sign of the
difference.  On the example store the pair (1, 7) (wage 1000.00, two `full_day` and
one `half_day` row, payments 1000.00 and 600.00) gives earned 2500, paid 1600,
balance 900, and the pair (2, 7) (one `full_day` row, one payment of 5000) gives the
negative balance −4000 without error. -/
theorem C3_balance (db : DB) (projectID labourID : UUID) (l : Labour)
    (h : labourQuery db labourID = some l) :
    (∃ r, GetBalance db projectID labourID = .ok r ∧
      r.TotalEarned = l.DailyWage * earnedQuery db projectID labourID ∧
      r.TotalPaid = paidQuery db projectID labourID ∧
      r.Balance = r.TotalEarned - r.TotalPaid) ∧
    GetBalance exampleDB 1 7 = .ok ⟨7, "Ramesh", 2500, 1600, 900⟩ ∧
    GetBalance exampleDB 2 7 = .ok ⟨7, "Ramesh", 1000, 5000, -4000⟩ := by
  refine ⟨⟨_, GetBalance_of_labour db projectID labourID l h, rfl, rfl, rfl⟩, ?_, ?_⟩
  · simp [GetBalance, labourQuery, exampleDB, earnedQuery, paidQuery, workDaysOf, paymentsOf,
      statusMultiplier]
    norm_num
  · simp [GetBalance, labourQuery, exampleDB, earnedQuery, paidQuery, workDaysOf, paymentsOf,
      statusMultiplier]
    norm_num

/-- C3 at the example store, for the overpaid pair (2, 7). -/
theorem C3_balance_witness :
    labourQuery exampleDB 7 = some ⟨7, "Ramesh", "", 1000, 0, 0⟩ ∧
    ∃ r, GetBalance exampleDB 2 7 = .ok r ∧
      r.TotalEarned = (1000 : ℚ) * earnedQuery exampleDB 2 7 ∧
      r.TotalPaid = paidQuery exampleDB 2 7 ∧
      r.Balance = r.TotalEarned - r.TotalPaid :=
  ⟨rfl, (C3_balance exampleDB 2 7 ⟨7, "Ramesh", "", 1000, 0, 0⟩ rfl).1⟩

/-- The labour query finds nothing exactly when no row has the id. -/
theorem labourQuery_eq_none (db : DB) (labourID : UUID) :
    labourQuery db labourID = none ↔ ∀ x ∈ db.labours, x.ID ≠ labourID := by
  simp [labourQuery, List.find?_eq_none]

/-- C4: `GetBalance` fails with `ErrNotFound` exactly when no labour row has the
given id, and that is its only error.  The project id is not looked up: the tables
`projects` and `project_labours` have no influence on the result, and for a stored
labourer the call succeeds for every project id, with `TotalEarned` the wage times
the number of `full_day` rows plus half the number of `half_day` rows of `work_days`
that carry the pair, `TotalPaid` the sum of the amounts of the rows of `payments`
that carry the pair, and `Balance` their difference; with no attendance and no
payment row for the pair all three amounts are `0`. -/
theorem C4_not_found (db : DB) (projectID labourID : UUID) :
    (GetBalance db projectID labourID = .error .ErrNotFound ↔
      ∀ x ∈ db.labours, x.ID ≠ labourID) ∧
    (∀ e, GetBalance db projectID labourID = .error e → e = .ErrNotFound) ∧
    (∀ projects assignments,
      GetBalance { db with projects := projects, project_labours := assignments }
        projectID labourID = GetBalance db projectID labourID) ∧
    (∀ l, labourQuery db labourID = some l →
      GetBalance db projectID labourID =
        .ok { LabourID := labourID
              LabourName := l.Name
              TotalEarned := l.DailyWage *
                (((db.work_days.countP (fun w =>
                    w.ProjectID == projectID && w.LabourID == labourID &&
                      w.Status == "full_day") : Nat) : ℚ) +
                  ((db.work_days.countP (fun w =>
                    w.ProjectID == projectID && w.LabourID == labourID &&
                      w.Status == "half_day") : Nat) : ℚ) / 2)
              TotalPaid :=
                ((db.payments.filter
                  (fun p => p.ProjectID == projectID && p.LabourID == labourID)).map
                    (fun p => p.Amount)).sum
              Balance := l.DailyWage *
                (((db.work_days.countP (fun w =>
                    w.ProjectID == projectID && w.LabourID == labourID &&
                      w.Status == "full_day") : Nat) : ℚ) +
                  ((db.work_days.countP (fun w =>
                    w.ProjectID == projectID && w.LabourID == labourID &&
                      w.Status == "half_day") : Nat) : ℚ) / 2) -
                ((db.payments.filter
                  (fun p => p.ProjectID == projectID && p.LabourID == labourID)).map
                    (fun p => p.Amount)).sum } ∧
      ((∀ w ∈ db.work_days, ¬ (w.ProjectID = projectID ∧ w.LabourID = labourID)) →
        (∀ p ∈ db.payments, ¬ (p.ProjectID = projectID ∧ p.LabourID = labourID)) →
        GetBalance db projectID labourID = .ok ⟨labourID, l.Name, 0, 0, 0⟩)) := by
  refine ⟨?_, ?_, ?_, ?_⟩
  · rw [← labourQuery_eq_none]
    cases hq : labourQuery db labourID with
    | none => simp [GetBalance, hq]
    | some l => simp [GetBalance, hq]
  · intro e he
    cases hq : labourQuery db labourID with
    | none =>
      simp only [GetBalance, hq] at he
      cases he
      rfl
    | some l => simp [GetBalance, hq] at he
  · intro projects assignments
    rfl
  · intro l hl
    refine ⟨GetBalance_on_rows db projectID labourID l hl, ?_⟩
    intro hw hp
    have hw2 : workDaysOf db projectID labourID = [] := by
      unfold workDaysOf
      rw [List.filter_eq_nil_iff]
      intro w hmem
      simpa using hw w hmem
    have hp2 : paymentsOf db projectID labourID = [] := by
      unfold paymentsOf
      rw [List.filter_eq_nil_iff]
      intro p hmem
      simpa using hp p hmem
    rw [GetBalance_of_labour db projectID labourID l hl]
    simp [earnedQuery, paidQuery, hw2, hp2]

/-- C4 at the example store: labourer 7 exists; project 2 is not stored (the table
`projects` is empty) and labourer 7 is not assigned to it, yet the balance of the
pair (2, 7) is computed from the one `full_day` row and the one payment of 5000 that
carry the pair; the balance of the pair (99, 7), which no row carries, is zero. -/
theorem C4_not_found_witness :
    labourQuery exampleDB 7 = some ⟨7, "Ramesh", "", 1000, 0, 0⟩ ∧
    ProjectRepository.GetByID exampleDB 2 = .error .ErrNotFound ∧
    LabourRepository.IsAssignedToProject exampleDB 2 7 = false ∧
    GetBalance exampleDB 2 7 = .ok ⟨7, "Ramesh", 1000, 5000, -4000⟩ ∧
    GetBalance exampleDB 99 7 = .ok ⟨7, "Ramesh", 0, 0, 0⟩ :=
  ⟨rfl, rfl, rfl,
    (((C4_not_found exampleDB 2 7).2.2.2 ⟨7, "Ramesh", "", 1000, 0, 0⟩ rfl).1).trans (by
      have h1 : exampleDB.work_days.countP (fun w =>
          w.ProjectID == 2 && w.LabourID == 7 && w.Status == "full_day") = 1 := by decide
      have h2 : exampleDB.work_days.countP (fun w =>
          w.ProjectID == 2 && w.LabourID == 7 && w.Status == "half_day") = 0 := by decide
      have h3 : ((exampleDB.payments.filter
          (fun p => p.ProjectID == 2 && p.LabourID == 7)).map (fun p => p.Amount)).sum =
          (5000 : ℚ) := by
        simp [exampleDB]
      simp only [h1, h2, h3]
      norm_num),
    ((C4_not_found exampleDB 99 7).2.2.2 ⟨7, "Ramesh", "", 1000, 0, 0⟩ rfl).2
      (by decide) (by decide)⟩

/-! ### Passcode store -/

/-- `VerifyOTP` never returns an error. -/
theorem VerifyOTP_result (m : MockProvider) (now : Time) (phone code : String) :
    (VerifyOTP m now phone code).2 =
      .ok (match m.otps phone with
        | none => false
        | some stored => decide (now ≤ stored.ExpiresAt) && decide (stored.Code = code)) := by
  unfold VerifyOTP
  cases hs : m.otps phone with
  | none => rfl
  | some stored =>
    by_cases h1 : now > stored.ExpiresAt
    · have h1' : ¬ now ≤ stored.ExpiresAt := not_le.mpr h1
      simp [h1, h1']
    · have h1' : now ≤ stored.ExpiresAt := not_lt.mp h1
      by_cases h2 : stored.Code = code
      · simp [h1, h1', h2]
      · simp [h1, h1', h2]

/-- With no entry for the phone, `VerifyOTP` answers `false`. -/
theorem VerifyOTP_absent (m : MockProvider) (now : Time) (phone code : String)
    (h : m.otps phone = none) : (VerifyOTP m now phone code).2 = .ok false := by
  rw [VerifyOTP_result, h]

/-- A successful `VerifyOTP` leaves no entry for the phone. -/
theorem VerifyOTP_true_deletes (m : MockProvider) (now : Time) (phone code : String)
    (h : (VerifyOTP m now phone code).2 = .ok true) :
    (VerifyOTP m now phone code).1.otps phone = none := by
  unfold VerifyOTP at h ⊢
  cases hs : m.otps phone with
  | none => simp [hs] at h
  | some stored =>
    simp only [hs] at h ⊢
    by_cases h1 : now > stored.ExpiresAt
    · simp [h1] at h
    · by_cases h2 : stored.Code = code
      · simp [h1, h2, mapDelete]
      · simp [h1, h2] at h

/-- The entry of a phone after `VerifyOTP` on any phone is the old entry or none. -/
theorem VerifyOTP_otps (m : MockProvider) (now : Time) (p code phone : String) :
    (VerifyOTP m now p code).1.otps phone = m.otps phone ∨
      (VerifyOTP m now p code).1.otps phone = none := by
  unfold VerifyOTP
  cases hs : m.otps p with
  | none => exact Or.inl rfl
  | some stored =>
    by_cases hp : phone = p
    · by_cases h1 : now > stored.ExpiresAt
      · simp [h1, mapDelete, hp]
      · by_cases h2 : stored.Code = code
        · simp [h1, h2, mapDelete, hp]
        · simp [h1, h2]
    · by_cases h1 : now > stored.ExpiresAt
      · simp [h1, mapDelete, hp]
      · by_cases h2 : stored.Code = code
        · simp [h1, h2, mapDelete, hp]
        · simp [h1, h2]

/-- An operation other than a `SendOTP` for the phone keeps the entry of the phone
or removes it. -/
theorem OtpOp.run_otps (m : MockProvider) (op : OtpOp) (phone : String)
    (h : op.isSendTo phone = false) :
    (op.run m).otps phone = m.otps phone ∨ (op.run m).otps phone = none := by
  cases op with
  | send now rnd p =>
    have hp : ¬ phone = p := by
      intro e
      simp [OtpOp.isSendTo, e] at h
    left
    simp [OtpOp.run, SendOTP, mapSet, hp]
  | verify now p code => exact VerifyOTP_otps m now p code phone
  | sweep now =>
    simp only [OtpOp.run, cleanupExpired]
    cases hs : m.otps phone with
    | none => exact Or.inl rfl
    | some stored =>
      by_cases h1 : now > stored.ExpiresAt
      · simp [h1]
      · simp [h1]

/-- Over a sequence of operations with no `SendOTP` for the phone, the entry of the
phone is kept or removed. -/
theorem runOps_otps (ops : List OtpOp) (m : MockProvider) (phone : String)
    (h : ∀ op ∈ ops, op.isSendTo phone = false) :
    (runOps m ops).otps phone = m.otps phone ∨ (runOps m ops).otps phone = none := by
  induction ops generalizing m with
  | nil => exact Or.inl rfl
  | cons op ops ih =>
    have hop := OtpOp.run_otps m op phone (h op (List.mem_cons_self _ _))
    have hrest := ih (op.run m) (fun o ho => h o (List.mem_cons_of_mem _ ho))
    simp only [runOps, List.foldl_cons] at hrest ⊢
    rcases hrest with h1 | h1
    · rcases hop with h2 | h2
      · exact Or.inl (h1.trans h2)
      · exact Or.inr (h1.trans h2)
    · exact Or.inr h1

/-- C5: a passcode is single-use.  After `SendOTP(phone)` has returned `c` and
`VerifyOTP(phone, c)` has returned true, and after any further operations on the
provider (verifications of any phone, issuances for other phones, sweeps) none of
which is a `SendOTP` for this phone, `VerifyOTP(phone, x)` returns false for every
`x`, `c` included, at every time. -/
theorem C5_single_use (m : MockProvider) (t0 t1 t : Time) (rnd : Option Nat)
    (phone c x : String) (ops : List OtpOp)
    (_hsend : (SendOTP m t0 rnd phone).2 = .ok c)
    (hverify : (VerifyOTP (SendOTP m t0 rnd phone).1 t1 phone c).2 = .ok true)
    (hops : ∀ op ∈ ops, op.isSendTo phone = false) :
    (VerifyOTP (runOps (VerifyOTP (SendOTP m t0 rnd phone).1 t1 phone c).1 ops) t phone x).2 =
      .ok false := by
  have hdel := VerifyOTP_true_deletes _ t1 phone c hverify
  have hkeep := runOps_otps ops (VerifyOTP (SendOTP m t0 rnd phone).1 t1 phone c).1 phone hops
  apply VerifyOTP_absent
  rcases hkeep with h | h
  · exact h.trans hdel
  · exact h

/-- C5 on a fixed-code provider: the code sent at time 0 is verified at time 1;
after a wrong guess, a sweep and an issuance for another phone, a second
verification with the same code fails. -/
theorem C5_single_use_witness :
    (SendOTP (NewMockProvider true) 0 none "+1234567892").2 = .ok "123456" ∧
    (VerifyOTP (SendOTP (NewMockProvider true) 0 none "+1234567892").1 1
      "+1234567892" "123456").2 = .ok true ∧
    (VerifyOTP
      (runOps
        (VerifyOTP (SendOTP (NewMockProvider true) 0 none "+1234567892").1 1
          "+1234567892" "123456").1
        [.verify 2 "+1234567892" "000000", .sweep 3, .send 4 none "+1234567891"])
      5 "+1234567892" "123456").2 = .ok false :=
  ⟨rfl, rfl,
    C5_single_use (NewMockProvider true) 0 1 5 none "+1234567892" "123456" "123456"
      [.verify 2 "+1234567892" "000000", .sweep 3, .send 4 none "+1234567891"]
      rfl rfl (by decide)⟩

/-- C6, as stated, fails.  On a fixed-code provider both issuances return "123456",
so the first code is accepted after the second issuance; on a random-code provider
the same happens when the two draws coincide (here both are 42, rendered "000042"). -/
theorem C6_counterexample :
    ((SendOTP (NewMockProvider true) 0 none "+1234567890").2 = .ok "123456" ∧
      (VerifyOTP
        (SendOTP (SendOTP (NewMockProvider true) 0 none "+1234567890").1 Second none
          "+1234567890").1
        (2 * Second) "+1234567890" "123456").2 = .ok true) ∧
    ((SendOTP (NewMockProvider false) 0 (some 42) "+1234567890").2 = .ok "000042" ∧
      (VerifyOTP
        (SendOTP (SendOTP (NewMockProvider false) 0 (some 42) "+1234567890").1 Second
          (some 42) "+1234567890").1
        (2 * Second) "+1234567890" "000042").2 = .ok true) :=
  ⟨⟨rfl, rfl⟩, ⟨rfl, rfl⟩⟩

/-- C6, amended: if `SendOTP(phone)` returns `c1` and a second `SendOTP(phone)`,
made at time `t1` before any verification, returns `c2`, then `VerifyOTP(phone, c1)`
at time `t` returns true exactly when `c1 = c2` and `t` is not after the expiry
`t1 + 5 min` of the second issuance; in particular it fails whenever `c1 ≠ c2`.
Only the entry of the latest issuance is stored.  On a fixed-code provider
`c1 = c2` always. -/
theorem C6_latest_code (m : MockProvider) (t0 t1 t : Time) (r0 r1 : Option Nat)
    (phone c1 c2 : String)
    (h1 : (SendOTP m t0 r0 phone).2 = .ok c1)
    (h2 : (SendOTP (SendOTP m t0 r0 phone).1 t1 r1 phone).2 = .ok c2) :
    (VerifyOTP (SendOTP (SendOTP m t0 r0 phone).1 t1 r1 phone).1 t phone c1).2 =
      .ok (decide (t ≤ t1 + 5 * Minute) && decide (c2 = c1)) ∧
    (c1 ≠ c2 →
      (VerifyOTP (SendOTP (SendOTP m t0 r0 phone).1 t1 r1 phone).1 t phone c1).2 = .ok false) ∧
    ((SendOTP (SendOTP m t0 r0 phone).1 t1 r1 phone).1.otps phone =
      some { Code := c2, ExpiresAt := t1 + 5 * Minute }) ∧
    (m.useFixedOTP = true → c1 = c2) := by
  have e1 : c1 = (if m.useFixedOTP then "123456" else generateOTP r0) := by
    simp only [SendOTP] at h1
    injection h1 with h
    exact h.symm
  have e2 : c2 = (if m.useFixedOTP then "123456" else generateOTP r1) := by
    simp only [SendOTP] at h2
    injection h2 with h
    exact h.symm
  have hst : (SendOTP (SendOTP m t0 r0 phone).1 t1 r1 phone).1.otps phone =
      some { Code := c2, ExpiresAt := t1 + 5 * Minute } := by
    rw [e2]
    simp [SendOTP, mapSet]
  have hres : (VerifyOTP (SendOTP (SendOTP m t0 r0 phone).1 t1 r1 phone).1 t phone c1).2 =
      .ok (decide (t ≤ t1 + 5 * Minute) && decide (c2 = c1)) := by
    rw [VerifyOTP_result, hst]
  refine ⟨hres, ?_, hst, ?_⟩
  · intro hne
    rw [hres]
    have : ¬ c2 = c1 := fun h => hne h.symm
    simp [this]
  · intro hf
    rw [e1, e2]
    simp [hf]

/-- C6 amended, on a random-code provider with draws 7 and 42: the first code
"000007" is refused after the second issuance. -/
theorem C6_latest_code_witness :
    (SendOTP (NewMockProvider false) 0 (some 7) "+1234567890").2 = .ok "000007" ∧
    (SendOTP (SendOTP (NewMockProvider false) 0 (some 7) "+1234567890").1 Second (some 42)
      "+1234567890").2 = .ok "000042" ∧
    (VerifyOTP
      (SendOTP (SendOTP (NewMockProvider false) 0 (some 7) "+1234567890").1 Second (some 42)
        "+1234567890").1
      (2 * Second) "+1234567890" "000007").2 = .ok false :=
  ⟨rfl, rfl,
    (C6_latest_code (NewMockProvider false) 0 Second (2 * Second) (some 7) (some 42)
      "+1234567890" "000007" "000042" rfl rfl).2.1 (by decide)⟩

/-- C7: if `SendOTP(phone)` runs at time `T` and no later `SendOTP(phone)` occurs
(any other operations may), then at every time `t > T + 5 min` `VerifyOTP(phone, code)`
returns false for every code, and afterwards no entry is stored for the phone. -/
theorem C7_expiry (m : MockProvider) (T t : Time) (rnd : Option Nat) (phone code : String)
    (ops : List OtpOp)
    (hops : ∀ op ∈ ops, op.isSendTo phone = false)
    (ht : t > T + 5 * Minute) :
    (SendOTP m T rnd phone).1.otps phone =
      some { Code := if m.useFixedOTP then "123456" else generateOTP rnd,
             ExpiresAt := T + 5 * Minute } ∧
    (VerifyOTP (runOps (SendOTP m T rnd phone).1 ops) t phone code).2 = .ok false ∧
    (VerifyOTP (runOps (SendOTP m T rnd phone).1 ops) t phone code).1.otps phone = none := by
  have hst : (SendOTP m T rnd phone).1.otps phone =
      some { Code := if m.useFixedOTP then "123456" else generateOTP rnd,
             ExpiresAt := T + 5 * Minute } := by
    simp [SendOTP, mapSet]
  refine ⟨hst, ?_⟩
  rcases runOps_otps ops (SendOTP m T rnd phone).1 phone hops with h | h
  · rw [hst] at h
    constructor
    · rw [VerifyOTP_result, h]
      have : ¬ t ≤ T + 5 * Minute := not_le.mpr ht
      simp [this]
    · unfold VerifyOTP
      simp [h, ht, mapDelete]
  · constructor
    · exact VerifyOTP_absent _ t phone code h
    · unfold VerifyOTP
      simp [h]

/-- C7 on a fixed-code provider: a code sent at time 0 is refused one nanosecond
after the five minutes, and the entry is gone. -/
theorem C7_expiry_witness :
    (5 * Minute + 1 : Time) > 0 + 5 * Minute ∧
    (VerifyOTP (runOps (SendOTP (NewMockProvider true) 0 none "+1234567890").1
      [.verify 10 "+1234567890" "000000", .sweep Minute])
      (5 * Minute + 1) "+1234567890" "123456").2 = .ok false ∧
    (VerifyOTP (runOps (SendOTP (NewMockProvider true) 0 none "+1234567890").1
      [.verify 10 "+1234567890" "000000", .sweep Minute])
      (5 * Minute + 1) "+1234567890" "123456").1.otps "+1234567890" = none :=
  ⟨by decide,
    (C7_expiry (NewMockProvider true) 0 (5 * Minute + 1) none "+1234567890" "123456"
      [.verify 10 "+1234567890" "000000", .sweep Minute] (by decide) (by decide)).2⟩

/-- C8: `VerifyOTP` returns `(true, nil)` exactly when an entry is stored for the
phone, the current time is not after its expiry and the submitted code equals the
stored code.  With no entry, with an expired entry and with a different code it
returns `(false, nil)`; the result is always one of `(true, nil)` and `(false, nil)`,
so the error is never set and the reason of a refusal is not visible in the result. -/
theorem C8_verify_iff (m : MockProvider) (now : Time) (phone code : String) :
    ((VerifyOTP m now phone code).2 = .ok true ↔
      ∃ s, m.otps phone = some s ∧ ¬ now > s.ExpiresAt ∧ code = s.Code) ∧
    (m.otps phone = none → (VerifyOTP m now phone code).2 = .ok false) ∧
    (∀ s, m.otps phone = some s → now > s.ExpiresAt →
      (VerifyOTP m now phone code).2 = .ok false) ∧
    (∀ s, m.otps phone = some s → s.Code ≠ code →
      (VerifyOTP m now phone code).2 = .ok false) ∧
    ((VerifyOTP m now phone code).2 = .ok true ∨ (VerifyOTP m now phone code).2 = .ok false) ∧
    (∀ e, (VerifyOTP m now phone code).2 ≠ .error e) := by
  rw [VerifyOTP_result]
  cases hs : m.otps phone with
  | none => simp
  | some stored =>
    by_cases h1 : now ≤ stored.ExpiresAt
    · have h1' : ¬ now > stored.ExpiresAt := not_lt.mpr h1
      by_cases h2 : stored.Code = code
      · simp [h1, h2]
      · have h2' : ¬ code = stored.Code := fun h => h2 h.symm
        simp [h1, h2, h2']
    · have h1' : now > stored.ExpiresAt := not_le.mp h1
      simp [h1, h1']

/-! ### Session tokens -/

/-- The header value `"HS256"` names the method `HS256`. -/
theorem GetSigningMethod_HS256 : GetSigningMethod SigningMethod.HS256.Alg = some .HS256 := by
  decide

/-- `validateToken` on a well-formed token string whose `alg` names a method. -/
theorem validateToken_some (lib : JWTCodec) (jwtSecret : String) (now : Time)
    (raw : CompactToken) (m : SigningMethod) (hm : GetSigningMethod raw.alg = some m) :
    validateToken lib jwtSecret now (some raw) =
      if m.isHMAC then
        if raw.signature = lib.hmac m jwtSecret raw.signingString then
          match validateClaims now raw.claims.RegisteredClaims with
          | .error e => .error e
          | .ok _ => .ok raw.claims
        else .error (.Other "token signature is invalid")
      else .error (.Other "token is unverifiable: error while executing keyfunc") := by
  unfold validateToken ParseWithClaims
  simp only [hm]
  by_cases h1 : m.isHMAC = true
  · by_cases h2 : raw.signature = lib.hmac m jwtSecret raw.signingString
    · cases hv : validateClaims now raw.claims.RegisteredClaims with
      | error e => simp [h1, h2, hv, SigningMethod.Verify]
      | ok u => simp [h1, h2, hv, SigningMethod.Verify]
    · simp [h1, h2, SigningMethod.Verify]
  · simp [h1]

/-- `generateTokens` always succeeds; its two token strings are the `HS256` tokens
over the issued claims with expiry `now + 24 h` and `now + 7 d`. -/
theorem generateTokens_ok (lib : JWTCodec) (jwtSecret : String) (now : Time) (user : User) :
    generateTokens lib jwtSecret now user =
      .ok { AccessToken := some (hs256Token lib jwtSecret (issuedClaims user now (now + 24 * Hour)))
            RefreshToken :=
              some (hs256Token lib jwtSecret (issuedClaims user now (now + 7 * 24 * Hour)))
            ExpiresAt := now + 24 * Hour
            User := user } := by
  simp only [generateTokens, SignedString, SigningMethod.Sign, SigningMethod.isHMAC, if_true]
  rfl

/-- C9: for every identity, secret and issue time, `generateTokens` succeeds, and
`ValidateToken` on its access token with the same secret, at any time before the
token's expiry (its `exp` claim, `now + 24 h` in whole seconds), succeeds and
returns claims whose `UserID` and `Phone` are those of the identity. -/
theorem C9_validate_issued (lib : JWTCodec) (jwtSecret : String) (now t : Time) (user : User)
    (ht : t < NewNumericDate (now + 24 * Hour)) :
    ∃ resp c, generateTokens lib jwtSecret now user = .ok resp ∧
      ValidateToken lib jwtSecret t resp.AccessToken = .ok c ∧
      c.RegisteredClaims.ExpiresAt = some (NewNumericDate (now + 24 * Hour)) ∧
      c.UserID = user.ID ∧ c.Phone = user.Phone := by
  refine ⟨_, issuedClaims user now (now + 24 * Hour),
    generateTokens_ok lib jwtSecret now user, ?_, rfl, rfl, rfl⟩
  simp only [ValidateToken]
  rw [validateToken_some lib jwtSecret t _ .HS256 GetSigningMethod_HS256]
  simp [SigningMethod.isHMAC, validateClaims, hs256Token, issuedClaims, ht]

/-- C9 with the stand-in codec: a token issued at time 0 validates one hour later. -/
theorem C9_validate_issued_witness :
    (Hour : Time) < NewNumericDate (0 + 24 * Hour) ∧
    ∃ resp c, generateTokens toyCodec "secret" 0 ⟨5, "+1234567890", "", 0, 0⟩ = .ok resp ∧
      ValidateToken toyCodec "secret" Hour resp.AccessToken = .ok c ∧
      c.RegisteredClaims.ExpiresAt = some (NewNumericDate (0 + 24 * Hour)) ∧
      c.UserID = 5 ∧ c.Phone = "+1234567890" :=
  ⟨by decide,
    C9_validate_issued toyCodec "secret" 0 Hour ⟨5, "+1234567890", "", 0, 0⟩ (by decide)⟩

/-- C10: a well-formed token string fails `validateToken` with an error (and so
yields no claims) whenever its signature is not the HMAC of its first two segments
under the server secret with the hash its header names, and whenever its header
names no method of the HMAC family (`none`, an RSA, ECDSA or EdDSA method, or an
unknown name), whatever its claims and the time.  A string that is not a
well-formed token fails as well. -/
theorem C10_tampered (lib : JWTCodec) (jwtSecret : String) (now : Time) (raw : CompactToken)
    (h : (∀ m, GetSigningMethod raw.alg = some m →
            raw.signature ≠ lib.hmac m jwtSecret raw.signingString) ∨
         (∀ m, GetSigningMethod raw.alg = some m → m.isHMAC = false)) :
    (∃ e, validateToken lib jwtSecret now (some raw) = .error e) ∧
    (∃ e, validateToken lib jwtSecret now none = .error e) := by
  refine ⟨?_, ⟨_, rfl⟩⟩
  cases hm : GetSigningMethod raw.alg with
  | none =>
    simp only [validateToken, ParseWithClaims, hm]
    exact ⟨_, rfl⟩
  | some m =>
    rw [validateToken_some lib jwtSecret now raw m hm]
    rcases h with h | h
    · have hs := h m hm
      by_cases h1 : m.isHMAC = true
      · simp only [h1, hs, if_true, if_false]
        exact ⟨_, rfl⟩
      · simp only [h1, if_false]
        exact ⟨_, rfl⟩
    · have h1 := h m hm
      simp only [h1, Bool.false_eq_true, if_false]
      exact ⟨_, rfl⟩

/-- C10 with the stand-in codec: an `HS256` token whose signature bytes are not the
keyed hash, and a token with `alg` `none` and an empty signature, are both refused. -/
theorem C10_tampered_witness :
    (∃ e, validateToken toyCodec "secret" 0
      (some ⟨"HS256.5.+1234567890", "HS256", ⟨5, "+1234567890", {}⟩, [1, 2, 3]⟩) = .error e) ∧
    (∃ e, validateToken toyCodec "secret" 0
      (some ⟨"none.5.+1234567890", "none", ⟨5, "+1234567890", {}⟩, []⟩) = .error e) :=
  ⟨(C10_tampered toyCodec "secret" 0
      ⟨"HS256.5.+1234567890", "HS256", ⟨5, "+1234567890", {}⟩, [1, 2, 3]⟩
      (Or.inl (by decide))).1,
    (C10_tampered toyCodec "secret" 0
      ⟨"none.5.+1234567890", "none", ⟨5, "+1234567890", {}⟩, []⟩
      (Or.inr (by decide))).1⟩

/-! ### Session tokens: issue and refresh -/

/-- `NewNumericDate` rounds down to a whole second: it loses less than one second,
and nothing on a whole second. -/
theorem NewNumericDate_bounds (t : Time) :
    NewNumericDate t ≤ t ∧ t < NewNumericDate t + Second ∧
      (t % Second = 0 → NewNumericDate t = t) :=
  have key : ∀ x : Int, x - x % 1000000000 ≤ x ∧ x < x - x % 1000000000 + 1000000000 ∧
      (x % 1000000000 = 0 → x - x % 1000000000 = x) := by
    intro x
    omega
  key t

/-- A whole number of seconds plus a whole number of seconds is not changed by
`NewNumericDate`. -/
theorem NewNumericDate_whole (t k : Time) (ht : t % Second = 0) (hk : k % Second = 0) :
    NewNumericDate (t + k) = t + k :=
  have key : ∀ x y : Int, x % 1000000000 = 0 → y % 1000000000 = 0 →
      (x + y) - (x + y) % 1000000000 = x + y := by
    intro x y hx hy
    omega
  key t k ht hk

/-- C11, as stated, fails.  For a token issued at `now = 1.5 s` the issued-at claim
is `1 s`, not `now`; the expiry claim of the access token is `24 h + 1 s`, while the
response `ExpiresAt` is `24 h + 1.5 s`. -/
theorem C11_counterexample :
    ∃ resp a, generateTokens toyCodec "secret" 1500000000 ⟨5, "+1234567890", "", 0, 0⟩ = .ok resp ∧
      resp.AccessToken = some a ∧
      a.claims.RegisteredClaims.IssuedAt = some 1000000000 ∧
      a.claims.RegisteredClaims.ExpiresAt = some (24 * Hour + 1000000000) ∧
      resp.ExpiresAt = 24 * Hour + 1500000000 ∧
      a.claims.RegisteredClaims.IssuedAt ≠ some 1500000000 ∧
      a.claims.RegisteredClaims.ExpiresAt ≠ some resp.ExpiresAt := by
  refine ⟨_, _, generateTokens_ok _ _ _ _, rfl, ?_, ?_, ?_, ?_, ?_⟩ <;>
    simp [hs256Token, issuedClaims, NewNumericDate, Second, Hour, Minute]

/-- C11, amended: for every identity and issue time `now`, `generateTokens` succeeds
and returns `HS256` tokens signed under the secret.  The access token's claims
carry the identity's id and phone, issued-at = `now` and expiry = `now + 24 h`, each
rounded down to a whole second; the refresh token's claims carry the same id, phone
and issued-at and expiry = `now + 7 d` rounded down to a whole second.  The response
`ExpiresAt` is `now + 24 h` itself: it is not before the access token's expiry and
less than one second after it, and equal to it when `now` is a whole number of
seconds.  `User` is the identity record. -/
theorem C11_issued (lib : JWTCodec) (jwtSecret : String) (now : Time) (user : User) :
    ∃ resp a r, generateTokens lib jwtSecret now user = .ok resp ∧
      resp.AccessToken = some a ∧ resp.RefreshToken = some r ∧
      a = hs256Token lib jwtSecret a.claims ∧ r = hs256Token lib jwtSecret r.claims ∧
      a.claims.UserID = user.ID ∧ a.claims.Phone = user.Phone ∧
      a.claims.RegisteredClaims.IssuedAt = some (NewNumericDate now) ∧
      a.claims.RegisteredClaims.ExpiresAt = some (NewNumericDate (now + 24 * Hour)) ∧
      r.claims.UserID = user.ID ∧ r.claims.Phone = user.Phone ∧
      r.claims.RegisteredClaims.IssuedAt = some (NewNumericDate now) ∧
      r.claims.RegisteredClaims.ExpiresAt = some (NewNumericDate (now + 7 * 24 * Hour)) ∧
      resp.ExpiresAt = now + 24 * Hour ∧
      NewNumericDate (now + 24 * Hour) ≤ resp.ExpiresAt ∧
      resp.ExpiresAt < NewNumericDate (now + 24 * Hour) + Second ∧
      (now % Second = 0 →
        NewNumericDate now = now ∧ NewNumericDate (now + 24 * Hour) = resp.ExpiresAt ∧
        NewNumericDate (now + 7 * 24 * Hour) = now + 7 * 24 * Hour) ∧
      resp.User = user := by
  refine ⟨_, _, _, generateTokens_ok lib jwtSecret now user, rfl, rfl, rfl, rfl, rfl, rfl, rfl,
    rfl, rfl, rfl, rfl, rfl, rfl, ?_, ?_, ?_, rfl⟩
  · exact (NewNumericDate_bounds _).1
  · exact (NewNumericDate_bounds _).2.1
  · intro h
    exact ⟨(NewNumericDate_bounds now).2.2 h,
      NewNumericDate_whole now (24 * Hour) h (by decide),
      NewNumericDate_whole now (7 * 24 * Hour) h (by decide)⟩

/-- The claims `validateToken` returns are those of the token string, whatever the
time of validation. -/
theorem validateToken_claims (lib : JWTCodec) (jwtSecret : String) (now : Time)
    (t : TokenString) (c : Claims) (h : validateToken lib jwtSecret now t = .ok c) :
    ∃ raw, t = some raw ∧ c = raw.claims := by
  cases t with
  | none => simp [validateToken, ParseWithClaims] at h
  | some raw =>
    refine ⟨raw, rfl, ?_⟩
    cases hm : GetSigningMethod raw.alg with
    | none => simp [validateToken, ParseWithClaims, hm] at h
    | some m =>
      rw [validateToken_some lib jwtSecret now raw m hm] at h
      by_cases h1 : m.isHMAC = true
      · by_cases h2 : raw.signature = lib.hmac m jwtSecret raw.signingString
        · cases hv : validateClaims now raw.claims.RegisteredClaims with
          | error e => simp [h1, h2, hv] at h
          | ok u =>
            simp [h1, h2, hv] at h
            exact h.symm
        · simp [h1, h2] at h
      · simp [h1] at h

/-- `UserRepository.GetByID` fails exactly with `ErrNotFound`, when no row has the id. -/
theorem UserRepository.GetByID_error (db : DB) (id : UUID) :
    (∀ u ∈ db.users, u.ID ≠ id) ↔ UserRepository.GetByID db id = .error .ErrNotFound := by
  unfold UserRepository.GetByID
  cases hf : db.users.find? (fun u => u.ID == id) with
  | none =>
    simp only [iff_true]
    simpa [List.find?_eq_none] using hf
  | some u =>
    simp only [reduceCtorEq, iff_false]
    intro hall
    have hmem := List.mem_of_find?_eq_some hf
    have hp := List.find?_some hf
    exact hall u hmem (by simpa using hp)

/-- C12: `RefreshToken(t)` succeeds exactly when `validateToken(t)` succeeds and a
user with the token's user id is stored; it then returns what `generateTokens`
returns for that user, a new access/refresh pair.  When validation fails the error
is "invalid refresh token" whatever the cause; when validation succeeds and no user
has the id the error is `ErrNotFound`.  The call reads the store and returns no new
one, so on the same store a later call with the same token succeeds whenever the
token still validates at that time. -/
theorem C12_refresh (lib : JWTCodec) (jwtSecret : String) (db : DB) (nowV nowG : Time)
    (t : TokenString) :
    ((∃ r, RefreshToken lib jwtSecret db nowV nowG t = .ok r) ↔
      ∃ c u, validateToken lib jwtSecret nowV t = .ok c ∧
        UserRepository.GetByID db c.UserID = .ok u) ∧
    (∀ c u, validateToken lib jwtSecret nowV t = .ok c →
      UserRepository.GetByID db c.UserID = .ok u →
      RefreshToken lib jwtSecret db nowV nowG t = generateTokens lib jwtSecret nowG u ∧
      ∃ r, RefreshToken lib jwtSecret db nowV nowG t = .ok r ∧ r.User = u ∧
        r.ExpiresAt = nowG + 24 * Hour) ∧
    (∀ e, validateToken lib jwtSecret nowV t = .error e →
      RefreshToken lib jwtSecret db nowV nowG t = .error (.Other "invalid refresh token")) ∧
    (∀ c, validateToken lib jwtSecret nowV t = .ok c → (∀ u ∈ db.users, u.ID ≠ c.UserID) →
      RefreshToken lib jwtSecret db nowV nowG t = .error .ErrNotFound) ∧
    (∀ nowV2 nowG2, (∃ r, RefreshToken lib jwtSecret db nowV nowG t = .ok r) →
      (∃ c, validateToken lib jwtSecret nowV2 t = .ok c) →
      ∃ r2, RefreshToken lib jwtSecret db nowV2 nowG2 t = .ok r2) := by
  have hok : ∀ (a b : Time) (c : Claims) (u : User),
      validateToken lib jwtSecret a t = .ok c → UserRepository.GetByID db c.UserID = .ok u →
      RefreshToken lib jwtSecret db a b t = generateTokens lib jwtSecret b u := by
    intro a b c u hc hu
    simp [RefreshToken, hc, hu]
  have hiff : ∀ a b : Time, (∃ r, RefreshToken lib jwtSecret db a b t = .ok r) →
      ∃ c u, validateToken lib jwtSecret a t = .ok c ∧
        UserRepository.GetByID db c.UserID = .ok u := by
    intro a b ⟨r, hr⟩
    cases hc : validateToken lib jwtSecret a t with
    | error e => simp [RefreshToken, hc] at hr
    | ok c =>
      cases hu : UserRepository.GetByID db c.UserID with
      | error e => simp [RefreshToken, hc, hu] at hr
      | ok u => exact ⟨c, u, rfl, hu⟩
  refine ⟨⟨hiff nowV nowG, ?_⟩, ?_, ?_, ?_, ?_⟩
  · rintro ⟨c, u, hc, hu⟩
    rw [hok nowV nowG c u hc hu, generateTokens_ok]
    exact ⟨_, rfl⟩
  · intro c u hc hu
    refine ⟨hok nowV nowG c u hc hu, ?_⟩
    rw [hok nowV nowG c u hc hu, generateTokens_ok]
    exact ⟨_, rfl, rfl, rfl⟩
  · intro e he
    simp [RefreshToken, he]
  · intro c hc hnone
    have hu := (UserRepository.GetByID_error db c.UserID).mp hnone
    simp [RefreshToken, hc, hu]
  · intro nowV2 nowG2 h1 ⟨c2, hc2⟩
    obtain ⟨c, u, hc, hu⟩ := hiff nowV nowG h1
    obtain ⟨raw, ht, hraw⟩ := validateToken_claims lib jwtSecret nowV t c hc
    obtain ⟨raw2, ht2, hraw2⟩ := validateToken_claims lib jwtSecret nowV2 t c2 hc2
    have hcc : c2 = c := by
      rw [ht] at ht2
      cases ht2
      rw [hraw, hraw2]
    rw [hcc] at hc2
    rw [hok nowV2 nowG2 c u hc2 hu, generateTokens_ok]
    exact ⟨_, rfl⟩

/-- C12 with the stand-in codec: user 100 of the store `sharedDB` refreshes with a
refresh token issued at time 0, one hour later and again two hours later. -/
theorem C12_refresh_witness :
    (∃ r, RefreshToken toyCodec "secret" sharedDB Hour Hour
        (some (hs256Token toyCodec "secret"
          (issuedClaims ⟨100, "+911111111111", "", 0, 0⟩ 0 (0 + 7 * 24 * Hour)))) = .ok r) ∧
    (∃ r2, RefreshToken toyCodec "secret" sharedDB (2 * Hour) (2 * Hour)
        (some (hs256Token toyCodec "secret"
          (issuedClaims ⟨100, "+911111111111", "", 0, 0⟩ 0 (0 + 7 * 24 * Hour)))) = .ok r2) :=
  have hv : ∀ n : Time, n < NewNumericDate (0 + 7 * 24 * Hour) →
      validateToken toyCodec "secret" n
        (some (hs256Token toyCodec "secret"
          (issuedClaims ⟨100, "+911111111111", "", 0, 0⟩ 0 (0 + 7 * 24 * Hour)))) =
        .ok (issuedClaims ⟨100, "+911111111111", "", 0, 0⟩ 0 (0 + 7 * 24 * Hour)) := by
    intro n hn
    have hn2 : n < NewNumericDate (168 * Hour) := by simpa using hn
    rw [validateToken_some toyCodec "secret" n _ .HS256 GetSigningMethod_HS256]
    simp [SigningMethod.isHMAC, validateClaims, hs256Token, issuedClaims, hn2]
  have h1 := ((C12_refresh toyCodec "secret" sharedDB Hour Hour _).1).mpr
    ⟨_, ⟨100, "+911111111111", "", 0, 0⟩, hv Hour (by decide), rfl⟩
  ⟨h1, (C12_refresh toyCodec "secret" sharedDB Hour Hour _).2.2.2.2 (2 * Hour) (2 * Hour) h1
    ⟨_, hv (2 * Hour) (by decide)⟩⟩

/-! ### Middleware -/

/-- `cutSpace` splits at the first space. -/
theorem cutSpace_eq_some (l a b : List Char) :
    cutSpace l = some (a, b) ↔ l = a ++ ' ' :: b ∧ ' ' ∉ a := by
  induction l generalizing a with
  | nil => simp [cutSpace]
  | cons c cs ih =>
    by_cases hc : c = ' '
    · subst hc
      simp only [cutSpace, if_true, Option.some.injEq, Prod.mk.injEq]
      constructor
      · rintro ⟨rfl, rfl⟩
        simp
      · rintro ⟨h, hn⟩
        cases a with
        | nil =>
          simp at h
          simp [h]
        | cons x xs =>
          simp at h hn
          exact absurd h.1 hn.1
    · simp only [cutSpace, hc, if_false]
      cases hr : cutSpace cs with
      | none =>
        simp only [reduceCtorEq, false_iff]
        rintro ⟨h, hn⟩
        cases a with
        | nil =>
          simp at h
          exact hc h.1
        | cons x xs =>
          simp at h hn
          have := (ih xs).mpr ⟨h.2, hn.2⟩
          rw [hr] at this
          cases this
      | some p =>
        obtain ⟨a1, b1⟩ := p
        have ih1 := (ih a1).mp
        simp only [Option.some.injEq, Prod.mk.injEq]
        constructor
        · rintro ⟨rfl, rfl⟩
          have := (ih a1).mp (by rw [hr])
          refine ⟨by simp [this.1], ?_⟩
          simp only [List.mem_cons, not_or]
          exact ⟨fun h => hc h.symm, this.2⟩
        · rintro ⟨h, hn⟩
          cases a with
          | nil =>
            simp at h
            exact absurd h.1 hc
          | cons x xs =>
            simp at h hn
            have h2 := (ih xs).mpr ⟨h.2, hn.2⟩
            rw [hr] at h2
            simp only [Option.some.injEq, Prod.mk.injEq] at h2
            exact ⟨by rw [h.1, h2.1], h2.2⟩

/-- `SplitN2` yields two parts, the first being `"Bearer"`, exactly on the strings
`"Bearer " ++ tok`, and the second part is then `tok`. -/
theorem SplitN2_bearer (s scheme tok : String) :
    (SplitN2 s = [scheme, tok] ∧ scheme = "Bearer") ↔ (s = "Bearer " ++ tok ∧ scheme = "Bearer") := by
  constructor
  · rintro ⟨h, rfl⟩
    refine ⟨?_, rfl⟩
    unfold SplitN2 at h
    cases hc : cutSpace s.data with
    | none => simp [hc] at h
    | some p =>
      obtain ⟨a, b⟩ := p
      simp only [hc, List.cons.injEq, and_true] at h
      obtain ⟨hs, _⟩ := (cutSpace_eq_some s.data a b).mp hc
      have ha : a = "Bearer".data := by
        have := congrArg String.data h.1
        simpa using this
      have hb : b = tok.data := by
        have := congrArg String.data h.2
        simpa using this
      apply String.ext
      rw [hs, ha, hb, String.data_append]
      rfl
  · rintro ⟨rfl, rfl⟩
    refine ⟨?_, rfl⟩
    have hc : cutSpace ("Bearer " ++ tok).data = some ("Bearer".data, tok.data) := by
      rw [cutSpace_eq_some, String.data_append]
      exact ⟨rfl, by decide⟩
    unfold SplitN2
    rw [hc]

/-- C13: for every value of the `Authorization` header, `AuthMiddleware` calls
`Next`, with `user_id` and `phone` set from the claims, exactly when the header is
`"Bearer "` followed by a token string for which `ValidateToken` succeeds; in every
other case (header empty or absent, no space, a scheme other than exactly
`"Bearer"`, a token that fails validation) it aborts with status 401. -/
theorem C13_auth_middleware (lib : JWTCodec) (decode : String → TokenString)
    (jwtSecret : String) (now : Time) (authHeader : String) :
    (∀ uid phone,
      AuthMiddleware lib decode jwtSecret now authHeader = .next uid phone ↔
        ∃ tok c, authHeader = "Bearer " ++ tok ∧
          ValidateToken lib jwtSecret now (decode tok) = .ok c ∧
          uid = c.UserID ∧ phone = c.Phone) ∧
    ((¬ ∃ tok c, authHeader = "Bearer " ++ tok ∧
          ValidateToken lib jwtSecret now (decode tok) = .ok c) →
      ∃ msg, AuthMiddleware lib decode jwtSecret now authHeader = .abort 401 msg) ∧
    ((∃ uid phone, AuthMiddleware lib decode jwtSecret now authHeader = .next uid phone) ∨
      ∃ msg, AuthMiddleware lib decode jwtSecret now authHeader = .abort 401 msg) := by
  have hmain : ∀ uid phone,
      AuthMiddleware lib decode jwtSecret now authHeader = .next uid phone ↔
        ∃ tok c, authHeader = "Bearer " ++ tok ∧
          ValidateToken lib jwtSecret now (decode tok) = .ok c ∧
          uid = c.UserID ∧ phone = c.Phone := by
    intro uid phone
    constructor
    · intro h
      unfold AuthMiddleware at h
      by_cases he : authHeader = ""
      · simp [he] at h
      · simp only [he, if_false] at h
        split at h
        · rename_i scheme tok hsplit
          by_cases hs : scheme = "Bearer"
          · simp only [hs, ne_eq, not_true_eq_false, if_false] at h
            have hform := ((SplitN2_bearer authHeader scheme tok).mp ⟨hsplit, hs⟩).1
            cases hv : ValidateToken lib jwtSecret now (decode tok) with
            | error e => simp [hv] at h
            | ok c =>
              simp only [hv, MiddlewareResult.next.injEq] at h
              exact ⟨tok, c, hform, hv, h.1.symm, h.2.symm⟩
          · simp [hs] at h
        · simp at h
    · rintro ⟨tok, c, rfl, hv, rfl, rfl⟩
      have hsplit := ((SplitN2_bearer ("Bearer " ++ tok) "Bearer" tok).mpr ⟨rfl, rfl⟩).1
      have hne : ¬ ("Bearer " ++ tok) = "" := by
        intro h
        have := congrArg String.data h
        simp [String.data_append] at this
      unfold AuthMiddleware
      simp only [hne, if_false, hsplit, ne_eq, not_true_eq_false, hv]
  have hcases : (∃ uid phone, AuthMiddleware lib decode jwtSecret now authHeader = .next uid phone) ∨
      ∃ msg, AuthMiddleware lib decode jwtSecret now authHeader = .abort 401 msg := by
    unfold AuthMiddleware
    by_cases he : authHeader = ""
    · simp [he]
    · simp only [he, if_false]
      split
      · rename_i scheme tok hsplit
        by_cases hs : scheme = "Bearer"
        · simp only [hs, ne_eq, not_true_eq_false, if_false]
          cases hv : ValidateToken lib jwtSecret now (decode tok) with
          | error e => simp
          | ok c => simp
        · simp [hs]
      · simp
  refine ⟨hmain, ?_, hcases⟩
  intro hno
  rcases hcases with ⟨uid, phone, h⟩ | h
  · obtain ⟨tok, c, h1, h2, _⟩ := (hmain uid phone).mp h
    exact absurd ⟨tok, c, h1, h2⟩ hno
  · exact h

/-! ### Date strings -/

/-- The digit of a number below ten is a digit with that value. -/
theorem digitChar_spec (k : Nat) (h : k < 10) :
    isDigit (digitChar k) = true ∧ digitVal (digitChar k) = k := by
  interval_cases k <;> decide

/-- A digit has a value below ten and is the digit of its value. -/
theorem isDigit_spec (c : Char) (h : isDigit c = true) :
    digitVal c < 10 ∧ digitChar (digitVal c) = c := by
  simp only [isDigit, Bool.and_eq_true, decide_eq_true_eq] at h
  have h0 : '0'.toNat = 48 := by decide
  have h9 : '9'.toNat = 57 := by decide
  rw [h0, h9] at h
  constructor
  · simp only [digitVal, h0]
    omega
  · simp only [digitChar, digitVal, h0]
    have : 48 + (c.toNat - 48) = c.toNat := by omega
    rw [this]
    exact Char.ofNat_toNat c

/-- No month has more than 31 days. -/
theorem daysIn_le (month year : Nat) (h1 : 1 ≤ month) (h2 : month ≤ 12) :
    daysIn month year ≤ 31 := by
  unfold daysIn
  split
  · omega
  · interval_cases month <;> decide

/-- The parser reads back the text of a calendar date. -/
theorem parseYMD_formatYMD (year month day : Nat) (hy : year ≤ 9999) (hm1 : 1 ≤ month)
    (hm2 : month ≤ 12) (hd1 : 1 ≤ day) (hd2 : day ≤ daysIn month year) :
    parseYMD (formatYMD year month day) = some (year, month, day) := by
  have hd3 := daysIn_le month year hm1 hm2
  have a1 := digitChar_spec (year / 1000 % 10) (Nat.mod_lt _ (by decide))
  have a2 := digitChar_spec (year / 100 % 10) (Nat.mod_lt _ (by decide))
  have a3 := digitChar_spec (year / 10 % 10) (Nat.mod_lt _ (by decide))
  have a4 := digitChar_spec (year % 10) (Nat.mod_lt _ (by decide))
  have a5 := digitChar_spec (month / 10 % 10) (Nat.mod_lt _ (by decide))
  have a6 := digitChar_spec (month % 10) (Nat.mod_lt _ (by decide))
  have a7 := digitChar_spec (day / 10 % 10) (Nat.mod_lt _ (by decide))
  have a8 := digitChar_spec (day % 10) (Nat.mod_lt _ (by decide))
  have ey : 1000 * (year / 1000 % 10) + 100 * (year / 100 % 10) + 10 * (year / 10 % 10) +
      year % 10 = year := by omega
  have em : 10 * (month / 10 % 10) + month % 10 = month := by omega
  have ed : 10 * (day / 10 % 10) + day % 10 = day := by omega
  have c1 : ¬ (month = 0 ∨ 12 < month) := by omega
  have c2 : ¬ (day < 1 ∨ daysIn month year < day) := by omega
  simp only [parseYMD, formatYMD, String.toList, a1.1, a2.1, a3.1, a4.1, a5.1, a6.1, a7.1, a8.1,
    a1.2, a2.2, a3.2, a4.2, a5.2, a6.2, a7.2, a8.2, ey, em, ed, beq_self_eq_true, Bool.and_self,
    if_true]
  simp [c1, c2]
  omega

/-- What the parser accepts is the text of a calendar date. -/
theorem parseYMD_some (s : String) (year month day : Nat)
    (h : parseYMD s = some (year, month, day)) :
    year ≤ 9999 ∧ 1 ≤ month ∧ month ≤ 12 ∧ 1 ≤ day ∧ day ≤ daysIn month year ∧
      s = formatYMD year month day := by
  unfold parseYMD at h
  split at h
  · rename_i y1 y2 y3 y4 s1 m1 m2 s2 d1 d2 hs
    split at h
    · rename_i hc
      simp only [Bool.and_eq_true, beq_iff_eq] at hc
      obtain ⟨⟨⟨⟨⟨⟨⟨⟨⟨h1, h2⟩, h3⟩, h4⟩, hs1⟩, h5⟩, h6⟩, hs2⟩, h7⟩, h8⟩ := hc
      have b1 := isDigit_spec y1 h1
      have b2 := isDigit_spec y2 h2
      have b3 := isDigit_spec y3 h3
      have b4 := isDigit_spec y4 h4
      have b5 := isDigit_spec m1 h5
      have b6 := isDigit_spec m2 h6
      have b7 := isDigit_spec d1 h7
      have b8 := isDigit_spec d2 h8
      simp only [] at h
      split at h
      · cases h
      · rename_i hmonth
        split at h
        · cases h
        · rename_i hday
          simp only [Option.some.injEq, Prod.mk.injEq] at h
          obtain ⟨ey, em, ed⟩ := h
          simp only [Bool.or_eq_true, beq_iff_eq, decide_eq_true_eq, not_or, not_lt] at hmonth hday
          rw [em] at hmonth hday
          rw [ed, ey] at hday
          refine ⟨by omega, by omega, by omega, by omega, by omega, ?_⟩
          have e1 : year / 1000 % 10 = digitVal y1 := by omega
          have e2 : year / 100 % 10 = digitVal y2 := by omega
          have e3 : year / 10 % 10 = digitVal y3 := by omega
          have e4 : year % 10 = digitVal y4 := by omega
          have e5 : month / 10 % 10 = digitVal m1 := by omega
          have e6 : month % 10 = digitVal m2 := by omega
          have e7 : day / 10 % 10 = digitVal d1 := by omega
          have e8 : day % 10 = digitVal d2 := by omega
          apply String.ext
          show s.toList = _
          rw [hs]
          simp only [formatYMD, e1, e2, e3, e4, e5, e6, e7, e8, b1.2, b2.2, b3.2, b4.2, b5.2,
            b6.2, b7.2, b8.2, hs1, hs2]
    · cases h
  · cases h

/-- `time.Parse` with layout `2006-01-02` refuses exactly the strings that are not a
valid calendar date in the form `YYYY-MM-DD`. -/
theorem timeParse_eq_none_iff (s : String) : timeParse s = none ↔ ¬ isCalendarDate s := by
  unfold timeParse
  constructor
  · intro h ⟨year, month, day, hy, hm1, hm2, hd1, hd2, hs⟩
    rw [hs, parseYMD_formatYMD year month day hy hm1 hm2 hd1 hd2] at h
    cases h
  · intro h
    cases hp : parseYMD s with
    | none => rfl
    | some p =>
      obtain ⟨year, month, day⟩ := p
      obtain ⟨hy, hm1, hm2, hd1, hd2, hs⟩ := parseYMD_some s year month day hp
      exact absurd ⟨year, month, day, hy, hm1, hm2, hd1, hd2, hs⟩ h

/-! ### Creating attendance and payment records -/

/-- `IsAssignedToProject` is false exactly when no assignment row carries the pair. -/
theorem IsAssignedToProject_false (db : DB) (projectID labourID : UUID) :
    LabourRepository.IsAssignedToProject db projectID labourID = false ↔
      ∀ pl ∈ db.project_labours, ¬ (pl.ProjectID = projectID ∧ pl.LabourID = labourID) := by
  simp [LabourRepository.IsAssignedToProject]

/-- `PaymentService.Create` on a request whose date string does not parse. -/
theorem PaymentService.Create_bad_date (db : DB) (newID : UUID) (now : Time) (projectID : UUID)
    (req : CreatePaymentRequest) (h : timeParse req.PaymentDate = none) :
    PaymentService.Create db newID now projectID req = (db, .error .ErrInvalidDate) := by
  simp [PaymentService.Create, h]

/-- `WorkDayService.Create` on a request whose date string does not parse. -/
theorem WorkDayService.CreateWorkDay_bad_date (db : DB) (newID : UUID) (now : Time) (projectID : UUID)
    (req : CreateWorkDayRequest) (h : timeParse req.WorkDate = none) :
    WorkDayService.Create db newID now projectID req = (db, .error .ErrInvalidDate) := by
  simp [WorkDayService.Create, h]

/-- `PaymentService.Create` on a request whose date parses and whose pair is not
assigned. -/
theorem PaymentService.Create_unassigned (db : DB) (newID : UUID) (now : Time)
    (projectID : UUID) (req : CreatePaymentRequest) (d : Time)
    (hd : timeParse req.PaymentDate = some d)
    (ha : LabourRepository.IsAssignedToProject db projectID req.LabourID = false) :
    PaymentService.Create db newID now projectID req = (db, .error .ErrInvalidLabour) := by
  simp [PaymentService.Create, hd, ha]

/-- `WorkDayService.Create` on a request whose date parses and whose pair is not
assigned. -/
theorem WorkDayService.CreateWorkDay_unassigned (db : DB) (newID : UUID) (now : Time)
    (projectID : UUID) (req : CreateWorkDayRequest) (d : Time)
    (hd : timeParse req.WorkDate = some d)
    (ha : LabourRepository.IsAssignedToProject db projectID req.LabourID = false) :
    WorkDayService.Create db newID now projectID req = (db, .error .ErrInvalidLabour) := by
  simp [WorkDayService.Create, hd, ha]

/-- `PaymentService.Create` on a request whose date parses and whose pair is
assigned: the outcome is decided by `Payment.Validate`. -/
theorem PaymentService.Create_assigned (db : DB) (newID : UUID) (now : Time)
    (projectID : UUID) (req : CreatePaymentRequest) (d : Time)
    (hd : timeParse req.PaymentDate = some d)
    (ha : LabourRepository.IsAssignedToProject db projectID req.LabourID = true) :
    PaymentService.Create db newID now projectID req =
      match Payment.Validate ⟨0, projectID, req.LabourID, req.Amount, d, req.PaymentType,
          req.Notes, 0⟩ with
      | .error e => (db, .error e)
      | .ok _ =>
        ({ db with payments := db.payments ++
            [⟨newID, projectID, req.LabourID, req.Amount, d, req.PaymentType, req.Notes, now⟩] },
         .ok ⟨newID, projectID, req.LabourID, req.Amount, d, req.PaymentType, req.Notes, now⟩) := by
  simp only [PaymentService.Create, hd, ha, Bool.not_true, Bool.false_eq_true, if_false]
  cases hv : Payment.Validate ⟨0, projectID, req.LabourID, req.Amount, d, req.PaymentType,
      req.Notes, 0⟩ with
  | error e => rfl
  | ok u => rfl

/-- `WorkDayService.Create` on a request whose date parses and whose pair is
assigned: the outcome is decided by `WorkDay.Validate`. -/
theorem WorkDayService.CreateWorkDay_assigned (db : DB) (newID : UUID) (now : Time)
    (projectID : UUID) (req : CreateWorkDayRequest) (d : Time)
    (hd : timeParse req.WorkDate = some d)
    (ha : LabourRepository.IsAssignedToProject db projectID req.LabourID = true) :
    WorkDayService.Create db newID now projectID req =
      match WorkDay.Validate ⟨0, projectID, req.LabourID, d, req.Status, req.Notes, 0⟩ with
      | .error e => (db, .error e)
      | .ok _ =>
        ({ db with work_days := db.work_days ++
            [⟨newID, projectID, req.LabourID, d, req.Status, req.Notes, now⟩] },
         .ok ⟨newID, projectID, req.LabourID, d, req.Status, req.Notes, now⟩) := by
  simp only [WorkDayService.Create, hd, ha, Bool.not_true, Bool.false_eq_true, if_false]
  cases hv : WorkDay.Validate ⟨0, projectID, req.LabourID, d, req.Status, req.Notes, 0⟩ with
  | error e => rfl
  | ok u => rfl

/-- C14, as stated, fails: the date string is checked before the assignment.  On
the store `sharedDB`, where labourer 8 is assigned to no project, a request for
(project 1, labourer 8) with the date string "2024-02-30" is answered with
`ErrInvalidDate`, not `ErrInvalidLabour`, by both services. -/
theorem C14_counterexample :
    LabourRepository.IsAssignedToProject sharedDB 1 8 = false ∧
    (WorkDayService.Create sharedDB 50 0 1 ⟨8, "2024-02-30", "full_day", ""⟩).2 =
      .error .ErrInvalidDate ∧
    (PaymentService.Create sharedDB 50 0 1 ⟨8, 100, "2024-02-30", "advance", ""⟩).2 =
      .error .ErrInvalidDate :=
  ⟨rfl, by rw [WorkDayService.CreateWorkDay_bad_date _ _ _ _ _ (by decide)],
    by rw [PaymentService.Create_bad_date _ _ _ _ _ (by decide)]⟩

/-- C14, amended: for every request to `WorkDayService.Create` or
`PaymentService.Create` whose date string is a valid calendar date in the form
`YYYY-MM-DD` and whose (project, labour) pair has no row in `project_labours`, the operation fails with `ErrInvalidLabour` and
leaves the store unchanged, whatever the other request fields are and whether or
not the labourer and the project exist. -/
theorem C14_unassigned (db : DB) (newID : UUID) (now : Time) (projectID : UUID)
    (wreq : CreateWorkDayRequest) (preq : CreatePaymentRequest)
    (hw : ∀ pl ∈ db.project_labours, ¬ (pl.ProjectID = projectID ∧ pl.LabourID = wreq.LabourID))
    (hp : ∀ pl ∈ db.project_labours, ¬ (pl.ProjectID = projectID ∧ pl.LabourID = preq.LabourID))
    (hwd : isCalendarDate wreq.WorkDate) (hpd : isCalendarDate preq.PaymentDate) :
    WorkDayService.Create db newID now projectID wreq = (db, .error .ErrInvalidLabour) ∧
    PaymentService.Create db newID now projectID preq = (db, .error .ErrInvalidLabour) := by
  obtain ⟨d1, hd1⟩ := Option.ne_none_iff_exists'.mp
    (fun h => (timeParse_eq_none_iff wreq.WorkDate).mp h hwd)
  obtain ⟨d2, hd2⟩ := Option.ne_none_iff_exists'.mp
    (fun h => (timeParse_eq_none_iff preq.PaymentDate).mp h hpd)
  exact ⟨WorkDayService.CreateWorkDay_unassigned db newID now projectID wreq d1 hd1
      ((IsAssignedToProject_false db projectID wreq.LabourID).mpr hw),
    PaymentService.Create_unassigned db newID now projectID preq d2 hd2
      ((IsAssignedToProject_false db projectID preq.LabourID).mpr hp)⟩

/-- C14 amended, on the store `sharedDB`: labourer 7 exists and project 3 does not,
labourer 8 does not exist and project 1 does; neither pair is assigned. -/
theorem C14_unassigned_witness :
    WorkDayService.Create sharedDB 50 0 3 ⟨7, "2024-02-29", "holiday", ""⟩ =
      (sharedDB, .error .ErrInvalidLabour) ∧
    PaymentService.Create sharedDB 50 0 1 ⟨8, -5, "2024-01-05", "cash", ""⟩ =
      (sharedDB, .error .ErrInvalidLabour) :=
  ⟨(C14_unassigned sharedDB 50 0 3 ⟨7, "2024-02-29", "holiday", ""⟩
      ⟨8, -5, "2024-01-05", "cash", ""⟩ (by decide) (by decide)
      ⟨2024, 2, 29, by decide, by decide, by decide, by decide, by decide, rfl⟩
      ⟨2024, 1, 5, by decide, by decide, by decide, by decide, by decide, rfl⟩).1,
    (C14_unassigned sharedDB 50 0 1 ⟨8, "2024-02-29", "holiday", ""⟩
      ⟨8, -5, "2024-01-05", "cash", ""⟩ (by decide) (by decide)
      ⟨2024, 2, 29, by decide, by decide, by decide, by decide, by decide, rfl⟩
      ⟨2024, 1, 5, by decide, by decide, by decide, by decide, by decide, rfl⟩).2⟩

/-! ### Amounts -/

/-- A payment that passes `Payment.Validate` has a positive amount. -/
theorem Payment.Validate_ok_amount (p : Payment) (h : p.Validate = .ok ()) : p.Amount > 0 := by
  unfold Payment.Validate at h
  by_cases h1 : p.ProjectID = 0
  · simp [h1] at h
  · by_cases h2 : p.LabourID = 0
    · simp [h1, h2] at h
    · by_cases h3 : p.Amount < 0
      · simp [h1, h2, h3] at h
      · by_cases h4 : p.Amount = 0
        · simp [h1, h2, h4] at h
        · exact lt_of_le_of_ne (not_lt.mp h3) (Ne.symm h4)

/-- A payment with an amount `≤ 0` fails `Payment.Validate`; with non-nil ids the
error is `ErrInvalidAmount`. -/
theorem Payment.Validate_bad_amount (p : Payment) (h : p.Amount ≤ 0) :
    (∃ e, p.Validate = .error e) ∧
      (p.ProjectID ≠ 0 → p.LabourID ≠ 0 → p.Validate = .error .ErrInvalidAmount) := by
  have hor : p.Amount < 0 ∨ p.Amount = 0 := lt_or_eq_of_le h
  unfold Payment.Validate
  by_cases h1 : p.ProjectID = 0
  · simp [h1]
  · by_cases h2 : p.LabourID = 0
    · simp [h1, h2]
    · rcases hor with h3 | h3
      · simp [h1, h2, h3]
      · simp [h1, h2, h3]

/-- A labourer that passes `Labour.Validate` has a non-negative daily wage. -/
theorem Labour.Validate_ok_wage (l : Labour) (h : l.Validate = .ok ()) : l.DailyWage ≥ 0 := by
  unfold Labour.Validate at h
  by_cases h1 : l.Name = ""
  · simp [h1] at h
  · by_cases h2 : len l.Name > 255
    · simp [h1, h2] at h
    · by_cases h3 : l.DailyWage < 0
      · simp [h1, h2, h3] at h
      · exact not_lt.mp h3

/-- A labourer with a negative wage fails `Labour.Validate`; with a non-empty name
of at most 255 bytes the error is `ErrInvalidAmount`. -/
theorem Labour.Validate_bad_wage (l : Labour) (h : l.DailyWage < 0) :
    (∃ e, l.Validate = .error e) ∧
      (l.Name ≠ "" → len l.Name ≤ 255 → l.Validate = .error .ErrInvalidAmount) := by
  unfold Labour.Validate
  by_cases h1 : l.Name = ""
  · simp [h1]
  · by_cases h2 : len l.Name > 255
    · simp only [h1, h2, if_true, if_false]
      exact ⟨⟨_, rfl⟩, fun _ hle => absurd h2 (not_lt.mpr hle)⟩
    · simp [h1, h2, h]

/-- Every service operation keeps the amounts valid. -/
theorem ServiceOp.run_amountsValid (db : DB) (op : ServiceOp) (h : amountsValid db) :
    amountsValid (op.run db) := by
  obtain ⟨hp, hl⟩ := h
  cases op with
  | paymentCreate newID now projectID req =>
    simp only [ServiceOp.run]
    cases hd : timeParse req.PaymentDate with
    | none =>
      rw [PaymentService.Create_bad_date db newID now projectID req hd]
      exact ⟨hp, hl⟩
    | some d =>
      cases ha : LabourRepository.IsAssignedToProject db projectID req.LabourID with
      | false =>
        rw [PaymentService.Create_unassigned db newID now projectID req d hd ha]
        exact ⟨hp, hl⟩
      | true =>
        rw [PaymentService.Create_assigned db newID now projectID req d hd ha]
        cases hv : Payment.Validate ⟨0, projectID, req.LabourID, req.Amount, d, req.PaymentType,
            req.Notes, 0⟩ with
        | error e => exact ⟨hp, hl⟩
        | ok u =>
          have hpos := Payment.Validate_ok_amount _ hv
          refine ⟨?_, hl⟩
          intro p hmem
          simp only [List.mem_append, List.mem_singleton] at hmem
          rcases hmem with hmem | rfl
          · exact hp p hmem
          · exact hpos
  | paymentDelete id =>
    simp only [ServiceOp.run, PaymentService.Delete, PaymentRepository.Delete]
    split
    · exact ⟨fun p hmem => hp p (List.mem_filter.mp hmem).1, hl⟩
    · exact ⟨hp, hl⟩
  | labourCreate newID now req =>
    simp only [ServiceOp.run, LabourService.Create]
    cases hv : Labour.Validate ⟨0, req.Name, req.Phone, req.DailyWage, 0, 0⟩ with
    | error e => exact ⟨hp, hl⟩
    | ok u =>
      have hw := Labour.Validate_ok_wage _ hv
      refine ⟨hp, ?_⟩
      intro l hmem
      simp only [LabourRepository.Create, List.mem_append, List.mem_singleton] at hmem
      rcases hmem with hmem | rfl
      · exact hl l hmem
      · exact hw
  | labourUpdate now id req =>
    simp only [ServiceOp.run, LabourService.Update]
    cases hg : LabourRepository.GetByID db id with
    | error e => exact ⟨hp, hl⟩
    | ok labour =>
      simp only []
      cases hv : Labour.Validate
          { labour with Name := req.Name, Phone := req.Phone, DailyWage := req.DailyWage } with
      | error e => exact ⟨hp, hl⟩
      | ok u =>
        have hw := Labour.Validate_ok_wage _ hv
        simp only [LabourRepository.Update]
        split
        · refine ⟨hp, ?_⟩
          intro l hmem
          simp only [List.mem_map] at hmem
          obtain ⟨l0, hl0, rfl⟩ := hmem
          split
          · exact hw
          · exact hl l0 hl0
        · exact ⟨hp, hl⟩
  | labourDelete id =>
    simp only [ServiceOp.run, LabourService.Delete, LabourRepository.Delete]
    split
    · exact ⟨hp, fun l hmem => hl l (List.mem_filter.mp hmem).1⟩
    · exact ⟨hp, hl⟩

/-- Every sequence of service operations keeps the amounts valid. -/
theorem runServiceOps_amountsValid (ops : List ServiceOp) (db : DB) (h : amountsValid db) :
    amountsValid (runServiceOps db ops) := by
  induction ops generalizing db with
  | nil => exact h
  | cons op ops ih => exact ih (op.run db) (ServiceOp.run_amountsValid db op h)

/-- C15, as stated, fails in its second half: a rejected request is not always
answered with `ErrInvalidAmount`.  A labourer with an empty name and wage −1 is
rejected with `ErrInvalidName`, and a payment of −5 for a pair that is not assigned
is rejected with `ErrInvalidLabour`. -/
theorem C15_counterexample :
    (LabourService.Create emptyDB 1 0 ⟨"", "", -1⟩).2 = .error .ErrInvalidName ∧
    (PaymentService.Create emptyDB 1 0 1 ⟨7, -5, "2024-01-05", "advance", ""⟩).2 =
      .error .ErrInvalidLabour := by
  constructor
  · simp [LabourService.Create, Labour.Validate]
  · rw [PaymentService.Create_unassigned emptyDB 1 0 1 ⟨7, -5, "2024-01-05", "advance", ""⟩
      (dateUTC 2024 1 5) rfl rfl]

/-- `LabourRepository.GetByID` finds a row whenever one has the id. -/
theorem LabourRepository.GetByID_of_mem (db : DB) (id : UUID)
    (h : ∃ l ∈ db.labours, l.ID = id) : ∃ l, LabourRepository.GetByID db id = .ok l := by
  unfold LabourRepository.GetByID
  cases hf : db.labours.find? (fun l => l.ID == id) with
  | none =>
    obtain ⟨l, hl, hid⟩ := h
    have := List.find?_eq_none.mp hf l hl
    simp [hid] at this
  | some l => exact ⟨l, rfl⟩

/-- C15, amended: in every state reachable through the service operations
(`PaymentService.Create` and `Delete`; `LabourService.Create`, `Update` and
`Delete`), from the empty store or from any store with valid amounts, every stored
payment has amount > 0 and every stored labourer has daily wage ≥ 0.  `Create` and
`Update` return an error and write nothing for a payment amount ≤ 0 or a negative
wage; the error is `ErrInvalidAmount` when the request passes the checks that come
earlier (for a payment: the date string parses, the pair is assigned and both ids
are non-nil; for a labourer: the row exists, for `Update`, and the name is non-empty
and at most 255 bytes long). -/
theorem C15_amounts_invariant (db : DB) (ops : List ServiceOp) (h : amountsValid db) :
    amountsValid (runServiceOps db ops) ∧ amountsValid (runServiceOps emptyDB ops) ∧
    (∀ newID now projectID (req : CreatePaymentRequest), req.Amount ≤ 0 →
      (∃ e, PaymentService.Create db newID now projectID req = (db, .error e)) ∧
      (timeParse req.PaymentDate ≠ none →
        LabourRepository.IsAssignedToProject db projectID req.LabourID = true →
        projectID ≠ 0 → req.LabourID ≠ 0 →
        PaymentService.Create db newID now projectID req = (db, .error .ErrInvalidAmount))) ∧
    (∀ newID now (req : CreateLabourRequest), req.DailyWage < 0 →
      (∃ e, LabourService.Create db newID now req = (db, .error e)) ∧
      (req.Name ≠ "" → len req.Name ≤ 255 →
        LabourService.Create db newID now req = (db, .error .ErrInvalidAmount))) ∧
    (∀ now id (req : UpdateLabourRequest), req.DailyWage < 0 →
      (∃ e, LabourService.Update db now id req = (db, .error e)) ∧
      ((∃ l ∈ db.labours, l.ID = id) → req.Name ≠ "" → len req.Name ≤ 255 →
        LabourService.Update db now id req = (db, .error .ErrInvalidAmount))) := by
  refine ⟨runServiceOps_amountsValid ops db h,
    runServiceOps_amountsValid ops emptyDB ⟨by simp [emptyDB], by simp [emptyDB]⟩, ?_, ?_, ?_⟩
  · intro newID now projectID req hle
    cases hd : timeParse req.PaymentDate with
    | none =>
      rw [PaymentService.Create_bad_date db newID now projectID req hd]
      exact ⟨⟨_, rfl⟩, fun hne => absurd rfl hne⟩
    | some d =>
      cases ha : LabourRepository.IsAssignedToProject db projectID req.LabourID with
      | false =>
        rw [PaymentService.Create_unassigned db newID now projectID req d hd ha]
        exact ⟨⟨_, rfl⟩, fun _ hf => absurd hf (by simp)⟩
      | true =>
        rw [PaymentService.Create_assigned db newID now projectID req d hd ha]
        have hv := Payment.Validate_bad_amount
          ⟨0, projectID, req.LabourID, req.Amount, d, req.PaymentType, req.Notes, 0⟩ hle
        obtain ⟨⟨e, he⟩, hspec⟩ := hv
        constructor
        · rw [he]
          exact ⟨e, rfl⟩
        · intro _ _ h1 h2
          rw [hspec h1 h2]
  · intro newID now req hneg
    have hv := Labour.Validate_bad_wage ⟨0, req.Name, req.Phone, req.DailyWage, 0, 0⟩ hneg
    obtain ⟨⟨e, he⟩, hspec⟩ := hv
    constructor
    · simp only [LabourService.Create, he]
      exact ⟨e, rfl⟩
    · intro h1 h2
      simp only [LabourService.Create, hspec h1 h2]
  · intro now id req hneg
    cases hg : LabourRepository.GetByID db id with
    | error e =>
      constructor
      · simp only [LabourService.Update, hg]
        exact ⟨e, rfl⟩
      · intro hex
        obtain ⟨l, hl⟩ := LabourRepository.GetByID_of_mem db id hex
        rw [hg] at hl
        cases hl
    | ok labour =>
      have hv := Labour.Validate_bad_wage
        { labour with Name := req.Name, Phone := req.Phone, DailyWage := req.DailyWage } hneg
      obtain ⟨⟨e, he⟩, hspec⟩ := hv
      constructor
      · simp only [LabourService.Update, hg, he]
        exact ⟨e, rfl⟩
      · intro _ h1 h2
        simp only [LabourService.Update, hg, hspec h1 h2]

/-- C15 amended, from the empty store: a labourer is created with wage 450, a
creation with wage −1 and an update to wage −2 are rejected, and the amounts stay
valid. -/
theorem C15_amounts_invariant_witness :
    amountsValid emptyDB ∧
    amountsValid (runServiceOps emptyDB
      [.labourCreate 8 0 ⟨"Suresh", "", 450⟩, .labourCreate 9 0 ⟨"Mahesh", "", -1⟩,
       .labourUpdate 1 8 ⟨"Suresh", "", -2⟩, .paymentCreate 1 2 1 ⟨8, 0, "2024-01-05", "bonus", ""⟩,
       .labourDelete 8]) :=
  ⟨⟨by simp [emptyDB], by simp [emptyDB]⟩,
    (C15_amounts_invariant emptyDB
      [.labourCreate 8 0 ⟨"Suresh", "", 450⟩, .labourCreate 9 0 ⟨"Mahesh", "", -1⟩,
       .labourUpdate 1 8 ⟨"Suresh", "", -2⟩, .paymentCreate 1 2 1 ⟨8, 0, "2024-01-05", "bonus", ""⟩,
       .labourDelete 8]
      ⟨by simp [emptyDB], by simp [emptyDB]⟩).1⟩

/-! ### Order of the checks -/

/-- C16, as stated, fails: the assignment is checked before the structure.  On the
store `sharedDB` labourer 8 is not assigned to project 1, and a payment of −5, a
payment of type "cash" and an attendance record of status "holiday" for that pair
are each rejected with `ErrInvalidLabour`, not with the error of the broken rule. -/
theorem C16_counterexample :
    (PaymentService.Create sharedDB 50 0 1 ⟨8, -5, "2024-01-05", "advance", ""⟩).2 =
      .error .ErrInvalidLabour ∧
    (PaymentService.Create sharedDB 50 0 1 ⟨8, 100, "2024-01-05", "cash", ""⟩).2 =
      .error .ErrInvalidLabour ∧
    (WorkDayService.Create sharedDB 50 0 1 ⟨8, "2024-01-05", "holiday", ""⟩).2 =
      .error .ErrInvalidLabour := by
  refine ⟨?_, ?_, ?_⟩
  · rw [PaymentService.Create_unassigned sharedDB 50 0 1 ⟨8, -5, "2024-01-05", "advance", ""⟩
      (dateUTC 2024 1 5) rfl rfl]
  · rw [PaymentService.Create_unassigned sharedDB 50 0 1 ⟨8, 100, "2024-01-05", "cash", ""⟩
      (dateUTC 2024 1 5) rfl rfl]
  · rw [WorkDayService.CreateWorkDay_unassigned sharedDB 50 0 1 ⟨8, "2024-01-05", "holiday", ""⟩
      (dateUTC 2024 1 5) rfl rfl]

/-- C16, amended: `PaymentService.Create` and `WorkDayService.Create` check the date
string first, then the assignment, then the structure.  For a request whose date
string parses: when the labourer is not assigned to the project it is rejected with
`ErrInvalidLabour`, whatever structural rule it breaks; when the labourer is
assigned and project and labour id are non-nil, a payment amount ≤ 0 is rejected
with `ErrInvalidAmount`, a payment type outside {advance, daily_wage, bonus} (amount
positive, date not the zero time) with `ErrInvalidPaymentType`, and an attendance
status outside {full_day, half_day, absent} (date not the zero time) with
`ErrInvalidStatus`.  In each case nothing is written. -/
theorem C16_check_order (db : DB) (newID : UUID) (now : Time) (projectID : UUID)
    (preq : CreatePaymentRequest) (wreq : CreateWorkDayRequest) (pd wd : Time)
    (hpd : timeParse preq.PaymentDate = some pd) (hwd : timeParse wreq.WorkDate = some wd) :
    (LabourRepository.IsAssignedToProject db projectID preq.LabourID = false →
      PaymentService.Create db newID now projectID preq = (db, .error .ErrInvalidLabour)) ∧
    (LabourRepository.IsAssignedToProject db projectID wreq.LabourID = false →
      WorkDayService.Create db newID now projectID wreq = (db, .error .ErrInvalidLabour)) ∧
    (LabourRepository.IsAssignedToProject db projectID preq.LabourID = true →
      projectID ≠ 0 → preq.LabourID ≠ 0 →
      (preq.Amount ≤ 0 →
        PaymentService.Create db newID now projectID preq = (db, .error .ErrInvalidAmount)) ∧
      (preq.Amount > 0 → pd ≠ 0 → PaymentType.IsValid preq.PaymentType = false →
        PaymentService.Create db newID now projectID preq =
          (db, .error .ErrInvalidPaymentType))) ∧
    (LabourRepository.IsAssignedToProject db projectID wreq.LabourID = true →
      projectID ≠ 0 → wreq.LabourID ≠ 0 → wd ≠ 0 → WorkStatus.IsValid wreq.Status = false →
      WorkDayService.Create db newID now projectID wreq = (db, .error .ErrInvalidStatus)) := by
  refine ⟨PaymentService.Create_unassigned db newID now projectID preq pd hpd,
    WorkDayService.CreateWorkDay_unassigned db newID now projectID wreq wd hwd, ?_, ?_⟩
  · intro ha h1 h2
    rw [PaymentService.Create_assigned db newID now projectID preq pd hpd ha]
    constructor
    · intro hle
      rw [(Payment.Validate_bad_amount
        ⟨0, projectID, preq.LabourID, preq.Amount, pd, preq.PaymentType, preq.Notes, 0⟩ hle).2 h1 h2]
    · intro hpos hz ht
      have h3 : ¬ preq.Amount < 0 := not_lt.mpr (le_of_lt hpos)
      have h4 : ¬ preq.Amount = 0 := ne_of_gt hpos
      simp [Payment.Validate, h1, h2, h3, h4, Time.IsZero, hz, ht]
  · intro ha h1 h2 hz hs
    rw [WorkDayService.CreateWorkDay_assigned db newID now projectID wreq wd hwd ha]
    simp [WorkDay.Validate, h1, h2, Time.IsZero, hz, hs]

/-- C16 amended, on the store `sharedDB`, where labourer 7 is assigned to project 1:
a payment of −5 is rejected with `ErrInvalidAmount` and an attendance record of
status "holiday" with `ErrInvalidStatus`. -/
theorem C16_check_order_witness :
    timeParse "2024-01-05" = some (dateUTC 2024 1 5) ∧
    PaymentService.Create sharedDB 50 0 1 ⟨7, -5, "2024-01-05", "advance", ""⟩ =
      (sharedDB, .error .ErrInvalidAmount) ∧
    WorkDayService.Create sharedDB 50 0 1 ⟨7, "2024-01-05", "holiday", ""⟩ =
      (sharedDB, .error .ErrInvalidStatus) :=
  ⟨rfl,
    ((C16_check_order sharedDB 50 0 1 ⟨7, -5, "2024-01-05", "advance", ""⟩
      ⟨7, "2024-01-05", "holiday", ""⟩ (dateUTC 2024 1 5) (dateUTC 2024 1 5) rfl rfl).2.2.1
        rfl (by decide) (by decide)).1 (by norm_num),
    (C16_check_order sharedDB 50 0 1 ⟨7, -5, "2024-01-05", "advance", ""⟩
      ⟨7, "2024-01-05", "holiday", ""⟩ (dateUTC 2024 1 5) (dateUTC 2024 1 5) rfl rfl).2.2.2
        rfl (by decide) (by decide) (by decide) (by decide)⟩

/-! ### Rejected date strings -/

/-- C17: for every date string that is not a valid calendar date in the form
`YYYY-MM-DD` (four digits, `-`, a two-digit month `01`..`12`, `-` and a two-digit
day of that month), `PaymentService.Create`, `WorkDayService.Create` and
`WorkDayService.GetByProjectAndDate` return `ErrInvalidDate`, whatever the other
fields and whatever the store, which is left unchanged; `ErrInvalidDate` differs
from every other validation error. -/
theorem C17_invalid_date (s : String) (hs : ¬ isCalendarDate s) :
    (∀ db newID now projectID (req : CreatePaymentRequest), req.PaymentDate = s →
      PaymentService.Create db newID now projectID req = (db, .error .ErrInvalidDate)) ∧
    (∀ db newID now projectID (req : CreateWorkDayRequest), req.WorkDate = s →
      WorkDayService.Create db newID now projectID req = (db, .error .ErrInvalidDate)) ∧
    (∀ db projectID, WorkDayService.GetByProjectAndDate db projectID s = .error .ErrInvalidDate) ∧
    (Err.ErrInvalidDate ≠ .ErrInvalidPhone ∧ Err.ErrInvalidDate ≠ .ErrInvalidName ∧
      Err.ErrInvalidDate ≠ .ErrInvalidAmount ∧ Err.ErrInvalidDate ≠ .ErrInvalidStatus ∧
      Err.ErrInvalidDate ≠ .ErrInvalidPaymentType ∧ Err.ErrInvalidDate ≠ .ErrInvalidProject ∧
      Err.ErrInvalidDate ≠ .ErrInvalidLabour ∧ Err.ErrInvalidDate ≠ .ErrInvalidOTP) := by
  have h : timeParse s = none := (timeParse_eq_none_iff s).mpr hs
  refine ⟨?_, ?_, ?_, by decide⟩
  · intro db newID now projectID req hreq
    exact PaymentService.Create_bad_date db newID now projectID req (hreq ▸ h)
  · intro db newID now projectID req hreq
    exact WorkDayService.CreateWorkDay_bad_date db newID now projectID req (hreq ▸ h)
  · intro db projectID
    simp [WorkDayService.GetByProjectAndDate, h]

/-- C17 on date strings that are no calendar dates: 30 February and a date in
another order; the pair (1, 7) is assigned and the other fields are valid. -/
theorem C17_invalid_date_witness :
    ¬ isCalendarDate "2024-02-30" ∧ ¬ isCalendarDate "05-01-2024" ∧
    PaymentService.Create sharedDB 50 0 1 ⟨7, 100, "2024-02-30", "advance", ""⟩ =
      (sharedDB, .error .ErrInvalidDate) ∧
    WorkDayService.Create sharedDB 50 0 1 ⟨7, "05-01-2024", "full_day", ""⟩ =
      (sharedDB, .error .ErrInvalidDate) ∧
    WorkDayService.GetByProjectAndDate sharedDB 1 "05-01-2024" = .error .ErrInvalidDate :=
  ⟨(timeParse_eq_none_iff _).mp (by decide), (timeParse_eq_none_iff _).mp (by decide),
    (C17_invalid_date "2024-02-30" ((timeParse_eq_none_iff _).mp (by decide))).1 sharedDB 50 0 1
      ⟨7, 100, "2024-02-30", "advance", ""⟩ rfl,
    (C17_invalid_date "05-01-2024" ((timeParse_eq_none_iff _).mp (by decide))).2.1 sharedDB 50 0 1
      ⟨7, "05-01-2024", "full_day", ""⟩ rfl,
    (C17_invalid_date "05-01-2024" ((timeParse_eq_none_iff _).mp (by decide))).2.2.1 sharedDB 1⟩

/-! ### Ownership -/

/-- `IsOwner` is false exactly when no project row has the id and the user as owner:
when the project does not exist and when it belongs to another user. -/
theorem IsOwner_false (db : DB) (projectID userID : UUID) :
    ProjectService.IsOwner db projectID userID = false ↔
      ∀ p ∈ db.projects, p.ID = projectID → p.UserID ≠ userID := by
  simp [ProjectService.IsOwner, ProjectRepository.IsOwner]

/-- C18 on the store `sharedDB`: user 200 does not own project 1, and
`PaymentHandler.ListByProject` answers 403 for it, but `PaymentHandler.ListByLabour`
for labourer 7 answers 200 with the payment of project 1; it makes no ownership
check. -/
theorem C18_list_by_labour_unchecked :
    ProjectService.IsOwner sharedDB 1 200 = false ∧
    PaymentHandler.ListByProject sharedDB { user_id := 200, id := some 1 } =
      ⟨403, .error "access denied"⟩ ∧
    PaymentHandler.ListByLabour sharedDB { user_id := 200, id := some 7 } =
      ⟨200, .payments [⟨1, 1, 7, 500, 10, "advance", "", 0⟩]⟩ ∧
    (∀ db user_id labourID,
      PaymentHandler.ListByLabour db { user_id := user_id, id := some labourID } =
        ⟨200, .payments (PaymentService.GetByLabourID db labourID)⟩) :=
  ⟨rfl, rfl, rfl, fun _ _ _ => rfl⟩

/-- C19: for `ProjectHandler.Get`, `Update` and `Delete` and every caller, a project
id that no row carries and a project id whose row belongs to another user get the
same response, status 403 with error "access denied", and the store is unchanged.
No input makes any of the three handlers answer 404 when the ownership check and
the following store call read the same store. -/
theorem C19_forbidden_not_found (db : DB) (now : Time) (userID projectID : UUID)
    (labour_id : Option UUID) (bind : Except String UpdateProjectRequest) :
    ((∀ p ∈ db.projects, p.ID = projectID → p.UserID ≠ userID) →
      ProjectHandler.Get db ⟨userID, some projectID, labour_id⟩ =
        ⟨403, .error "access denied"⟩ ∧
      ProjectHandler.Update db now ⟨userID, some projectID, labour_id⟩ bind =
        (db, ⟨403, .error "access denied"⟩) ∧
      ProjectHandler.Delete db ⟨userID, some projectID, labour_id⟩ =
        (db, ⟨403, .error "access denied"⟩)) ∧
    (∀ id : Option UUID,
      (ProjectHandler.Get db ⟨userID, id, labour_id⟩).status ≠ 404 ∧
      (ProjectHandler.Update db now ⟨userID, id, labour_id⟩ bind).2.status ≠ 404 ∧
      (ProjectHandler.Delete db ⟨userID, id, labour_id⟩).2.status ≠ 404) := by
  have hexists : ∀ pid, ProjectService.IsOwner db pid userID = true →
      db.projects.any (fun p => p.ID == pid) = true ∧
        ∃ p, ProjectRepository.GetByID db pid = .ok p := by
    intro pid ho
    simp only [ProjectService.IsOwner, ProjectRepository.IsOwner, List.any_eq_true,
      Bool.and_eq_true, beq_iff_eq] at ho
    obtain ⟨p, hp, hid, _⟩ := ho
    constructor
    · simp only [List.any_eq_true, beq_iff_eq]
      exact ⟨p, hp, hid⟩
    · unfold ProjectRepository.GetByID
      cases hf : db.projects.find? (fun p => p.ID == pid) with
      | none =>
        have := List.find?_eq_none.mp hf p hp
        simp [hid] at this
      | some q => exact ⟨q, rfl⟩
  constructor
  · intro hno
    have ho := (IsOwner_false db projectID userID).mpr hno
    simp [ProjectHandler.Get, ProjectHandler.Update, ProjectHandler.Delete, ho]
  · intro id
    cases id with
    | none => simp [ProjectHandler.Get, ProjectHandler.Update, ProjectHandler.Delete]
    | some pid =>
      cases ho : ProjectService.IsOwner db pid userID with
      | false => simp [ProjectHandler.Get, ProjectHandler.Update, ProjectHandler.Delete, ho]
      | true =>
        obtain ⟨hany, p, hp⟩ := hexists pid ho
        refine ⟨?_, ?_, ?_⟩
        · simp [ProjectHandler.Get, ho, ProjectService.GetByIDWithLabours, hp]
        · cases bind with
          | error msg => simp [ProjectHandler.Update, ho]
          | ok req =>
            have hid : p.ID = pid := by
              unfold ProjectRepository.GetByID at hp
              cases hf : db.projects.find? (fun p => p.ID == pid) with
              | none => simp [hf] at hp
              | some q =>
                simp only [hf, Except.ok.injEq] at hp
                have := List.find?_some hf
                rw [← hp]
                simpa using this
            simp only [ProjectHandler.Update, ho, Bool.not_true, Bool.false_eq_true, if_false,
              ProjectService.Update, hp]
            cases hv : Project.Validate
                { p with Name := req.Name, Description := req.Description } with
            | error e =>
              have he : e ≠ .ErrNotFound := by
                intro h
                subst h
                unfold Project.Validate at hv
                split at hv
                · cases hv
                · split at hv
                  · cases hv
                  · cases hv
              simp [he]
            | ok u =>
              simp [ProjectRepository.Update, hid, hany]
        · simp [ProjectHandler.Delete, ho, ProjectService.Delete, ProjectRepository.Delete, hany]

/-- C19 on the store `sharedDB`, for user 200: project 1 belongs to user 100 and
project 3 does not exist; `Get`, `Update` and `Delete` answer both with 403
"access denied". -/
theorem C19_forbidden_not_found_witness :
    (ProjectHandler.Get sharedDB ⟨200, some 1, none⟩ = ⟨403, .error "access denied"⟩ ∧
      ProjectHandler.Update sharedDB 0 ⟨200, some 1, none⟩ (.ok ⟨"Site C", ""⟩) =
        (sharedDB, ⟨403, .error "access denied"⟩) ∧
      ProjectHandler.Delete sharedDB ⟨200, some 1, none⟩ =
        (sharedDB, ⟨403, .error "access denied"⟩)) ∧
    (ProjectHandler.Get sharedDB ⟨200, some 3, none⟩ = ⟨403, .error "access denied"⟩ ∧
      ProjectHandler.Update sharedDB 0 ⟨200, some 3, none⟩ (.ok ⟨"Site C", ""⟩) =
        (sharedDB, ⟨403, .error "access denied"⟩) ∧
      ProjectHandler.Delete sharedDB ⟨200, some 3, none⟩ =
        (sharedDB, ⟨403, .error "access denied"⟩)) :=
  ⟨(C19_forbidden_not_found sharedDB 0 200 1 none (.ok ⟨"Site C", ""⟩)).1 (by decide),
    (C19_forbidden_not_found sharedDB 0 200 3 none (.ok ⟨"Site C", ""⟩)).1 (by decide)⟩

/-! ### Assignment -/

/-- Number of entries for labourer `L` in the join of `GetByProjectID`: the number
of labour rows with id `L` times the number of assignment rows of the pair. -/
theorem join_countP (ls : List Labour) (A : List ProjectLabour) (P L : UUID) :
    (ls.flatMap (fun l =>
      (A.filter (fun pl => l.ID == pl.LabourID && pl.ProjectID == P)).map (fun _ => l))).countP
        (fun l => l.ID == L) =
      ls.countP (fun l => l.ID == L) *
        A.countP (fun pl => pl.ProjectID == P && pl.LabourID == L) := by
  induction ls with
  | nil => simp
  | cons l ls ih =>
    rw [List.flatMap_cons, List.countP_append, ih, List.countP_cons]
    by_cases hl : l.ID = L
    · have hpred : (fun pl : ProjectLabour => l.ID == pl.LabourID && pl.ProjectID == P) =
          (fun pl => pl.ProjectID == P && pl.LabourID == L) := by
        funext pl
        rw [hl, Bool.and_comm]
        congr 1
        exact Bool.eq_iff_iff.mpr ⟨fun h => (beq_iff_eq.mp h).symm ▸ beq_self_eq_true _,
          fun h => (beq_iff_eq.mp h).symm ▸ beq_self_eq_true _⟩
      have hc : ((A.filter (fun pl => l.ID == pl.LabourID && pl.ProjectID == P)).map
          (fun _ => l)).countP (fun l => l.ID == L) =
          A.countP (fun pl => pl.ProjectID == P && pl.LabourID == L) := by
        rw [hpred, List.countP_eq_length.mpr, List.length_map, List.countP_eq_length_filter]
        intro x hx
        obtain ⟨_, _, rfl⟩ := List.mem_map.mp hx
        simpa using hl
      rw [hc]
      simp only [hl, beq_self_eq_true, if_true]
      ring
    · have hc : ((A.filter (fun pl => l.ID == pl.LabourID && pl.ProjectID == P)).map
          (fun _ => l)).countP (fun l => l.ID == L) = 0 := by
        rw [List.countP_eq_zero]
        intro x hx
        obtain ⟨_, _, rfl⟩ := List.mem_map.mp hx
        simpa using hl
      rw [hc]
      have : (l.ID == L) = false := by simpa using hl
      simp [this]

/-- The number of entries for a labourer in `GetByProjectID`. -/
theorem GetByProjectID_countP (db : DB) (P L : UUID) :
    (LabourRepository.GetByProjectID db P).countP (fun l => l.ID == L) =
      db.labours.countP (fun l => l.ID == L) *
        db.project_labours.countP (fun pl => pl.ProjectID == P && pl.LabourID == L) := by
  unfold LabourRepository.GetByProjectID
  rw [(List.perm_insertionSort _ _).countP_eq, join_countP]

/-- `LabourRepository.AssignToProject` on a pair that is assigned changes nothing. -/
theorem AssignToProject_of_assigned (db : DB) (now : Time) (P L : UUID)
    (h : LabourRepository.IsAssignedToProject db P L = true) :
    LabourRepository.AssignToProject db now P L = (db, .ok ()) := by
  unfold LabourRepository.AssignToProject
  rw [if_pos h]

/-- After `LabourRepository.AssignToProject` the pair is assigned, and when the pair
had at most one assignment row before it has exactly one after. -/
theorem AssignToProject_after (db : DB) (now : Time) (P L : UUID) :
    (LabourRepository.AssignToProject db now P L).2 = .ok () ∧
    LabourRepository.IsAssignedToProject (LabourRepository.AssignToProject db now P L).1 P L
      = true ∧
    (LabourRepository.AssignToProject db now P L).1.labours = db.labours ∧
    (db.project_labours.countP (fun pl => pl.ProjectID == P && pl.LabourID == L) ≤ 1 →
      (LabourRepository.AssignToProject db now P L).1.project_labours.countP
        (fun pl => pl.ProjectID == P && pl.LabourID == L) = 1) := by
  unfold LabourRepository.AssignToProject
  cases ha : LabourRepository.IsAssignedToProject db P L with
  | true =>
    refine ⟨rfl, by simpa using ha, rfl, ?_⟩
    intro hle
    have hpos : 0 < db.project_labours.countP (fun pl => pl.ProjectID == P && pl.LabourID == L) := by
      rw [List.countP_pos_iff]
      simpa [LabourRepository.IsAssignedToProject] using ha
    simp only [Bool.true_eq_false, if_true]
    omega
  | false =>
    refine ⟨rfl, ?_, rfl, ?_⟩
    · simp [LabourRepository.IsAssignedToProject]
    · intro _
      have hz : db.project_labours.countP (fun pl => pl.ProjectID == P && pl.LabourID == L) = 0 := by
        rw [List.countP_eq_zero]
        intro pl hpl
        have := (IsAssignedToProject_false db P L).mp ha pl hpl
        simpa using this
      simp [List.countP_append, hz]

/-- C20: assignment is idempotent.  For a project `P` and a labourer `L` with one row
in `labours`, where `project_labours` holds at most one row per pair (its uniqueness
constraint), `LabourService.AssignToProject(P, L)` succeeds; a second call, and any
number of further calls, succeed and leave the store as it was after the first
call; and `GetByProjectID(P)` then contains exactly one entry for `L`. -/
theorem C20_assign_idempotent (db : DB) (t1 : Time) (times : List Time) (P L : UUID)
    (hL : db.labours.countP (fun l => l.ID == L) = 1)
    (hU : db.project_labours.countP (fun pl => pl.ProjectID == P && pl.LabourID == L) ≤ 1) :
    (LabourService.AssignToProject db t1 P L).2 = .ok () ∧
    (∀ t2, LabourService.AssignToProject (LabourService.AssignToProject db t1 P L).1 t2 P L =
      ((LabourService.AssignToProject db t1 P L).1, .ok ())) ∧
    times.foldl (fun d t => (LabourService.AssignToProject d t P L).1)
      (LabourService.AssignToProject db t1 P L).1 = (LabourService.AssignToProject db t1 P L).1 ∧
    (LabourService.GetByProjectID (LabourService.AssignToProject db t1 P L).1 P).countP
      (fun l => l.ID == L) = 1 ∧
    (LabourService.GetByProjectID
      (times.foldl (fun d t => (LabourService.AssignToProject d t P L).1)
        (LabourService.AssignToProject db t1 P L).1) P).countP (fun l => l.ID == L) = 1 := by
  have hget : ∀ d : DB, d.labours = db.labours → ∃ l, LabourRepository.GetByID d L = .ok l := by
    intro d hd
    apply LabourRepository.GetByID_of_mem
    have hpos : 0 < d.labours.countP (fun l => l.ID == L) := by rw [hd, hL]; exact Nat.one_pos
    obtain ⟨l, hl, hp⟩ := List.countP_pos_iff.mp hpos
    exact ⟨l, hl, by simpa using hp⟩
  have hsvc : ∀ (d : DB) (t : Time), d.labours = db.labours →
      LabourService.AssignToProject d t P L = LabourRepository.AssignToProject d t P L := by
    intro d t hd
    obtain ⟨l, hl⟩ := hget d hd
    simp [LabourService.AssignToProject, hl]
  obtain ⟨hok, hassigned, hlab, hcount⟩ := AssignToProject_after db t1 P L
  rw [hsvc db t1 rfl]
  have hsecond : ∀ t2, LabourService.AssignToProject (LabourRepository.AssignToProject db t1 P L).1
      t2 P L = ((LabourRepository.AssignToProject db t1 P L).1, .ok ()) := by
    intro t2
    rw [hsvc _ t2 hlab]
    exact AssignToProject_of_assigned _ t2 P L hassigned
  have hfold : times.foldl (fun d t => (LabourService.AssignToProject d t P L).1)
      (LabourRepository.AssignToProject db t1 P L).1 =
        (LabourRepository.AssignToProject db t1 P L).1 := by
    induction times with
    | nil => rfl
    | cons t ts ih => rw [List.foldl_cons, hsecond t]; exact ih
  have hone : (LabourService.GetByProjectID (LabourRepository.AssignToProject db t1 P L).1 P).countP
      (fun l => l.ID == L) = 1 := by
    unfold LabourService.GetByProjectID
    rw [GetByProjectID_countP, hlab, hL, hcount hU]
  refine ⟨hok, hsecond, hfold, hone, ?_⟩
  rw [hfold]
  exact hone

/-- C20 on the store `sharedDB`: labourer 7 is assigned to the new project 3, three
more times after the first. -/
theorem C20_assign_idempotent_witness :
    sharedDB.labours.countP (fun l => l.ID == 7) = 1 ∧
    sharedDB.project_labours.countP (fun pl => pl.ProjectID == 3 && pl.LabourID == 7) ≤ 1 ∧
    (LabourService.AssignToProject sharedDB 5 3 7).2 = .ok () ∧
    (LabourService.GetByProjectID
      ([6, 7, 8].foldl (fun d t => (LabourService.AssignToProject d t 3 7).1)
        (LabourService.AssignToProject sharedDB 5 3 7).1) 3).countP (fun l => l.ID == 7) = 1 :=
  ⟨by decide, by decide,
    (C20_assign_idempotent sharedDB 5 [6, 7, 8] 3 7 (by decide) (by decide)).1,
    (C20_assign_idempotent sharedDB 5 [6, 7, 8] 3 7 (by decide) (by decide)).2.2.2.2⟩

/-! ### Deleting a project -/

/-- A successful `ProjectService.DeleteInSchema` removes the project rows with the id
and the assignment rows of the project, and nothing else. -/
theorem DeleteInSchema_ok (db db1 : DB) (P : UUID)
    (h : ProjectService.DeleteInSchema db P = (db1, .ok ())) :
    db1 = { db with
      projects := db.projects.filter (fun p => !(p.ID == P))
      project_labours := db.project_labours.filter (fun pl => !(pl.ProjectID == P)) } := by
  unfold ProjectService.DeleteInSchema ProjectService.Delete ProjectRepository.Delete at h
  by_cases hany : db.projects.any (fun p => p.ID == P) = true
  · simp only [hany, if_true, Prod.mk.injEq, and_true] at h
    rw [← h]
    rfl
  · simp [hany] at h

/-- C21, as stated, fails in its last part: after the deletion of project 1 of the
store `sharedDB`, a request for project 1 whose date string is "2024-02-30" is
answered with `ErrInvalidDate`, not `ErrInvalidLabour`, by both services. -/
theorem C21_counterexample :
    (ProjectService.DeleteInSchema sharedDB 1).2 = .ok () ∧
    (WorkDayService.Create (ProjectService.DeleteInSchema sharedDB 1).1 50 0 1
      ⟨7, "2024-02-30", "full_day", ""⟩).2 = .error .ErrInvalidDate ∧
    (PaymentService.Create (ProjectService.DeleteInSchema sharedDB 1).1 50 0 1
      ⟨7, 100, "2024-02-30", "advance", ""⟩).2 = .error .ErrInvalidDate :=
  ⟨rfl, by rw [WorkDayService.CreateWorkDay_bad_date _ _ _ _ _ (by decide)],
    by rw [PaymentService.Create_bad_date _ _ _ _ _ (by decide)]⟩

/-- An operation that is not a project creation under the id `P` leaves a store
without rows of project `P` without rows of project `P`. -/
theorem StoreOp.run_noRowsOfProject (db : DB) (op : StoreOp) (P : UUID)
    (h : noRowsOfProject db P) (hop : op.createsProject P = false) :
    noRowsOfProject (op.run db) P := by
  obtain ⟨hp, hpl⟩ := h
  cases op with
  | projectCreate newID now userID req =>
    have hne : newID ≠ P := by simpa [StoreOp.createsProject] using hop
    simp only [StoreOp.run, ProjectService.Create]
    split
    · exact ⟨hp, hpl⟩
    · refine ⟨?_, hpl⟩
      intro p hmem
      simp only [ProjectRepository.Create, List.mem_append, List.mem_singleton] at hmem
      rcases hmem with hmem | hmem
      · exact hp p hmem
      · rw [hmem]; exact hne
  | projectUpdate now id req =>
    simp only [StoreOp.run, ProjectService.Update]
    split
    · exact ⟨hp, hpl⟩
    · split
      · exact ⟨hp, hpl⟩
      · unfold ProjectRepository.Update
        split
        · refine ⟨?_, hpl⟩
          intro p hmem
          simp only [List.mem_map] at hmem
          obtain ⟨q, hq, rfl⟩ := hmem
          split
          · exact hp q hq
          · exact hp q hq
        · exact ⟨hp, hpl⟩
  | projectDelete id =>
    simp only [StoreOp.run, ProjectService.DeleteInSchema, ProjectService.Delete,
      ProjectRepository.Delete]
    split
    · rename_i db1 e heq
      split at heq
      · cases heq
      · cases heq
        exact ⟨hp, hpl⟩
    · rename_i db1 u heq
      split at heq
      · cases heq
        refine ⟨?_, ?_⟩
        · intro p hmem
          exact hp p (List.mem_of_mem_filter hmem)
        · intro pl hmem
          exact hpl pl (List.mem_of_mem_filter hmem)
      · cases heq
  | labourCreate newID now req =>
    simp only [StoreOp.run, LabourService.Create]
    split
    · exact ⟨hp, hpl⟩
    · exact ⟨hp, hpl⟩
  | labourUpdate now id req =>
    simp only [StoreOp.run, LabourService.Update]
    split
    · exact ⟨hp, hpl⟩
    · split
      · exact ⟨hp, hpl⟩
      · unfold LabourRepository.Update
        split
        · exact ⟨hp, hpl⟩
        · exact ⟨hp, hpl⟩
  | labourDelete id =>
    simp only [StoreOp.run, LabourService.Delete, LabourRepository.Delete]
    split
    · exact ⟨hp, hpl⟩
    · exact ⟨hp, hpl⟩
  | labourAssign now projectID labourID =>
    simp only [StoreOp.run, LabourService.AssignToProjectInSchema,
      LabourRepository.AssignToProjectInSchema]
    split
    · exact ⟨hp, hpl⟩
    · split
      · rename_i hcond
        unfold LabourRepository.AssignToProject
        split
        · exact ⟨hp, hpl⟩
        · rename_i hna
          refine ⟨hp, ?_⟩
          intro pl hmem
          simp only [List.mem_append, List.mem_singleton] at hmem
          rcases hmem with hmem | hmem
          · exact hpl pl hmem
          · rw [hmem]
            show projectID ≠ P
            intro hPe
            subst hPe
            simp only [Bool.or_eq_true, List.any_eq_true, beq_iff_eq] at hcond
            rcases hcond with hc | ⟨p, hpm, hpe⟩
            · exact hna hc
            · exact hp p hpm hpe
      · exact ⟨hp, hpl⟩
  | labourRemove projectID labourID =>
    simp only [StoreOp.run, LabourService.RemoveFromProject, LabourRepository.RemoveFromProject]
    split
    · refine ⟨hp, ?_⟩
      intro pl hmem
      exact hpl pl (List.mem_of_mem_filter hmem)
    · exact ⟨hp, hpl⟩
  | workDayCreate newID now projectID req =>
    simp only [StoreOp.run, WorkDayService.Create]
    split
    · exact ⟨hp, hpl⟩
    · split
      · exact ⟨hp, hpl⟩
      · split
        · exact ⟨hp, hpl⟩
        · exact ⟨hp, hpl⟩
  | workDayUpdate id req =>
    simp only [StoreOp.run, WorkDayService.Update]
    split
    · exact ⟨hp, hpl⟩
    · split
      · exact ⟨hp, hpl⟩
      · unfold WorkDayRepository.Update
        split
        · rename_i heq
          split at heq
          · cases heq
          · cases heq
            exact ⟨hp, hpl⟩
        · rename_i heq
          split at heq
          · cases heq
            exact ⟨hp, hpl⟩
          · cases heq
  | workDayDelete id =>
    simp only [StoreOp.run, WorkDayService.Delete, WorkDayRepository.Delete]
    split
    · exact ⟨hp, hpl⟩
    · exact ⟨hp, hpl⟩
  | paymentCreate newID now projectID req =>
    simp only [StoreOp.run, PaymentService.Create]
    split
    · exact ⟨hp, hpl⟩
    · split
      · exact ⟨hp, hpl⟩
      · split
        · exact ⟨hp, hpl⟩
        · exact ⟨hp, hpl⟩
  | paymentDelete id =>
    simp only [StoreOp.run, PaymentService.Delete, PaymentRepository.Delete]
    split
    · exact ⟨hp, hpl⟩
    · exact ⟨hp, hpl⟩
  | userGetOrCreate newID now phone =>
    simp only [StoreOp.run, UserRepository.GetOrCreate]
    split
    · exact ⟨hp, hpl⟩
    · split
      · exact ⟨hp, hpl⟩
      · exact ⟨hp, hpl⟩
  | userUpdate now user =>
    simp only [StoreOp.run, UserRepository.Update]
    split
    · exact ⟨hp, hpl⟩
    · exact ⟨hp, hpl⟩

/-- A sequence of operations none of which creates a project under the id `P` leaves
a store without rows of project `P` without rows of project `P`. -/
theorem runStoreOps_noRowsOfProject (ops : List StoreOp) (db : DB) (P : UUID)
    (h : noRowsOfProject db P) (hops : ∀ op ∈ ops, op.createsProject P = false) :
    noRowsOfProject (runStoreOps db ops) P := by
  induction ops generalizing db with
  | nil => exact h
  | cons op ops ih =>
    exact ih (op.run db)
      (StoreOp.run_noRowsOfProject db op P h (hops op (List.mem_cons_self _ _)))
      (fun o ho => hops o (List.mem_cons_of_mem _ ho))

/-- On a store without rows of project `P` nobody owns `P`, nobody is assigned to
`P`, and an assignment to `P` is refused without a write. -/
theorem noRowsOfProject_checks (db : DB) (P : UUID) (h : noRowsOfProject db P) :
    (∀ u, ProjectService.IsOwner db P u = false) ∧
    (∀ l, LabourRepository.IsAssignedToProject db P l = false) ∧
    (∀ now l, ∃ e, LabourService.AssignToProjectInSchema db now P l = (db, .error e)) := by
  obtain ⟨hp, hpl⟩ := h
  have hassigned : ∀ l, LabourRepository.IsAssignedToProject db P l = false := by
    intro l
    rw [IsAssignedToProject_false]
    intro pl hmem hpair
    exact hpl pl hmem hpair.1
  have hstored : db.projects.any (fun p => p.ID == P) = false := by
    rw [List.any_eq_false]
    intro p hmem
    simpa using hp p hmem
  refine ⟨?_, hassigned, ?_⟩
  · intro u
    rw [IsOwner_false]
    intro p hmem hid
    exact absurd hid (hp p hmem)
  · intro now l
    unfold LabourService.AssignToProjectInSchema
    split
    · exact ⟨_, rfl⟩
    · unfold LabourRepository.AssignToProjectInSchema
      rw [hassigned l, hstored]
      exact ⟨_, rfl⟩

/-- C21, amended: after `ProjectService.Delete(P)` succeeds (and the schema has
dropped the assignments of `P`), every labour record that existed before is still
stored unchanged; and after every later sequence of store operations in which the
database gives no new project the id `P` again, `IsOwner(P, u)` is false for every
user `u`, `IsAssignedToProject(P, l)` is false for every labourer `l`, an assignment
to `P` is refused without a write, and every attempt to create a WorkDay or Payment
for `P` fails and writes nothing: in the services with `ErrInvalidLabour` when the
date string of the request is a valid calendar date and with `ErrInvalidDate`
otherwise, in the handlers with 403 for every user. -/
theorem C21_project_delete (db db1 : DB) (P : UUID)
    (h : ProjectService.DeleteInSchema db P = (db1, .ok ())) :
    db1.labours = db.labours ∧
    ∀ ops : List StoreOp, (∀ op ∈ ops, op.createsProject P = false) →
      (∀ u, ProjectService.IsOwner (runStoreOps db1 ops) P u = false) ∧
      (∀ l, LabourRepository.IsAssignedToProject (runStoreOps db1 ops) P l = false) ∧
      (∀ now l, ∃ e, LabourService.AssignToProjectInSchema (runStoreOps db1 ops) now P l =
        (runStoreOps db1 ops, .error e)) ∧
      (∀ newID now (req : CreateWorkDayRequest),
        (isCalendarDate req.WorkDate →
          WorkDayService.Create (runStoreOps db1 ops) newID now P req =
            (runStoreOps db1 ops, .error .ErrInvalidLabour)) ∧
        (¬ isCalendarDate req.WorkDate →
          WorkDayService.Create (runStoreOps db1 ops) newID now P req =
            (runStoreOps db1 ops, .error .ErrInvalidDate))) ∧
      (∀ newID now (req : CreatePaymentRequest),
        (isCalendarDate req.PaymentDate →
          PaymentService.Create (runStoreOps db1 ops) newID now P req =
            (runStoreOps db1 ops, .error .ErrInvalidLabour)) ∧
        (¬ isCalendarDate req.PaymentDate →
          PaymentService.Create (runStoreOps db1 ops) newID now P req =
            (runStoreOps db1 ops, .error .ErrInvalidDate))) ∧
      (∀ newID now (c : Ctx) bindW bindP, c.id = some P →
        WorkDayHandler.Create (runStoreOps db1 ops) newID now c bindW =
          (runStoreOps db1 ops, ⟨403, .error "access denied"⟩) ∧
        PaymentHandler.Create (runStoreOps db1 ops) newID now c bindP =
          (runStoreOps db1 ops, ⟨403, .error "access denied"⟩)) := by
  have hdb := DeleteInSchema_ok db db1 P h
  have h0 : noRowsOfProject db1 P := by
    rw [hdb]
    constructor
    · intro p hmem
      simp only [List.mem_filter, Bool.not_eq_true', beq_eq_false_iff_ne, ne_eq] at hmem
      exact hmem.2
    · intro pl hmem
      simp only [List.mem_filter, Bool.not_eq_true', beq_eq_false_iff_ne, ne_eq] at hmem
      exact hmem.2
  refine ⟨by rw [hdb], ?_⟩
  intro ops hops
  obtain ⟨howner, hassigned, hassign⟩ := noRowsOfProject_checks (runStoreOps db1 ops) P
    (runStoreOps_noRowsOfProject ops db1 P h0 hops)
  refine ⟨howner, hassigned, hassign, ?_, ?_, ?_⟩
  · intro newID now req
    constructor
    · intro hcal
      obtain ⟨d, hd⟩ := Option.ne_none_iff_exists'.mp
        (fun hn => (timeParse_eq_none_iff req.WorkDate).mp hn hcal)
      exact WorkDayService.CreateWorkDay_unassigned _ newID now P req d hd (hassigned _)
    · intro hcal
      exact WorkDayService.CreateWorkDay_bad_date _ newID now P req
        ((timeParse_eq_none_iff req.WorkDate).mpr hcal)
  · intro newID now req
    constructor
    · intro hcal
      obtain ⟨d, hd⟩ := Option.ne_none_iff_exists'.mp
        (fun hn => (timeParse_eq_none_iff req.PaymentDate).mp hn hcal)
      exact PaymentService.Create_unassigned _ newID now P req d hd (hassigned _)
    · intro hcal
      exact PaymentService.Create_bad_date _ newID now P req
        ((timeParse_eq_none_iff req.PaymentDate).mpr hcal)
  · intro newID now c bindW bindP hc
    constructor
    · simp [WorkDayHandler.Create, hc, howner]
    · simp [PaymentHandler.Create, hc, howner]

/-- C21 amended, on the store `sharedDB`: project 1 is deleted; labourer 7 is still
stored; an assignment of labourer 7 to project 1 is refused; and after the
operations `laterOps` (that assignment, the creation of a project 3, a wage update
and a payment request for project 1) labourer 7 is not assigned to project 1 and a
payment for project 1 is refused with `ErrInvalidLabour`. -/
theorem C21_project_delete_witness :
    ProjectService.DeleteInSchema sharedDB 1 =
      ((ProjectService.DeleteInSchema sharedDB 1).1, .ok ()) ∧
    (∀ op ∈ laterOps, op.createsProject 1 = false) ∧
    (ProjectService.DeleteInSchema sharedDB 1).1.labours = sharedDB.labours ∧
    LabourService.AssignToProjectInSchema (ProjectService.DeleteInSchema sharedDB 1).1 5 1 7 =
      ((ProjectService.DeleteInSchema sharedDB 1).1,
        .error (.Other
          "insert or update on table project_labours violates foreign key constraint")) ∧
    LabourRepository.IsAssignedToProject
      (runStoreOps (ProjectService.DeleteInSchema sharedDB 1).1 laterOps) 1 7 = false ∧
    PaymentService.Create (runStoreOps (ProjectService.DeleteInSchema sharedDB 1).1 laterOps)
        50 0 1 ⟨7, 100, "2024-01-05", "advance", ""⟩ =
      (runStoreOps (ProjectService.DeleteInSchema sharedDB 1).1 laterOps,
        .error .ErrInvalidLabour) :=
  have hops : ∀ op ∈ laterOps, op.createsProject 1 = false := by
    simp [laterOps, StoreOp.createsProject]
  ⟨rfl, hops,
    (C21_project_delete sharedDB (ProjectService.DeleteInSchema sharedDB 1).1 1 rfl).1,
    rfl,
    ((C21_project_delete sharedDB (ProjectService.DeleteInSchema sharedDB 1).1 1 rfl).2
      laterOps hops).2.1 7,
    ((((C21_project_delete sharedDB (ProjectService.DeleteInSchema sharedDB 1).1 1 rfl).2
      laterOps hops).2.2.2.2.1) 50 0 ⟨7, 100, "2024-01-05", "advance", ""⟩).1
      ⟨2024, 1, 5, by decide, by decide, by decide, by decide, by decide, rfl⟩⟩

/-- `PaymentService.Create` on an assigned pair with non-nil ids and a date that
parses rejects an amount `≤ 0` with `ErrInvalidAmount`. -/
theorem PaymentService_Create_bad_amount (db : DB) (newID : UUID) (now : Time) (projectID : UUID)
    (req : CreatePaymentRequest) (d : Time) (hd : timeParse req.PaymentDate = some d)
    (ha : LabourRepository.IsAssignedToProject db projectID req.LabourID = true)
    (h1 : projectID ≠ 0) (h2 : req.LabourID ≠ 0) (hle : req.Amount ≤ 0) :
    PaymentService.Create db newID now projectID req = (db, .error .ErrInvalidAmount) := by
  rw [PaymentService.Create_assigned db newID now projectID req d hd ha,
    (Payment.Validate_bad_amount
      ⟨0, projectID, req.LabourID, req.Amount, d, req.PaymentType, req.Notes, 0⟩ hle).2 h1 h2]

/-! ### Validation errors in the handlers -/

/-- The name `longHindiName` has 128 characters and 384 bytes. -/
theorem longHindiName_len : longHindiName.length = 128 ∧ len longHindiName = 384 := by
  constructor
  · simp [longHindiName, String.length]
  · have h : ∀ n : Nat, (String.mk (List.replicate n letterNa)).utf8ByteSize = 3 * n := by
      intro n
      induction n with
      | zero => rfl
      | succ k ih =>
        have hc : letterNa.utf8Size = 3 := by decide
        simp only [String.utf8ByteSize, List.replicate_succ, String.utf8ByteSize.go] at ih ⊢
        rw [ih, hc]
        omega
    exact h 128

/-- C22 at its failing inputs.  `LabourService.Create` and `Update` return
`ErrInvalidAmount` for a wage of −5, and `ProjectService.Create` returns
`ErrInvalidName` for a name of 384 bytes; `LabourHandler.Create`, `LabourHandler.Update`
and `ProjectHandler.Create` answer each with the generic 500 response.  The sibling
handlers `PaymentHandler.Create` and `WorkDayHandler.Update` answer an
`ErrInvalidAmount` and an `ErrInvalidStatus` of their service with 400 and a message
naming the condition. -/
theorem C22_invalid_mapped_to_500 :
    ((LabourService.Create emptyDB 1 0 ⟨"Ramesh", "", -5⟩).2 = .error .ErrInvalidAmount ∧
      LabourHandler.Create emptyDB 1 0 (.ok ⟨"Ramesh", "", -5⟩) =
        (emptyDB, ⟨500, .error "failed to create labour"⟩)) ∧
    ((LabourService.Update sharedDB 0 7 ⟨"Ramesh", "", -5⟩).2 = .error .ErrInvalidAmount ∧
      LabourHandler.Update sharedDB 0 ⟨100, some 7, none⟩ (.ok ⟨"Ramesh", "", -5⟩) =
        (sharedDB, ⟨500, .error "failed to update labour"⟩)) ∧
    ((ProjectService.Create emptyDB 1 0 100 ⟨longHindiName, ""⟩).2 = .error .ErrInvalidName ∧
      ProjectHandler.Create emptyDB 1 0 ⟨100, none, none⟩ (.ok ⟨longHindiName, ""⟩) =
        (emptyDB, ⟨500, .error "failed to create project"⟩)) ∧
    ((PaymentService.Create sharedDB 50 0 1 ⟨7, -5, "2024-01-05", "advance", ""⟩).2 =
        .error .ErrInvalidAmount ∧
      PaymentHandler.Create sharedDB 50 0 ⟨100, some 1, none⟩
          (.ok ⟨7, -5, "2024-01-05", "advance", ""⟩) =
        (sharedDB, ⟨400, .error "invalid amount"⟩)) ∧
    ((WorkDayService.Update exampleDB 1 ⟨"holiday", ""⟩).2 = .error .ErrInvalidStatus ∧
      WorkDayHandler.Update { exampleDB with projects := [⟨1, 100, "Site A", "", 0, 0⟩] }
          ⟨100, some 1, none⟩ (.ok ⟨"holiday", ""⟩) =
        ({ exampleDB with projects := [⟨1, 100, "Site A", "", 0, 0⟩] },
          ⟨400, .error "invalid status"⟩)) := by
  have hv : Labour.Validate ⟨0, "Ramesh", "", -5, 0, 0⟩ = .error .ErrInvalidAmount :=
    (Labour.Validate_bad_wage ⟨0, "Ramesh", "", -5, 0, 0⟩ (by norm_num)).2 (by decide) (by decide)
  have hv7 : Labour.Validate ⟨7, "Ramesh", "", -5, 0, 0⟩ = .error .ErrInvalidAmount :=
    (Labour.Validate_bad_wage ⟨7, "Ramesh", "", -5, 0, 0⟩ (by norm_num)).2 (by decide) (by decide)
  have hc : LabourService.Create emptyDB 1 0 ⟨"Ramesh", "", -5⟩ =
      (emptyDB, .error .ErrInvalidAmount) := by
    simp only [LabourService.Create, hv]
  have hg : LabourRepository.GetByID sharedDB 7 = .ok ⟨7, "Ramesh", "", 1000, 0, 0⟩ := rfl
  have hu : LabourService.Update sharedDB 0 7 ⟨"Ramesh", "", -5⟩ =
      (sharedDB, .error .ErrInvalidAmount) := by
    simp only [LabourService.Update, hg, hv7]
  have hpv : Project.Validate ⟨0, 100, longHindiName, "", 0, 0⟩ = .error .ErrInvalidName := by
    have h1 : ¬ longHindiName = "" := by decide
    have h2 : len longHindiName > 255 := by rw [longHindiName_len.2]; decide
    simp [Project.Validate, h1, h2]
  have hp : ProjectService.Create emptyDB 1 0 100 ⟨longHindiName, ""⟩ =
      (emptyDB, .error .ErrInvalidName) := by
    simp only [ProjectService.Create, hpv]
  have hpay : PaymentService.Create sharedDB 50 0 1 ⟨7, -5, "2024-01-05", "advance", ""⟩ =
      (sharedDB, .error .ErrInvalidAmount) :=
    ((PaymentService_Create_bad_amount sharedDB 50 0 1 ⟨7, -5, "2024-01-05", "advance", ""⟩
      (dateUTC 2024 1 5) rfl rfl (by decide) (by decide)) (by norm_num))
  have hwg : WorkDayRepository.GetByID exampleDB 1 = .ok ⟨1, 1, 7, 10, "full_day", "", 0⟩ := rfl
  have hwv : WorkDay.Validate ⟨1, 1, 7, 10, "holiday", "", 0⟩ = .error .ErrInvalidStatus := rfl
  have hw : ∀ db : DB, db.work_days = exampleDB.work_days →
      WorkDayService.Update db 1 ⟨"holiday", ""⟩ = (db, .error .ErrInvalidStatus) := by
    intro db hdb
    have hg2 : WorkDayRepository.GetByID db 1 = .ok ⟨1, 1, 7, 10, "full_day", "", 0⟩ := by
      unfold WorkDayRepository.GetByID
      rw [hdb]
      rfl
    simp only [WorkDayService.Update, hg2, hwv]
  refine ⟨⟨by rw [hc], ?_⟩, ⟨by rw [hu], ?_⟩, ⟨by rw [hp], ?_⟩, ⟨by rw [hpay], ?_⟩,
    ⟨by rw [hw exampleDB rfl], ?_⟩⟩
  · simp only [LabourHandler.Create, hc]
  · simp only [LabourHandler.Update, hu]
    rfl
  · simp only [ProjectHandler.Create, hp]
  · have ho : ProjectService.IsOwner sharedDB 1 100 = true := rfl
    simp only [PaymentHandler.Create, ho, hpay]
    rfl
  · have hg3 : WorkDayService.GetByID { exampleDB with projects := [⟨1, 100, "Site A", "", 0, 0⟩] }
        1 = .ok ⟨1, 1, 7, 10, "full_day", "", 0⟩ := rfl
    have ho : ProjectService.IsOwner
        { exampleDB with projects := [⟨1, 100, "Site A", "", 0, 0⟩] } 1 100 = true := rfl
    simp only [WorkDayHandler.Update, hg3, ho, hw _ rfl]
    rfl

/-! ### Lengths of names and of optional text -/

/-- `Project.Validate` accepts a project exactly when its name is non-empty and at
most 255 bytes long, and its only error is `ErrInvalidName`. -/
theorem Project.ValidateProject_iff (p : Project) :
    (p.Validate = .ok () ↔ p.Name ≠ "" ∧ len p.Name ≤ 255) ∧
    (p.Validate = .error .ErrInvalidName ↔ ¬ (p.Name ≠ "" ∧ len p.Name ≤ 255)) := by
  unfold Project.Validate
  by_cases h1 : p.Name = ""
  · simp [h1]
  · by_cases h2 : len p.Name > 255
    · simp [h1, h2]
    · simp [h1, h2, not_lt.mp h2]

/-- `Labour.Validate` returns `ErrInvalidName` exactly when the name is empty or
longer than 255 bytes, and accepts exactly when in addition the wage is not
negative. -/
theorem Labour.ValidateLabour_iff (l : Labour) :
    (l.Validate = .ok () ↔ l.Name ≠ "" ∧ len l.Name ≤ 255 ∧ l.DailyWage ≥ 0) ∧
    (l.Validate = .error .ErrInvalidName ↔ ¬ (l.Name ≠ "" ∧ len l.Name ≤ 255)) := by
  unfold Labour.Validate
  by_cases h1 : l.Name = ""
  · simp [h1]
  · by_cases h2 : len l.Name > 255
    · simp [h1, h2]
    · by_cases h3 : l.DailyWage < 0
      · simp [h1, h2, h3, not_lt.mp h2]
      · simp [h1, h2, h3, not_lt.mp h2, not_lt.mp h3]

/-- C23, as stated, fails: the services do not look at the length of the optional
text.  `LabourService.Create` accepts and stores a phone of 21 characters. -/
theorem C23_counterexample :
    ("123456789012345678901" : String).length = 21 ∧
    (LabourService.Create emptyDB 1 0 ⟨"Ramesh", "123456789012345678901", 500⟩).2 =
      .ok ⟨1, "Ramesh", "123456789012345678901", 500, 0, 0⟩ ∧
    (LabourService.Create emptyDB 1 0 ⟨"Ramesh", "123456789012345678901", 500⟩).1.labours =
      [⟨1, "Ramesh", "123456789012345678901", 500, 0, 0⟩] := by
  have hv : Labour.Validate ⟨0, "Ramesh", "123456789012345678901", 500, 0, 0⟩ = .ok () :=
    (Labour.ValidateLabour_iff _).1.mpr ⟨by decide, by decide, by norm_num⟩
  refine ⟨by decide, ?_, ?_⟩
  · simp only [LabourService.Create, hv]
    rfl
  · simp only [LabourService.Create, hv]
    rfl

/-- C23, amended: the length limits on optional text are not enforced at the service
boundary.  `Labour.Validate`, `Project.Validate`, `WorkDay.Validate` and
`Payment.Validate` do not read the phone, the description or the notes, so
`LabourService.Create` and `Update`, `ProjectService.Create` and `Update`,
`WorkDayService.Create` and `PaymentService.Create` accept a request with optional
text of any length whenever they accept it with another text, and store the text as
given.  (The limits are `binding` tags of the request types; a handler answers a
failed binding with 400 before the service is called, and writes nothing.) -/
theorem C23_optional_text_unchecked :
    (∀ (l : Labour) phone, Labour.Validate { l with Phone := phone } = l.Validate) ∧
    (∀ (p : Project) desc, Project.Validate { p with Description := desc } = p.Validate) ∧
    (∀ (wd : WorkDay) notes, WorkDay.Validate { wd with Notes := notes } = wd.Validate) ∧
    (∀ (p : Payment) notes, Payment.Validate { p with Notes := notes } = p.Validate) ∧
    (∀ db newID now (req : CreateLabourRequest),
      req.Name ≠ "" → len req.Name ≤ 255 → req.DailyWage ≥ 0 →
      LabourService.Create db newID now req =
        ({ db with labours := db.labours ++
            [⟨newID, req.Name, req.Phone, req.DailyWage, now, now⟩] },
          .ok ⟨newID, req.Name, req.Phone, req.DailyWage, now, now⟩)) ∧
    (∀ db now id (req : UpdateLabourRequest) l, LabourRepository.GetByID db id = .ok l →
      req.Name ≠ "" → len req.Name ≤ 255 → req.DailyWage ≥ 0 →
      LabourService.Update db now id req =
        LabourRepository.Update db now
          { l with Name := req.Name, Phone := req.Phone, DailyWage := req.DailyWage }) ∧
    (∀ db newID now userID (req : CreateProjectRequest),
      req.Name ≠ "" → len req.Name ≤ 255 →
      ProjectService.Create db newID now userID req =
        ({ db with projects := db.projects ++
            [⟨newID, userID, req.Name, req.Description, now, now⟩] },
          .ok ⟨newID, userID, req.Name, req.Description, now, now⟩)) ∧
    (∀ db now id (req : UpdateProjectRequest) p, ProjectRepository.GetByID db id = .ok p →
      req.Name ≠ "" → len req.Name ≤ 255 →
      ProjectService.Update db now id req =
        ProjectRepository.Update db now
          { p with Name := req.Name, Description := req.Description }) ∧
    (∀ db newID now projectID (req : CreateWorkDayRequest) notes,
      (WorkDayService.Create db newID now projectID req).2.toBool =
        (WorkDayService.Create db newID now projectID { req with Notes := notes }).2.toBool) ∧
    (∀ db newID now projectID (req : CreatePaymentRequest) notes,
      (PaymentService.Create db newID now projectID req).2.toBool =
        (PaymentService.Create db newID now projectID { req with Notes := notes }).2.toBool) ∧
    (∀ db newID now msg,
      LabourHandler.Create db newID now (.error msg) = (db, ⟨400, .error msg⟩) ∧
      ∀ c, ProjectHandler.Create db newID now c (.error msg) = (db, ⟨400, .error msg⟩)) := by
  refine ⟨fun _ _ => rfl, fun _ _ => rfl, fun _ _ => rfl, fun _ _ => rfl, ?_, ?_, ?_, ?_, ?_, ?_,
    fun _ _ _ _ => ⟨rfl, fun _ => rfl⟩⟩
  · intro db newID now req h1 h2 h3
    have hv : Labour.Validate ⟨0, req.Name, req.Phone, req.DailyWage, 0, 0⟩ = .ok () :=
      (Labour.ValidateLabour_iff _).1.mpr ⟨h1, h2, h3⟩
    simp only [LabourService.Create, hv]
    rfl
  · intro db now id req l hl h1 h2 h3
    have hv : Labour.Validate
        { l with Name := req.Name, Phone := req.Phone, DailyWage := req.DailyWage } = .ok () :=
      (Labour.ValidateLabour_iff _).1.mpr ⟨h1, h2, h3⟩
    simp only [LabourService.Update, hl, hv]
  · intro db newID now userID req h1 h2
    have hv : Project.Validate ⟨0, userID, req.Name, req.Description, 0, 0⟩ = .ok () :=
      (Project.ValidateProject_iff _).1.mpr ⟨h1, h2⟩
    simp only [ProjectService.Create, hv]
    rfl
  · intro db now id req p hp h1 h2
    have hv : Project.Validate { p with Name := req.Name, Description := req.Description } =
        .ok () := (Project.ValidateProject_iff _).1.mpr ⟨h1, h2⟩
    simp only [ProjectService.Update, hp, hv]
  · intro db newID now projectID req notes
    cases hd : timeParse req.WorkDate with
    | none =>
      rw [WorkDayService.CreateWorkDay_bad_date db newID now projectID req hd,
        WorkDayService.CreateWorkDay_bad_date db newID now projectID { req with Notes := notes } hd]
    | some d =>
      cases ha : LabourRepository.IsAssignedToProject db projectID req.LabourID with
      | false =>
        rw [WorkDayService.CreateWorkDay_unassigned db newID now projectID req d hd ha,
          WorkDayService.CreateWorkDay_unassigned db newID now projectID { req with Notes := notes } d hd ha]
      | true =>
        rw [WorkDayService.CreateWorkDay_assigned db newID now projectID req d hd ha,
          WorkDayService.CreateWorkDay_assigned db newID now projectID { req with Notes := notes } d hd ha]
        have hind : WorkDay.Validate ⟨0, projectID, req.LabourID, d, req.Status, notes, 0⟩ =
            WorkDay.Validate ⟨0, projectID, req.LabourID, d, req.Status, req.Notes, 0⟩ := rfl
        simp only [hind]
        cases hv : WorkDay.Validate ⟨0, projectID, req.LabourID, d, req.Status, req.Notes, 0⟩ with
        | error e => rfl
        | ok u => rfl
  · intro db newID now projectID req notes
    cases hd : timeParse req.PaymentDate with
    | none =>
      rw [PaymentService.Create_bad_date db newID now projectID req hd,
        PaymentService.Create_bad_date db newID now projectID { req with Notes := notes } hd]
    | some d =>
      cases ha : LabourRepository.IsAssignedToProject db projectID req.LabourID with
      | false =>
        rw [PaymentService.Create_unassigned db newID now projectID req d hd ha,
          PaymentService.Create_unassigned db newID now projectID { req with Notes := notes } d hd ha]
      | true =>
        rw [PaymentService.Create_assigned db newID now projectID req d hd ha,
          PaymentService.Create_assigned db newID now projectID { req with Notes := notes } d hd ha]
        have hind : Payment.Validate
            ⟨0, projectID, req.LabourID, req.Amount, d, req.PaymentType, notes, 0⟩ =
            Payment.Validate
              ⟨0, projectID, req.LabourID, req.Amount, d, req.PaymentType, req.Notes, 0⟩ := rfl
        simp only [hind]
        cases hv : Payment.Validate
            ⟨0, projectID, req.LabourID, req.Amount, d, req.PaymentType, req.Notes, 0⟩ with
        | error e => rfl
        | ok u => rfl

/-- C24 at its failing input: a name of 128 Devanagari letters is non-empty and at
most 255 characters long, but 384 bytes long, and `Project.Validate` and
`Labour.Validate` return `ErrInvalidName` for it.  Both methods compare the length
in bytes: they accept a name exactly when it is non-empty and at most 255 bytes
long. -/
theorem C24_name_length_in_bytes :
    (longHindiName ≠ "" ∧ longHindiName.length = 128 ∧ len longHindiName = 384 ∧
      Project.Validate ⟨0, 100, longHindiName, "", 0, 0⟩ = .error .ErrInvalidName ∧
      Labour.Validate ⟨0, longHindiName, "", 100, 0, 0⟩ = .error .ErrInvalidName) ∧
    (∀ p : Project, p.Validate = .error .ErrInvalidName ↔ ¬ (p.Name ≠ "" ∧ len p.Name ≤ 255)) ∧
    (∀ l : Labour, l.Validate = .error .ErrInvalidName ↔ ¬ (l.Name ≠ "" ∧ len l.Name ≤ 255)) := by
  have hlen := longHindiName_len
  have hbad : ∀ n : String, n = longHindiName → ¬ (n ≠ "" ∧ len n ≤ 255) := by
    rintro n rfl ⟨_, h⟩
    rw [hlen.2] at h
    exact absurd h (by decide)
  exact ⟨⟨by decide, hlen.1, hlen.2, (Project.ValidateProject_iff _).2.mpr (hbad _ rfl),
    (Labour.ValidateLabour_iff _).2.mpr (hbad _ rfl)⟩,
    fun p => (Project.ValidateProject_iff p).2, fun l => (Labour.ValidateLabour_iff l).2⟩

/-! ### Passcode store: sweep, code format, wrong guesses -/

/-- C25: the sweep is not observable through verification.  For every provider
state, all times `t0 ≤ t1`, every phone and every code, `VerifyOTP(phone, code)` at
time `t1` returns the same result, and leaves the same entry for the phone, whether
or not the sweep body ran at time `t0`.  The sweep deletes exactly the entries whose
expiry is before `t0` and leaves every other entry, and the mode, unchanged. -/
theorem C25_sweep_unobservable (m : MockProvider) (t0 t1 : Time) (phone code : String)
    (h : t0 ≤ t1) :
    (VerifyOTP (cleanupExpired m t0) t1 phone code).2 = (VerifyOTP m t1 phone code).2 ∧
    (VerifyOTP (cleanupExpired m t0) t1 phone code).1.otps phone =
      (VerifyOTP m t1 phone code).1.otps phone ∧
    (∀ p s, m.otps p = some s → s.ExpiresAt < t0 → (cleanupExpired m t0).otps p = none) ∧
    (∀ p, (∀ s, m.otps p = some s → ¬ s.ExpiresAt < t0) →
      (cleanupExpired m t0).otps p = m.otps p) ∧
    (cleanupExpired m t0).useFixedOTP = m.useFixedOTP := by
  have hsweep : ∀ p, (cleanupExpired m t0).otps p =
      match m.otps p with
      | none => none
      | some s => if t0 > s.ExpiresAt then none else some s := fun _ => rfl
  refine ⟨?_, ?_, ?_, ?_, rfl⟩
  · rw [VerifyOTP_result, VerifyOTP_result, hsweep]
    cases hs : m.otps phone with
    | none => rfl
    | some s =>
      by_cases he : t0 > s.ExpiresAt
      · have h1 : ¬ t1 ≤ s.ExpiresAt := not_le.mpr (lt_of_lt_of_le he h)
        simp [he, h1]
      · simp [he]
  · unfold VerifyOTP
    rw [hsweep]
    cases hs : m.otps phone with
    | none => simp [hsweep, hs]
    | some s =>
      by_cases he : t0 > s.ExpiresAt
      · have h1 : t1 > s.ExpiresAt := lt_of_lt_of_le he h
        simp [he, h1, hsweep, hs, mapDelete]
      · simp only [he, if_false]
        by_cases h1 : t1 > s.ExpiresAt
        · simp [h1, mapDelete]
        · by_cases h2 : s.Code = code
          · simp [h1, h2, mapDelete]
          · simp [h1, h2, hsweep, hs, he]
  · intro p s hs he
    rw [hsweep, hs]
    simp [he]
  · intro p hp
    rw [hsweep]
    cases hs : m.otps p with
    | none => rfl
    | some s =>
      have := hp s hs
      simp [this]

/-- C25 on a provider with one code sent at time 0: a sweep one minute after its
expiry changes nothing for a verification two minutes after the expiry. -/
theorem C25_sweep_unobservable_witness :
    (6 * Minute : Time) ≤ 7 * Minute ∧
    (VerifyOTP (cleanupExpired (SendOTP (NewMockProvider true) 0 none "+1234567890").1
      (6 * Minute)) (7 * Minute) "+1234567890" "123456").2 =
    (VerifyOTP (SendOTP (NewMockProvider true) 0 none "+1234567890").1
      (7 * Minute) "+1234567890" "123456").2 :=
  ⟨by decide,
    (C25_sweep_unobservable (SendOTP (NewMockProvider true) 0 none "+1234567890").1
      (6 * Minute) (7 * Minute) "+1234567890" "123456" (by decide)).1⟩

/-- The digit character of a number below ten is an ASCII digit with that value. -/
theorem natDigitChar_spec (x : Nat) (h : x < 10) :
    isDigit (Nat.digitChar x) = true ∧ digitVal (Nat.digitChar x) = x := by
  interval_cases x <;> decide

/-- The decimal digits of a number below `10 ^ (k + 1)`: at least one and at most
`k + 1` ASCII digits, most significant first, whose value is the number. -/
theorem toDigitsCore_spec (k : Nat) :
    ∀ (fuel n : Nat) (ds : List Char), n < 10 ^ (k + 1) → n < fuel →
      ∃ l, Nat.toDigitsCore 10 fuel n ds = l ++ ds ∧ 1 ≤ l.length ∧ l.length ≤ k + 1 ∧
        (∀ c ∈ l, isDigit c = true) ∧ l.foldl (fun a c => 10 * a + digitVal c) 0 = n := by
  induction k with
  | zero =>
    intro fuel n ds hn hf
    obtain ⟨f, rfl⟩ : ∃ f, fuel = f + 1 := ⟨fuel - 1, by omega⟩
    have hd := natDigitChar_spec (n % 10) (Nat.mod_lt _ (by decide))
    have h0 : n / 10 = 0 := by omega
    refine ⟨[Nat.digitChar (n % 10)], ?_, by simp, by simp, ?_, ?_⟩
    · simp [Nat.toDigitsCore, h0]
    · simpa using hd.1
    · simp only [List.foldl_cons, List.foldl_nil, hd.2]
      omega
  | succ k ih =>
    intro fuel n ds hn hf
    obtain ⟨f, rfl⟩ : ∃ f, fuel = f + 1 := ⟨fuel - 1, by omega⟩
    have hd := natDigitChar_spec (n % 10) (Nat.mod_lt _ (by decide))
    by_cases h0 : n / 10 = 0
    · refine ⟨[Nat.digitChar (n % 10)], ?_, by simp, by simp, ?_, ?_⟩
      · simp [Nat.toDigitsCore, h0]
      · simpa using hd.1
      · simp only [List.foldl_cons, List.foldl_nil, hd.2]
        omega
    · have hn' : n / 10 < 10 ^ (k + 1) := by
        rw [Nat.div_lt_iff_lt_mul (by decide)]
        calc n < 10 ^ (k + 1 + 1) := hn
          _ = 10 ^ (k + 1) * 10 := by ring
      have hf' : n / 10 < f := by omega
      obtain ⟨l, hl, h1, h2, h3, h4⟩ := ih f (n / 10) (Nat.digitChar (n % 10) :: ds) hn' hf'
      refine ⟨l ++ [Nat.digitChar (n % 10)], ?_, by simp, by simp; omega, ?_, ?_⟩
      · simp [Nat.toDigitsCore, h0, hl]
      · intro c hc
        simp only [List.mem_append, List.mem_singleton] at hc
        rcases hc with hc | rfl
        · exact h3 c hc
        · exact hd.1
      · simp only [List.foldl_append, List.foldl_cons, List.foldl_nil, h4, hd.2]
        omega

/-- Leading zeros do not change the decimal value. -/
theorem foldl_zeros (k : Nat) (l : List Char) :
    (List.replicate k '0' ++ l).foldl (fun a c => 10 * a + digitVal c) 0 =
      l.foldl (fun a c => 10 * a + digitVal c) 0 := by
  induction k with
  | zero => rfl
  | succ k ih =>
    have hz : digitVal '0' = 0 := by decide
    simpa [List.replicate_succ, hz] using ih

/-- `%06d` of a number below one million: six ASCII digits whose value is the number. -/
theorem sprintf06d_spec (n : Nat) (h : n < 1000000) :
    (sprintf06d n).length = 6 ∧ (∀ c ∈ (sprintf06d n).toList, isDigit c = true) ∧
      decimalValue (sprintf06d n) = n := by
  obtain ⟨l, hl, h1, h2, h3, h4⟩ := toDigitsCore_spec 5 (n + 1) n [] (by simpa using h) (by omega)
  have hd : Nat.toDigits 10 n = l := by simpa [Nat.toDigits] using hl
  refine ⟨?_, ?_, ?_⟩
  · simp only [sprintf06d, hd, String.length, List.length_append, List.length_replicate]
    omega
  · intro c hc
    simp only [sprintf06d, hd, String.toList, List.mem_append, List.mem_replicate] at hc
    rcases hc with ⟨_, rfl⟩ | hc
    · decide
    · exact h3 c hc
  · simp only [decimalValue, sprintf06d, hd, String.toList]
    rw [foldl_zeros, h4]

/-- C26: every code returned by `SendOTP` is exactly 6 ASCII decimal digits and is
the code stored for the phone, with expiry five minutes after the call.  In fixed
mode it is "123456"; in random mode it is the draw `n` of the random source, which
lies in `0 ≤ n < 1000000`, written in decimal and padded with zeros on the left to
width 6 (its decimal value is `n`), or "123456" when the random source failed. -/
theorem C26_code_format (m : MockProvider) (now : Time) (rnd : Option Nat) (phone : String)
    (hr : ∀ n, rnd = some n → n < 1000000) :
    ∃ code, (SendOTP m now rnd phone).2 = .ok code ∧
      code.length = 6 ∧ (∀ c ∈ code.toList, isDigit c = true) ∧
      (SendOTP m now rnd phone).1.otps phone =
        some { Code := code, ExpiresAt := now + 5 * Minute } ∧
      (m.useFixedOTP = true → code = "123456") ∧
      (m.useFixedOTP = false → rnd = none → code = "123456") ∧
      (m.useFixedOTP = false → ∀ n, rnd = some n →
        code = sprintf06d n ∧ decimalValue code = n) := by
  have hfix : ("123456" : String).length = 6 ∧ ∀ c ∈ ("123456" : String).toList, isDigit c = true :=
    ⟨by decide, by decide⟩
  refine ⟨if m.useFixedOTP then "123456" else generateOTP rnd, rfl, ?_, ?_, ?_, ?_, ?_, ?_⟩
  · cases hm : m.useFixedOTP with
    | true => exact hfix.1
    | false =>
      cases rnd with
      | none => exact hfix.1
      | some n => exact (sprintf06d_spec n (hr n rfl)).1
  · cases hm : m.useFixedOTP with
    | true => exact hfix.2
    | false =>
      cases rnd with
      | none => exact hfix.2
      | some n => exact (sprintf06d_spec n (hr n rfl)).2.1
  · simp [SendOTP, mapSet]
  · intro hm
    simp [hm]
  · intro hm hn
    simp [hm, hn, generateOTP]
  · intro hm n hn
    subst hn
    have e : (if m.useFixedOTP then "123456" else generateOTP (some n)) = sprintf06d n := by
      simp [hm, generateOTP]
    rw [e]
    exact ⟨rfl, (sprintf06d_spec n (hr n rfl)).2.2⟩

/-- C26 on a random-mode provider with draw 42: the code is "000042". -/
theorem C26_code_format_witness :
    (∀ n, some 42 = some n → n < 1000000) ∧
    ∃ code, (SendOTP (NewMockProvider false) 0 (some 42) "+1234567890").2 = .ok code ∧
      code.length = 6 ∧ (∀ c ∈ code.toList, isDigit c = true) ∧
      (SendOTP (NewMockProvider false) 0 (some 42) "+1234567890").1.otps "+1234567890" =
        some { Code := code, ExpiresAt := 0 + 5 * Minute } ∧
      ((NewMockProvider false).useFixedOTP = true → code = "123456") ∧
      ((NewMockProvider false).useFixedOTP = false → some 42 = none → code = "123456") ∧
      ((NewMockProvider false).useFixedOTP = false → ∀ n, some 42 = some n →
        code = sprintf06d n ∧ decimalValue code = n) :=
  ⟨fun n hn => by cases hn; decide,
    C26_code_format (NewMockProvider false) 0 (some 42) "+1234567890"
      (fun n hn => by cases hn; decide)⟩

/-- A wrong guess on a stored, non-expired code changes nothing. -/
theorem VerifyOTP_wrong_guess (m : MockProvider) (now : Time) (phone x c : String) (E : Time)
    (hs : m.otps phone = some { Code := c, ExpiresAt := E }) (hn : now ≤ E) (hx : x ≠ c) :
    VerifyOTP m now phone x = (m, .ok false) := by
  unfold VerifyOTP
  have h1 : ¬ now > E := not_lt.mpr hn
  have h2 : ¬ c = x := fun h => hx h.symm
  simp [hs, h1, h2]

/-- C27: a failed guess does not consume or alter a pending passcode.  For a phone
with a stored code `c` of expiry `E`, `VerifyOTP(phone, x)` with `x ≠ c` made not
after `E` returns false and leaves the whole provider unchanged; so after any number
of such guesses `VerifyOTP(phone, c)` made not after `E` still returns true.  A
`SendOTP` or `VerifyOTP` on this phone leaves the entry of every other phone
unchanged. -/
theorem C27_wrong_guess (m : MockProvider) (phone c : String) (E t : Time)
    (guesses : List (Time × String))
    (hs : m.otps phone = some { Code := c, ExpiresAt := E })
    (hg : ∀ g ∈ guesses, g.1 ≤ E ∧ g.2 ≠ c) (ht : t ≤ E) :
    (∀ now x, now ≤ E → x ≠ c → VerifyOTP m now phone x = (m, .ok false)) ∧
    guesses.foldl (fun s g => (VerifyOTP s g.1 phone g.2).1) m = m ∧
    (VerifyOTP (guesses.foldl (fun s g => (VerifyOTP s g.1 phone g.2).1) m) t phone c).2 =
      .ok true ∧
    (∀ q, q ≠ phone → ∀ now rnd x,
      (SendOTP m now rnd phone).1.otps q = m.otps q ∧
      (VerifyOTP m now phone x).1.otps q = m.otps q) := by
  have hfold : guesses.foldl (fun s g => (VerifyOTP s g.1 phone g.2).1) m = m := by
    induction guesses with
    | nil => rfl
    | cons g gs ih =>
      have hg1 := hg g (List.mem_cons_self _ _)
      rw [List.foldl_cons, VerifyOTP_wrong_guess m g.1 phone g.2 c E hs hg1.1 hg1.2]
      exact ih (fun g' hg' => hg g' (List.mem_cons_of_mem _ hg'))
  refine ⟨fun now x hn hx => VerifyOTP_wrong_guess m now phone x c E hs hn hx, hfold, ?_, ?_⟩
  · rw [hfold, VerifyOTP_result, hs]
    simp [ht]
  · intro q hq now rnd x
    constructor
    · simp [SendOTP, mapSet, hq]
    · unfold VerifyOTP
      cases hsx : m.otps phone with
      | none => rfl
      | some s =>
        by_cases h1 : now > s.ExpiresAt
        · simp [h1, mapDelete, hq]
        · by_cases h2 : s.Code = x
          · simp [h1, h2, mapDelete, hq]
          · simp [h1, h2]

/-- C27 on a fixed-code provider: after two wrong guesses the code sent at time 0
is still accepted at the end of its five minutes. -/
theorem C27_wrong_guess_witness :
    (SendOTP (NewMockProvider true) 0 none "+1234567890").1.otps "+1234567890" =
      some { Code := "123456", ExpiresAt := 5 * Minute } ∧
    (VerifyOTP
      ([((1 : Time), "000000"), (2, "654321")].foldl
        (fun s g => (VerifyOTP s g.1 "+1234567890" g.2).1)
        (SendOTP (NewMockProvider true) 0 none "+1234567890").1)
      (5 * Minute) "+1234567890" "123456").2 = .ok true :=
  ⟨rfl,
    (C27_wrong_guess (SendOTP (NewMockProvider true) 0 none "+1234567890").1 "+1234567890"
      "123456" (5 * Minute) (5 * Minute) [((1 : Time), "000000"), (2, "654321")] rfl
      (by decide) (by decide)).2.2.1⟩

/-! ### Refreshing with an access token -/

/-- A token issued by `generateTokens` validates at every time before its expiry
claim, with the issued claims. -/
theorem validateToken_issued (lib : JWTCodec) (jwtSecret : String) (user : User)
    (now expiry t : Time) (ht : t < NewNumericDate expiry) :
    validateToken lib jwtSecret t (some (hs256Token lib jwtSecret (issuedClaims user now expiry))) =
      .ok (issuedClaims user now expiry) := by
  rw [validateToken_some lib jwtSecret t _ .HS256 GetSigningMethod_HS256]
  simp [SigningMethod.isHMAC, validateClaims, hs256Token, issuedClaims, ht]

/-- The expiry claim of the refresh token is not before that of the access token. -/
theorem access_expiry_le_refresh (now : Time) :
    NewNumericDate (now + 24 * Hour) ≤ NewNumericDate (now + 7 * 24 * Hour) :=
  have key : ∀ x : Int,
      (x + 24 * (60 * (60 * 1000000000))) - (x + 24 * (60 * (60 * 1000000000))) % 1000000000 ≤
      (x + 7 * 24 * (60 * (60 * 1000000000))) -
        (x + 7 * 24 * (60 * (60 * 1000000000))) % 1000000000 := by
    intro x
    omega
  key now

/-- C28: `RefreshToken` does not distinguish the two kinds of token.  The access and
the refresh token of one `generateTokens` call carry the same claims except for the
expiry; for every stored user `u`, `RefreshToken` called with the access token
before that token expires succeeds, and returns what it returns for the refresh
token: the pair `generateTokens` issues for `u` at that time. -/
theorem C28_refresh_with_access_token (lib : JWTCodec) (jwtSecret : String) (db : DB)
    (now nowV nowG : Time) (u : User)
    (hu : UserRepository.GetByID db u.ID = .ok u)
    (ht : nowV < NewNumericDate (now + 24 * Hour)) :
    ∃ resp a r, generateTokens lib jwtSecret now u = .ok resp ∧
      resp.AccessToken = some a ∧ resp.RefreshToken = some r ∧
      { a.claims with RegisteredClaims :=
          { a.claims.RegisteredClaims with ExpiresAt := r.claims.RegisteredClaims.ExpiresAt } } =
        r.claims ∧
      RefreshToken lib jwtSecret db nowV nowG resp.AccessToken =
        RefreshToken lib jwtSecret db nowV nowG resp.RefreshToken ∧
      RefreshToken lib jwtSecret db nowV nowG resp.AccessToken =
        generateTokens lib jwtSecret nowG u ∧
      ∃ r2, RefreshToken lib jwtSecret db nowV nowG resp.AccessToken = .ok r2 ∧ r2.User = u := by
  have hta := validateToken_issued lib jwtSecret u now (now + 24 * Hour) nowV ht
  have htr := validateToken_issued lib jwtSecret u now (now + 7 * 24 * Hour) nowV
    (lt_of_lt_of_le ht (access_expiry_le_refresh now))
  have hua : UserRepository.GetByID db (issuedClaims u now (now + 24 * Hour)).UserID = .ok u := hu
  have hur : UserRepository.GetByID db (issuedClaims u now (now + 7 * 24 * Hour)).UserID = .ok u :=
    hu
  have ha : RefreshToken lib jwtSecret db nowV nowG
      (some (hs256Token lib jwtSecret (issuedClaims u now (now + 24 * Hour)))) =
      generateTokens lib jwtSecret nowG u := by
    simp only [RefreshToken, hta, hua]
  have hr : RefreshToken lib jwtSecret db nowV nowG
      (some (hs256Token lib jwtSecret (issuedClaims u now (now + 7 * 24 * Hour)))) =
      generateTokens lib jwtSecret nowG u := by
    simp only [RefreshToken, htr, hur]
  refine ⟨_, _, _, generateTokens_ok lib jwtSecret now u, rfl, rfl, rfl, ?_, ha, ?_⟩
  · exact ha.trans hr.symm
  · rw [ha, generateTokens_ok]
    exact ⟨_, rfl, rfl⟩

/-- C28 with the stand-in codec: user 100 of the store `sharedDB` refreshes with the
access token issued at time 0, one hour later. -/
theorem C28_refresh_with_access_token_witness :
    UserRepository.GetByID sharedDB 100 = .ok ⟨100, "+911111111111", "", 0, 0⟩ ∧
    (Hour : Time) < NewNumericDate (0 + 24 * Hour) ∧
    ∃ resp a r, generateTokens toyCodec "secret" 0 ⟨100, "+911111111111", "", 0, 0⟩ = .ok resp ∧
      resp.AccessToken = some a ∧ resp.RefreshToken = some r ∧
      { a.claims with RegisteredClaims :=
          { a.claims.RegisteredClaims with ExpiresAt := r.claims.RegisteredClaims.ExpiresAt } } =
        r.claims ∧
      RefreshToken toyCodec "secret" sharedDB Hour Hour resp.AccessToken =
        RefreshToken toyCodec "secret" sharedDB Hour Hour resp.RefreshToken ∧
      RefreshToken toyCodec "secret" sharedDB Hour Hour resp.AccessToken =
        generateTokens toyCodec "secret" Hour ⟨100, "+911111111111", "", 0, 0⟩ ∧
      ∃ r2, RefreshToken toyCodec "secret" sharedDB Hour Hour resp.AccessToken = .ok r2 ∧
        r2.User = ⟨100, "+911111111111", "", 0, 0⟩ :=
  ⟨rfl, by decide,
    C28_refresh_with_access_token toyCodec "secret" sharedDB 0 Hour Hour
      ⟨100, "+911111111111", "", 0, 0⟩ rfl (by decide)⟩

/-! ### The zero date -/

/-- Among the calendar dates only 1 January of year 1 is 366 days after 1 January of
year 0. -/
theorem daysFromYearZero_eq (year month day : Nat) (hm1 : 1 ≤ month) (hm2 : month ≤ 12)
    (hd1 : 1 ≤ day) (hd2 : day ≤ daysIn month year) :
    daysFromYearZero year month day = 366 ↔ year = 1 ∧ month = 1 ∧ day = 1 := by
  have hd3 := daysIn_le month year hm1 hm2
  constructor
  · intro h
    unfold daysFromYearZero at h
    have hL : (if (decide (month > 2) && isLeap year) = true then 1 else 0) ≤ 1 := by
      split <;> omega
    generalize (if (decide (month > 2) && isLeap year) = true then 1 else 0) = L at h hL
    have hfe : (year + 99) / 100 ≤ (year + 3) / 4 := by omega
    have hy : year = 0 ∨ year = 1 ∨ 2 ≤ year := by omega
    rcases hy with rfl | rfl | hy
    · interval_cases month <;> simp [daysBefore] at h <;> omega
    · interval_cases month <;> simp [daysBefore] at h <;> omega
    · have hbig : 730 ≤ 365 * year + (year + 3) / 4 - (year + 99) / 100 := by omega
      omega
  · rintro ⟨rfl, rfl, rfl⟩
    rfl

/-- The date parsed from a string is the zero time exactly for "0001-01-01". -/
theorem timeParse_zero_iff (s : String) (d : Time) (h : timeParse s = some d) :
    d = 0 ↔ s = "0001-01-01" := by
  unfold timeParse at h
  cases hp : parseYMD s with
  | none => simp [hp] at h
  | some p =>
    obtain ⟨year, month, day⟩ := p
    simp only [hp, Option.some.injEq] at h
    obtain ⟨hy, hm1, hm2, hd1, hd2, hs⟩ := parseYMD_some s year month day hp
    have hdays := daysFromYearZero_eq year month day hm1 hm2 hd1 hd2
    have key : ∀ n : Nat, ((n : Int) - 366) * (24 * (60 * (60 * 1000000000))) = 0 ↔ n = 366 := by
      intro n
      omega
    have hzero : d = 0 ↔ daysFromYearZero year month day = 366 := by
      rw [← h]
      exact key (daysFromYearZero year month day)
    rw [hzero, hdays]
    constructor
    · rintro ⟨rfl, rfl, rfl⟩
      rw [hs]
      decide
    · intro h1
      rw [h1] at hp
      have h2 : parseYMD "0001-01-01" = some (1, 1, 1) := by decide
      rw [h2] at hp
      simp only [Option.some.injEq, Prod.mk.injEq] at hp
      exact ⟨hp.1.symm, hp.2.1.symm, hp.2.2.symm⟩

/-- C29: for a request whose date string parses as a calendar date, whose labourer
is assigned to the project, whose project and labour ids are non-nil and whose other
fields are valid (a positive amount and a valid payment type; a valid attendance
status), `PaymentService.Create` and `WorkDayService.Create` return `ErrInvalidDate`
exactly when the parsed date is the zero time, which is exactly when the string is
"0001-01-01"; for every other date the record is persisted with that date. -/
theorem C29_zero_date (db : DB) (newID : UUID) (now : Time) (projectID : UUID)
    (preq : CreatePaymentRequest) (wreq : CreateWorkDayRequest) (pd wd : Time)
    (hpd : timeParse preq.PaymentDate = some pd) (hwd : timeParse wreq.WorkDate = some wd)
    (hpa : LabourRepository.IsAssignedToProject db projectID preq.LabourID = true)
    (hwa : LabourRepository.IsAssignedToProject db projectID wreq.LabourID = true)
    (hP : projectID ≠ 0) (hpl : preq.LabourID ≠ 0) (hwl : wreq.LabourID ≠ 0)
    (hamt : preq.Amount > 0) (htype : PaymentType.IsValid preq.PaymentType = true)
    (hstatus : WorkStatus.IsValid wreq.Status = true) :
    (pd = 0 ↔ preq.PaymentDate = "0001-01-01") ∧ (wd = 0 ↔ wreq.WorkDate = "0001-01-01") ∧
    ((PaymentService.Create db newID now projectID preq).2 = .error .ErrInvalidDate ↔
      preq.PaymentDate = "0001-01-01") ∧
    ((WorkDayService.Create db newID now projectID wreq).2 = .error .ErrInvalidDate ↔
      wreq.WorkDate = "0001-01-01") ∧
    (preq.PaymentDate = "0001-01-01" →
      PaymentService.Create db newID now projectID preq = (db, .error .ErrInvalidDate)) ∧
    (wreq.WorkDate = "0001-01-01" →
      WorkDayService.Create db newID now projectID wreq = (db, .error .ErrInvalidDate)) ∧
    (preq.PaymentDate ≠ "0001-01-01" →
      PaymentService.Create db newID now projectID preq =
        ({ db with payments := db.payments ++
            [⟨newID, projectID, preq.LabourID, preq.Amount, pd, preq.PaymentType, preq.Notes,
              now⟩] },
          .ok ⟨newID, projectID, preq.LabourID, preq.Amount, pd, preq.PaymentType, preq.Notes,
            now⟩)) ∧
    (wreq.WorkDate ≠ "0001-01-01" →
      WorkDayService.Create db newID now projectID wreq =
        ({ db with work_days := db.work_days ++
            [⟨newID, projectID, wreq.LabourID, wd, wreq.Status, wreq.Notes, now⟩] },
          .ok ⟨newID, projectID, wreq.LabourID, wd, wreq.Status, wreq.Notes, now⟩)) := by
  have hpz := timeParse_zero_iff preq.PaymentDate pd hpd
  have hwz := timeParse_zero_iff wreq.WorkDate wd hwd
  have h3 : ¬ preq.Amount < 0 := not_lt.mpr (le_of_lt hamt)
  have h4 : ¬ preq.Amount = 0 := ne_of_gt hamt
  have hpbad : pd = 0 →
      PaymentService.Create db newID now projectID preq = (db, .error .ErrInvalidDate) := by
    intro hz
    rw [PaymentService.Create_assigned db newID now projectID preq pd hpd hpa]
    simp [Payment.Validate, hP, hpl, h3, h4, Time.IsZero, hz]
  have hpgood : pd ≠ 0 →
      PaymentService.Create db newID now projectID preq =
        ({ db with payments := db.payments ++
            [⟨newID, projectID, preq.LabourID, preq.Amount, pd, preq.PaymentType, preq.Notes,
              now⟩] },
          .ok ⟨newID, projectID, preq.LabourID, preq.Amount, pd, preq.PaymentType, preq.Notes,
            now⟩) := by
    intro hz
    rw [PaymentService.Create_assigned db newID now projectID preq pd hpd hpa]
    simp [Payment.Validate, hP, hpl, h3, h4, Time.IsZero, hz, htype]
  have hwbad : wd = 0 →
      WorkDayService.Create db newID now projectID wreq = (db, .error .ErrInvalidDate) := by
    intro hz
    rw [WorkDayService.CreateWorkDay_assigned db newID now projectID wreq wd hwd hwa]
    simp [WorkDay.Validate, hP, hwl, Time.IsZero, hz]
  have hwgood : wd ≠ 0 →
      WorkDayService.Create db newID now projectID wreq =
        ({ db with work_days := db.work_days ++
            [⟨newID, projectID, wreq.LabourID, wd, wreq.Status, wreq.Notes, now⟩] },
          .ok ⟨newID, projectID, wreq.LabourID, wd, wreq.Status, wreq.Notes, now⟩) := by
    intro hz
    rw [WorkDayService.CreateWorkDay_assigned db newID now projectID wreq wd hwd hwa]
    simp [WorkDay.Validate, hP, hwl, Time.IsZero, hz, hstatus]
  refine ⟨hpz, hwz, ?_, ?_, fun h => hpbad (hpz.mpr h), fun h => hwbad (hwz.mpr h),
    fun h => hpgood (fun hz => h (hpz.mp hz)), fun h => hwgood (fun hz => h (hwz.mp hz))⟩
  · rw [← hpz]
    constructor
    · intro he
      by_contra hz
      rw [hpgood hz] at he
      cases he
    · intro hz
      rw [hpbad hz]
  · rw [← hwz]
    constructor
    · intro he
      by_contra hz
      rw [hwgood hz] at he
      cases he
    · intro hz
      rw [hwbad hz]

/-- C29 on the store `sharedDB`, pair (1, 7): a payment dated "0001-01-01" is refused
with `ErrInvalidDate`, and an attendance record dated "0001-01-02" is persisted. -/
theorem C29_zero_date_witness :
    PaymentService.Create sharedDB 50 9 1 ⟨7, 100, "0001-01-01", "advance", ""⟩ =
      (sharedDB, .error .ErrInvalidDate) ∧
    WorkDayService.Create sharedDB 50 9 1 ⟨7, "0001-01-02", "full_day", ""⟩ =
      ({ sharedDB with work_days := sharedDB.work_days ++
          [⟨50, 1, 7, dateUTC 1 1 2, "full_day", "", 9⟩] },
        .ok ⟨50, 1, 7, dateUTC 1 1 2, "full_day", "", 9⟩) :=
  ⟨(C29_zero_date sharedDB 50 9 1 ⟨7, 100, "0001-01-01", "advance", ""⟩
      ⟨7, "0001-01-02", "full_day", ""⟩ (dateUTC 1 1 1) (dateUTC 1 1 2) rfl rfl rfl rfl
      (by decide) (by decide) (by decide) (by norm_num) rfl rfl).2.2.2.2.1 rfl,
    (C29_zero_date sharedDB 50 9 1 ⟨7, 100, "0001-01-01", "advance", ""⟩
      ⟨7, "0001-01-02", "full_day", ""⟩ (dateUTC 1 1 1) (dateUTC 1 1 2) rfl rfl rfl rfl
      (by decide) (by decide) (by decide) (by norm_num) rfl rfl).2.2.2.2.2.2.2 (by decide)⟩

/-! ### The balance after a change of wage -/

/-- After `LabourRepository.Update` the labour query finds the row with the new
name, phone and wage. -/
theorem labourQuery_after_update (db : DB) (now : Time) (labour l : Labour)
    (h : labourQuery db labour.ID = some l) :
    labourQuery (LabourRepository.Update db now labour).1 labour.ID =
      some { l with Name := labour.Name, Phone := labour.Phone, DailyWage := labour.DailyWage,
                    UpdatedAt := now } ∧
    (LabourRepository.Update db now labour).2 = .ok { labour with UpdatedAt := now } ∧
    (LabourRepository.Update db now labour).1.work_days = db.work_days ∧
    (LabourRepository.Update db now labour).1.payments = db.payments := by
  have hany : db.labours.any (fun x => x.ID == labour.ID) = true := by
    simp only [List.any_eq_true, beq_iff_eq]
    exact ⟨l, List.mem_of_find?_eq_some h, by simpa using List.find?_some h⟩
  have hfind : ∀ ls : List Labour, ls.find? (fun x => x.ID == labour.ID) = some l →
      (ls.map (fun x => if x.ID == labour.ID then
          { x with Name := labour.Name, Phone := labour.Phone, DailyWage := labour.DailyWage,
                   UpdatedAt := now } else x)).find? (fun x => x.ID == labour.ID) =
        some { l with Name := labour.Name, Phone := labour.Phone, DailyWage := labour.DailyWage,
                      UpdatedAt := now } := by
    intro ls
    induction ls with
    | nil => intro h0; cases h0
    | cons x xs ih =>
      intro h0
      by_cases hx : x.ID = labour.ID
      · have h1 : x = l := by simpa [List.find?_cons, hx] using h0
        subst h1
        simp [List.find?_cons, hx]
      · have hx' : (x.ID == labour.ID) = false := by simpa using hx
        simp only [List.find?_cons, hx'] at h0
        simp only [List.map_cons, hx', Bool.false_eq_true, if_false, List.find?_cons]
        exact ih h0
  unfold LabourRepository.Update
  rw [if_pos hany]
  exact ⟨hfind db.labours h, rfl, rfl, rfl⟩

/-- C30: `TotalEarned` is computed from the labourer's current daily wage, applied
to the whole attendance history.  Let `m` be the multiplier sum of the attendance
rows of a (project, labour) pair: the number of rows of `work_days` that carry the
pair with status `full_day` plus half the number of those with status `half_day`.
If `LabourService.Update` (with a valid name and a wage `w' ≥ 0`) changes the wage of
a stored labourer from `w` to `w'`, then `GetBalance` reports `TotalEarned = w × m`
before the update and `w' × m` after it, `TotalPaid` is the same, and `Balance`
changes by `(w' − w) × m`; the update changes no attendance and no payment row. -/
theorem C30_wage_change (db : DB) (now : Time) (projectID labourID : UUID)
    (req : UpdateLabourRequest) (l : Labour) (m : ℚ)
    (hl : labourQuery db labourID = some l)
    (hname : req.Name ≠ "" ∧ len req.Name ≤ 255) (hwage : req.DailyWage ≥ 0)
    (hm : ((db.work_days.countP (fun w =>
          w.ProjectID == projectID && w.LabourID == labourID && w.Status == "full_day") : Nat) : ℚ) +
        ((db.work_days.countP (fun w =>
          w.ProjectID == projectID && w.LabourID == labourID && w.Status == "half_day") : Nat) : ℚ)
          / 2 = m) :
    ∃ updated before afterwards,
      LabourService.Update db now labourID req = ((LabourService.Update db now labourID req).1,
        .ok updated) ∧ updated.DailyWage = req.DailyWage ∧
      (LabourService.Update db now labourID req).1.work_days = db.work_days ∧
      (LabourService.Update db now labourID req).1.payments = db.payments ∧
      GetBalance db projectID labourID = .ok before ∧
      GetBalance (LabourService.Update db now labourID req).1 projectID labourID =
        .ok afterwards ∧
      before.TotalEarned = l.DailyWage * m ∧
      afterwards.TotalEarned = req.DailyWage * m ∧
      afterwards.TotalPaid = before.TotalPaid ∧
      afterwards.Balance - before.Balance = (req.DailyWage - l.DailyWage) * m := by
  have hid : l.ID = labourID := by
    have := List.find?_some hl
    simpa using this
  have hget : LabourRepository.GetByID db labourID = .ok l := by
    unfold LabourRepository.GetByID
    unfold labourQuery at hl
    rw [hl]
  have hv : Labour.Validate
      { l with Name := req.Name, Phone := req.Phone, DailyWage := req.DailyWage } = .ok () :=
    (Labour.ValidateLabour_iff _).1.mpr ⟨hname.1, hname.2, hwage⟩
  have hsvc : LabourService.Update db now labourID req =
      LabourRepository.Update db now
        { l with Name := req.Name, Phone := req.Phone, DailyWage := req.DailyWage } := by
    simp only [LabourService.Update, hget, hv]
  have hl2 : labourQuery db
      ({ l with Name := req.Name, Phone := req.Phone, DailyWage := req.DailyWage } : Labour).ID =
      some l := by
    show labourQuery db l.ID = some l
    rw [hid]
    exact hl
  obtain ⟨hq, hres, hwd, hpay⟩ := labourQuery_after_update db now
    { l with Name := req.Name, Phone := req.Phone, DailyWage := req.DailyWage } l hl2
  have hq2 : labourQuery (LabourService.Update db now labourID req).1 labourID =
      some { l with Name := req.Name, Phone := req.Phone, DailyWage := req.DailyWage,
                    UpdatedAt := now } := by
    rw [hsvc, ← hid]
    exact hq
  have hearn : earnedQuery (LabourService.Update db now labourID req).1 projectID labourID =
      earnedQuery db projectID labourID := by
    simp only [earnedQuery, workDaysOf, hsvc, hwd]
  have hpaid : paidQuery (LabourService.Update db now labourID req).1 projectID labourID =
      paidQuery db projectID labourID := by
    simp only [paidQuery, paymentsOf, hsvc, hpay]
  have hupd : LabourService.Update db now labourID req =
      ((LabourService.Update db now labourID req).1,
        .ok { l with Name := req.Name, Phone := req.Phone, DailyWage := req.DailyWage,
                     UpdatedAt := now }) := by
    rw [hsvc]
    exact Prod.ext rfl hres
  have hwd2 : (LabourService.Update db now labourID req).1.work_days = db.work_days := by
    rw [hsvc]; exact hwd
  have hpay2 : (LabourService.Update db now labourID req).1.payments = db.payments := by
    rw [hsvc]; exact hpay
  have hem : earnedQuery db projectID labourID = m := by
    rw [earnedQuery_eq_counts, hm]
  have hb := GetBalance_of_labour db projectID labourID l hl
  have ha := GetBalance_of_labour (LabourService.Update db now labourID req).1 projectID
    labourID _ hq2
  rw [hearn, hpaid, hem] at ha
  rw [hem] at hb
  exact ⟨_, _, _, hupd, rfl, hwd2, hpay2, hb, ha, rfl, rfl, rfl, by ring⟩

/-- C30 on the example store: the wage of labourer 7 is raised from 1000 to 1200;
the attendance of pair (1, 7), two `full_day` rows and one `half_day` row, has
multiplier sum 5/2, so `TotalEarned` goes from 2500 to 3000. -/
theorem C30_wage_change_witness :
    labourQuery exampleDB 7 = some ⟨7, "Ramesh", "", 1000, 0, 0⟩ ∧
    ((exampleDB.work_days.countP (fun w =>
        w.ProjectID == 1 && w.LabourID == 7 && w.Status == "full_day") : Nat) : ℚ) +
      ((exampleDB.work_days.countP (fun w =>
        w.ProjectID == 1 && w.LabourID == 7 && w.Status == "half_day") : Nat) : ℚ) / 2 = 5 / 2 ∧
    ∃ updated before afterwards,
      LabourService.Update exampleDB 5 7 ⟨"Ramesh", "", 1200⟩ =
        ((LabourService.Update exampleDB 5 7 ⟨"Ramesh", "", 1200⟩).1, .ok updated) ∧
      updated.DailyWage = 1200 ∧
      (LabourService.Update exampleDB 5 7 ⟨"Ramesh", "", 1200⟩).1.work_days =
        exampleDB.work_days ∧
      (LabourService.Update exampleDB 5 7 ⟨"Ramesh", "", 1200⟩).1.payments =
        exampleDB.payments ∧
      GetBalance exampleDB 1 7 = .ok before ∧
      GetBalance (LabourService.Update exampleDB 5 7 ⟨"Ramesh", "", 1200⟩).1 1 7 =
        .ok afterwards ∧
      before.TotalEarned = 1000 * (5 / 2) ∧
      afterwards.TotalEarned = 1200 * (5 / 2) ∧
      afterwards.TotalPaid = before.TotalPaid ∧
      afterwards.Balance - before.Balance = (1200 - 1000) * (5 / 2) :=
  have hm : ((exampleDB.work_days.countP (fun w =>
        w.ProjectID == 1 && w.LabourID == 7 && w.Status == "full_day") : Nat) : ℚ) +
      ((exampleDB.work_days.countP (fun w =>
        w.ProjectID == 1 && w.LabourID == 7 && w.Status == "half_day") : Nat) : ℚ) / 2 = 5 / 2 := by
    have h1 : exampleDB.work_days.countP (fun w =>
        w.ProjectID == 1 && w.LabourID == 7 && w.Status == "full_day") = 2 := by decide
    have h2 : exampleDB.work_days.countP (fun w =>
        w.ProjectID == 1 && w.LabourID == 7 && w.Status == "half_day") = 1 := by decide
    rw [h1, h2]
    norm_num
  ⟨rfl, hm,
    C30_wage_change exampleDB 5 1 7 ⟨"Ramesh", "", 1200⟩ ⟨7, "Ramesh", "", 1000, 0, 0⟩ (5 / 2)
      rfl ⟨by decide, by decide⟩ (by norm_num) hm⟩

end LabourThekedar
